import Mathlib

/-! ecom-account-service: a verification development

A shallow embedding of the account service (form validator, token and
credential wrappers, persistence layer, request handlers) together with
theorems about it.

Conventions of the embedding

* a Go `string` is a Lean `String` (a sequence of Unicode code points);
* a Go `error` is an `Option String`: `none` is `nil`, `some msg` is an
  error whose `Error()` text is `msg`;
* a Go function returning `(T, error)` returns the pair, because the
  callers sometimes read the value next to a non-nil error;
* the wall clock, the random salt and the health of the database connection
  are explicit arguments.
-/

namespace Ecom

/-! ## Go runtime pieces used by the program -/

/-- Go `error`: `none` is `nil`, `some msg` carries the text of `Error()`. -/
abbrev error := Option String

/-- White space in the sense of Go `unicode.IsSpace`. -/
def isSpace (c : Char) : Bool :=
  let n := c.toNat
  (Nat.ble 9 n && Nat.ble n 13) || n == 32 || n == 0x85 || n == 0xA0 ||
  n == 0x1680 || (Nat.ble 0x2000 n && Nat.ble n 0x200A) || n == 0x2028 ||
  n == 0x2029 || n == 0x202F || n == 0x205F || n == 0x3000

/-- Go `strings.TrimSpace`: the string without leading and trailing white space. -/
def TrimSpace (s : String) : String :=
  String.mk ((s.data.dropWhile isSpace).reverse.dropWhile isSpace).reverse

/-! ## internal/model: records -/

/-- The `User` struct of `internal/model/model.go`. -/
structure User where
  ID : Int
  Email : String
  Password : String
  FullName : String
  Address : String
  PhoneNumber : String
  Role : String
deriving DecidableEq, Repr

/-- The zero value `User{}`. -/
def User.zero : User := ⟨0, "", "", "", "", "", ""⟩

/-- The `UserSession` struct of `internal/model/model.go`. -/
structure UserSession where
  ID : Int
  Token : String
  User : User
deriving DecidableEq, Repr

/-- The zero value `UserSession{}`. -/
def UserSession.zero : UserSession := ⟨0, "", User.zero⟩

/-! ## internal/form -/

/-- `IsUserFormValid` of `internal/form/form.go`: the six guarded returns in
source order. -/
def IsUserFormValid (u : User) (formType : String) : Bool × String :=
  if TrimSpace u.Email = "" then (false, "email empty/not found")
  else if TrimSpace u.Password = "" then (false, "password empty/not found")
  else if formType = "register" ∧ TrimSpace u.FullName = "" then
    (false, "full_name empty/not found")
  else if formType = "register" ∧ TrimSpace u.Address = "" then
    (false, "address empty/not found")
  else if formType = "register" ∧ TrimSpace u.PhoneNumber = "" then
    (false, "phone_number empty/not found")
  else if formType = "register" ∧ TrimSpace u.Role = "" then
    (false, "role empty/not found")
  else (true, "")

/-- The fields the validator inspects, in the order it inspects them: name and
value; the last four only in register mode. -/
def inspectedFields (u : User) (formType : String) : List (String × String) :=
  [("email", u.Email), ("password", u.Password)] ++
  (if formType = "register" then
    [("full_name", u.FullName), ("address", u.Address),
     ("phone_number", u.PhoneNumber), ("role", u.Role)]
   else [])

/-- The name of the first field of a list whose value is blank after trimming. -/
def firstBlank : List (String × String) → Option String
  | [] => none
  | (name, value) :: rest =>
    if TrimSpace value = "" then some name else firstBlank rest

/-! ## External library: github.com/golang-jwt/jwt/v4

The library is not part of the repository. The service uses three things of
it: `token.SignedString`, `jwt.Parse` and the signing-method values. They are
modelled by an interface (`JWTLib`) whose primitives are the encoding of a
token, the decoding of its header and payload, the signature check and the
validation of the registered time claims; `JWTLib.Parse` assembles them the
way the library parser does. -/

/-- The values of Go type `*jwt.SigningMethodHMAC`. -/
inductive SigningMethodHMAC
  | HS256
  | HS384
  | HS512
deriving DecidableEq, Repr

/-- The signing method named in a token header: one of the HMAC family, or any
other algorithm (RSA, ECDSA, "none", ...), kept by name. -/
inductive SigningMethod
  | hmac (h : SigningMethodHMAC)
  | other (alg : String)
deriving DecidableEq, Repr

/-- A value stored in `jwt.MapClaims` (Go `interface{}`): a JSON string or a
JSON number (integral numbers only). -/
inductive ClaimValue
  | str (s : String)
  | num (n : Int)
deriving DecidableEq, Repr

/-- Go `jwt.MapClaims`, a `map[string]interface{}`, as an association list
read through `MapClaims.get`. -/
abbrev MapClaims := List (String × ClaimValue)

/-- Map indexing `claims[key]`; `none` is the absent key (Go `nil`). -/
def MapClaims.get (c : MapClaims) (key : String) : Option ClaimValue :=
  List.lookup key c

/-- Map assignment `claims[key] = v`. -/
def MapClaims.set (c : MapClaims) (key : String) (v : ClaimValue) : MapClaims :=
  (key, v) :: c.filter (fun kv => kv.1 ≠ key)

/-- Go `jwt.Token`, the fields the service reads. -/
structure Token where
  Method : SigningMethod
  Claims : MapClaims
  Valid : Bool
deriving DecidableEq, Repr

/-- The primitives of the JWT library. -/
structure JWTLib where
  /-- `SignedString(key)` on a token made by `jwt.New(method)` carrying `claims`. -/
  SignedString : SigningMethod → MapClaims → String → String × error
  /-- Decoding of header and payload (`Parser.ParseUnverified`); `none` for a
  malformed token string. -/
  ParseUnverified : String → Option (SigningMethod × MapClaims)
  /-- Signature check of a token string under a key (`Method.Verify`). -/
  Verify : String → String → Bool
  /-- Check of the registered time claims at a clock reading (`MapClaims.Valid`). -/
  ClaimsValid : MapClaims → Int → Bool

/-- `jwt.Parse(tokenString, keyFunc)` at clock reading `now`: decode, ask the
key function for the key, validate the claims, verify the signature. The
error is `nil` exactly when all four steps pass, and then `Valid` is set. -/
def JWTLib.Parse (L : JWTLib) (now : Int) (tokenString : String)
    (keyFunc : Token → String × error) : Option Token × error :=
  match L.ParseUnverified tokenString with
  | none => (none, some "token is malformed")
  | some (method, claims) =>
    let token : Token := ⟨method, claims, false⟩
    match keyFunc token with
    | (_, some e) => (some token, some e)
    | (key, none) =>
      if L.ClaimsValid claims now && L.Verify tokenString key then
        (some { token with Valid := true }, none)
      else (some token, some "token is invalid")

/-- The contract of the library the service relies on: a token string that
was signed decodes to the method and claims it was signed with, verifies under
the signing key, is not blank, holds no space character (it is three base64url
segments joined by full stops), and its claims are valid at any clock reading
before a numeric `exp` when it carries neither `iat` nor `nbf`. -/
structure JWTLib.Lawful (L : JWTLib) : Prop where
  parse_signed : ∀ (m : SigningMethod) (c : MapClaims) (k s : String),
    L.SignedString m c k = (s, none) →
    ∃ c2 : MapClaims, L.ParseUnverified s = some (m, c2) ∧
      ∀ key : String, c2.get key = c.get key
  verify_signed : ∀ (m : SigningMethod) (c : MapClaims) (k s : String),
    L.SignedString m c k = (s, none) → L.Verify s k = true
  signed_nonblank : ∀ (m : SigningMethod) (c : MapClaims) (k s : String),
    L.SignedString m c k = (s, none) → TrimSpace s ≠ ""
  signed_no_space : ∀ (m : SigningMethod) (c : MapClaims) (k s : String),
    L.SignedString m c k = (s, none) → ∀ ch ∈ s.data, ch ≠ ' '
  valid_before_exp : ∀ (c : MapClaims) (now e : Int),
    c.get "exp" = some (ClaimValue.num e) → c.get "iat" = none → c.get "nbf" = none →
    now < e → L.ClaimsValid c now = true

/-! ## External library: golang.org/x/crypto/bcrypt -/

/-- The primitives of the bcrypt library; the random salt drawn by
`GenerateFromPassword` is its first argument. -/
structure Bcrypt where
  /-- `bcrypt.GenerateFromPassword(password, cost)` with the salt it draws. -/
  GenerateFromPassword : String → String → Nat → String × error
  /-- `bcrypt.CompareHashAndPassword(hashedPassword, password)`. -/
  CompareHashAndPassword : String → String → error

/-- UTF-8 encoding of one Unicode scalar value, as byte values. -/
def utf8EncodeNat (n : Nat) : List Nat :=
  if n < 0x80 then [n]
  else if n < 0x800 then [0xC0 + n / 64, 0x80 + n % 64]
  else if n < 0x10000 then [0xE0 + n / 4096, 0x80 + n / 64 % 64, 0x80 + n % 64]
  else [0xF0 + n / 262144, 0x80 + n / 4096 % 64, 0x80 + n / 64 % 64, 0x80 + n % 64]

/-- The bytes of a Go string (`[]byte(s)`). -/
def utf8Bytes (s : String) : List Nat :=
  s.data.flatMap (fun c => utf8EncodeNat c.toNat)

/-- The key material bcrypt reads from a password: the bytes of the password
followed by a zero byte, taken cyclically until the 72 bytes (18 words) of the
Blowfish key schedule are filled. -/
def bcryptKey (p : String) : List Nat :=
  (List.range 72).map (fun i => (utf8Bytes p ++ [0]).getD (i % (utf8Bytes p ++ [0]).length) 0)

/-- The contract of the bcrypt library the service relies on: a digest that
was generated for a password verifies against that password, and the outcome
of a comparison depends on the password only through its key material. -/
structure Bcrypt.Lawful (B : Bcrypt) : Prop where
  compare_generated : ∀ (salt p : String) (cost : Nat) (h : String),
    B.GenerateFromPassword salt p cost = (h, none) → B.CompareHashAndPassword h p = none
  compare_key : ∀ (h p q : String), bcryptKey p = bcryptKey q →
    B.CompareHashAndPassword h p = B.CompareHashAndPassword h q

/-- The idealisation under which a digest identifies the key material it was
computed from: only a password with the key material of the hashed one
verifies against a generated digest. -/
def Bcrypt.CollisionFree (B : Bcrypt) : Prop :=
  ∀ (salt p : String) (cost : Nat) (h q : String),
    B.GenerateFromPassword salt p cost = (h, none) → B.CompareHashAndPassword h q = none →
    bcryptKey q = bcryptKey p

/-! ## internal/config -/

/-- The variables of `internal/config/config.go` the core reads.
`JWTSigningMethod` has Go type `*jwt.SigningMethodHMAC`. -/
structure Config where
  JWTSecretKey : String
  JWTSigningMethod : SigningMethodHMAC

/-- What `InitConfig` assigns: the secret from the process environment and
`jwt.SigningMethodHS256`. -/
def InitConfig (secretFromEnv : String) : Config :=
  ⟨secretFromEnv, SigningMethodHMAC.HS256⟩

/-- The ambient, read-only surroundings of a request: the two libraries and
the configuration. -/
structure Env where
  jwt : JWTLib
  bcrypt : Bcrypt
  config : Config

/-! ## internal/utils -/

/-- `HashPassword` of `internal/utils/password.go` (cost 10). -/
def HashPassword (B : Bcrypt) (salt : String) (p : String) : String × error :=
  B.GenerateFromPassword salt p 10

/-- `ComparePassword` of `internal/utils/password.go`. -/
def ComparePassword (B : Bcrypt) (hp : String) (p : String) : error :=
  B.CompareHashAndPassword hp p

/-- The text Go prints with `%v` for a `float64` holding the integer `n`
(JSON numbers decode to `float64`): plain digits below one million, otherwise
shortest digits in exponent form. Exact for `|n| < 2^53`. -/
def formatFloat (n : Int) : String :=
  let sign : List Char := if n < 0 then ['-'] else []
  let digits : List Char := Nat.toDigits 10 n.natAbs
  let exp : Nat := digits.length - 1
  if exp < 6 then String.mk (sign ++ digits)
  else
    let shortest : List Char := (digits.reverse.dropWhile (fun c => c = '0')).reverse
    let mantissa : List Char :=
      match shortest with
      | [] => ['0']
      | [d] => [d]
      | d :: ds => d :: '.' :: ds
    let e : List Char := if exp < 10 then '0' :: Nat.toDigits 10 exp else Nat.toDigits 10 exp
    String.mk (sign ++ mantissa ++ ['e', '+'] ++ e)

/-- Go `fmt.Sprint` on one `interface{}` read from the claims: a string prints
as itself, a number as `formatFloat`, the absent key (`nil`) as `<nil>`. -/
def Sprint : Option ClaimValue → String
  | none => "<nil>"
  | some (ClaimValue.str s) => s
  | some (ClaimValue.num n) => formatFloat n

/-- `GenerateJWT` of `internal/utils/jwt.go`; `now` is `time.Now().Unix()`, so
that `time.Now().Add(time.Minute * 30).Unix()` is `now + 1800`. -/
def GenerateJWT (L : JWTLib) (cfg : Config) (now : Int) (email : String) (role : String) :
    String × error :=
  let claims : MapClaims :=
    ((MapClaims.set [] "email" (ClaimValue.str email)).set "role" (ClaimValue.str role)).set
      "exp" (ClaimValue.num (now + 1800))
  match L.SignedString (SigningMethod.hmac cfg.JWTSigningMethod) claims cfg.JWTSecretKey with
  | (_, some e) => ("", some e)
  | (tokenString, none) => (tokenString, none)

/-- The key function `ValidateJWT` hands to `jwt.Parse`: the secret for a token
of the HMAC family, an error for any other method. -/
def keyFunc (cfg : Config) (token : Token) : String × error :=
  match token.Method with
  | SigningMethod.hmac _ => (cfg.JWTSecretKey, none)
  | SigningMethod.other _ => ("", some "token not using the right signing method")

/-- Go map indexing on a `map[string]string`: the zero value for an absent key. -/
def mapGet (m : List (String × String)) (key : String) : String :=
  (List.lookup key m).getD ""

/-- `ValidateJWT` of `internal/utils/jwt.go` at clock reading `now`; `none` is
the `nil` map. -/
def ValidateJWT (L : JWTLib) (cfg : Config) (now : Int) (tokenString : String) :
    Option (List (String × String)) :=
  match L.Parse now tokenString (keyFunc cfg) with
  | (_, some _) => none
  | (none, none) => none
  | (some token, none) =>
    if !token.Valid then none
    else
      let claimsMap : List (String × String) :=
        [("email", Sprint (token.Claims.get "email")),
         ("role", Sprint (token.Claims.get "role"))]
      if claimsMap.any (fun item => TrimSpace item.2 = "") then none
      else some claimsMap

/-! ## The database

PostgreSQL with the two tables `InitDB` of `api/api.go` creates. A table is the
list of its rows in storage order; a `SERIAL` column draws from a sequence
whose last value is kept next to the tables. Statements run one request at a
time. A failed transaction leaves the tables as they were; a sequence is not
wound back. A text value is a `String`; the limit of a `VARCHAR(n)` column
counts characters, and two text values are equal when they have the same
characters, trailing spaces included. -/

/-- A row of `account_user`. -/
structure UserRow where
  id : Int
  email : String
  password : String
  full_name : String
  address : String
  phone_number : String
  role : String
deriving DecidableEq, Repr

/-- A row of `account_usersession`. -/
structure SessionRow where
  id : Int
  token : String
  account_user_id : Int
deriving DecidableEq, Repr

/-- The database: both tables and the last values of both id sequences. -/
structure DB where
  account_user : List UserRow
  account_usersession : List SessionRow
  account_user_id_seq : Nat
  account_usersession_id_seq : Nat
deriving DecidableEq, Repr

/-- The health of the connection during one call of a model function: the
error, if any, the driver reports for `Begin`, for `Exec`, for `QueryRow` and
for `Commit`, independently of what the statement itself does. -/
structure Conn where
  beginErr : error
  execErr : error
  queryErr : error
  commitErr : error
deriving DecidableEq, Repr

/-- A connection on which no driver call fails. -/
def Conn.healthy : Conn := ⟨none, none, none, none⟩

/-- The text of `sql.ErrNoRows`. -/
def ErrNoRows : String := "sql: no rows in result set"

/-- A name between double quotes, as the driver prints table and constraint names. -/
def quoted (name : String) : String :=
  String.mk [Char.ofNat 34] ++ name ++ String.mk [Char.ofNat 34]

/-- The text of a unique-constraint violation as the driver reports it. -/
def uniqueViolation (constraintName : String) : String :=
  "pq: duplicate key value violates unique constraint " ++ quoted constraintName

/-- The text of a `VARCHAR(n)` overflow. -/
def tooLong (n : Nat) : String :=
  "pq: value too long for type character varying(" ++ toString n ++ ")"

/-- The tables restored after a rollback, the sequences as the failed
transaction left them. -/
def rollback (before : DB) (after : DB) : DB :=
  { before with
    account_user_id_seq := after.account_user_id_seq
    account_usersession_id_seq := after.account_usersession_id_seq }

/-- Assignment of a text value to a `VARCHAR(n)` column: a value of at most `n`
characters is stored as it is; a longer one is stored cut to its first `n`
characters when every character after them is a space (U+0020), and is refused
otherwise. -/
def varchar (n : Nat) (s : String) : Except String String :=
  if s.length ≤ n then Except.ok s
  else if (s.data.drop n).all (fun c => c = ' ') then Except.ok (String.mk (s.data.take n))
  else Except.error (tooLong n)

/-- The row made of an id and the six values of the `INSERT` into
`account_user`, each assigned to its column in the order of the table; the
first value that is refused gives the error. -/
def userRowOf (id : Int) (email password full_name address phone_number role : String) :
    Except String UserRow :=
  match varchar 50 email with
  | Except.error e => Except.error e
  | Except.ok email1 =>
    match varchar 100 password with
    | Except.error e => Except.error e
    | Except.ok password1 =>
      match varchar 50 full_name with
      | Except.error e => Except.error e
      | Except.ok full_name1 =>
        match varchar 100 address with
        | Except.error e => Except.error e
        | Except.ok address1 =>
          match varchar 20 phone_number with
          | Except.error e => Except.error e
          | Except.ok phone_number1 =>
            match varchar 20 role with
            | Except.error e => Except.error e
            | Except.ok role1 =>
              Except.ok ⟨id, email1, password1, full_name1, address1, phone_number1, role1⟩

/-- The statement `INSERT INTO account_user(email, password, full_name, address,
phone_number, role) VALUES(...) RETURNING id` under the column types and
constraints of `InitDB`: the id is the next value of the sequence; the values
are assigned to their `VARCHAR` columns; the row is refused when a value is
refused by its column or when the id or the stored email is already present. -/
def DB.insertUser (db : DB) (email password full_name address phone_number role : String) :
    DB × Except String Int :=
  let id : Int := (db.account_user_id_seq + 1 : Nat)
  let db1 : DB := { db with account_user_id_seq := db.account_user_id_seq + 1 }
  match userRowOf id email password full_name address phone_number role with
  | Except.error e => (db1, Except.error e)
  | Except.ok row =>
    if db.account_user.any (fun r => r.id = id) then
      (db1, Except.error (uniqueViolation "account_user_pkey"))
    else if db.account_user.any (fun r => r.email = row.email) then
      (db1, Except.error (uniqueViolation "account_user_email_key"))
    else
      ({ db1 with account_user := db.account_user ++ [row] }, Except.ok id)

/-- The statement `DELETE FROM account_usersession WHERE account_user_id = $1`. -/
def DB.deleteSessionsOfUser (db : DB) (userID : Int) : DB :=
  { db with account_usersession :=
      db.account_usersession.filter (fun s => s.account_user_id ≠ userID) }

/-- The statement `DELETE FROM account_usersession WHERE token = $1`. -/
def DB.deleteSessionsWithToken (db : DB) (tokenString : String) : DB :=
  { db with account_usersession :=
      db.account_usersession.filter (fun s => s.token ≠ tokenString) }

/-- The statement `INSERT INTO account_usersession(token, account_user_id)
VALUES($1,$2) RETURNING id` under the column types and constraints of `InitDB`:
the token is assigned to its `VARCHAR(200)` column; the row is refused when the
token is refused by the column, when the id, the stored token or the user id
is already present, or when no user has that id. -/
def DB.insertSession (db : DB) (token : String) (userID : Int) : DB × Except String Int :=
  let id : Int := (db.account_usersession_id_seq + 1 : Nat)
  let db1 : DB := { db with account_usersession_id_seq := db.account_usersession_id_seq + 1 }
  match varchar 200 token with
  | Except.error e => (db1, Except.error e)
  | Except.ok token1 =>
    if db.account_usersession.any (fun s => s.id = id) then
      (db1, Except.error (uniqueViolation "account_usersession_pkey"))
    else if db.account_usersession.any (fun s => s.token = token1) then
      (db1, Except.error (uniqueViolation "account_usersession_token_key"))
    else if db.account_usersession.any (fun s => s.account_user_id = userID) then
      (db1, Except.error (uniqueViolation "account_usersession_account_user_id_key"))
    else if !db.account_user.any (fun r => r.id = userID) then
      (db1, Except.error
        ("pq: insert or update on table " ++ quoted "account_usersession" ++
          " violates foreign key constraint " ++ quoted "fk_account_user"))
    else
      ({ db1 with account_usersession := db.account_usersession ++ [⟨id, token1, userID⟩] },
       Except.ok id)

/-- The columns of a user row scanned into a `User`, in the order of the
`Scan` calls. -/
def UserRow.toUser (r : UserRow) : User :=
  ⟨r.id, r.email, r.password, r.full_name, r.address, r.phone_number, r.role⟩

/-! ## internal/model: functions -/

/-- `CreateUser` of `internal/model/model.go`. -/
def CreateUser (B : Bcrypt) (salt : String) (conn : Conn) (db : DB) (u : User) :
    DB × User × error :=
  match HashPassword B salt u.Password with
  | (_, some e) => (db, u, some e)
  | (hashedPassword, none) =>
    match conn.beginErr with
    | some e => (db, u, some e)
    | none =>
      match conn.queryErr with
      | some e => (db, u, some e)
      | none =>
        match db.insertUser u.Email hashedPassword u.FullName u.Address u.PhoneNumber u.Role with
        | (db1, Except.error e) => (rollback db db1, u, some e)
        | (db1, Except.ok id) =>
          match conn.commitErr with
          | some e => (rollback db db1, { u with ID := id }, some e)
          | none => (db1, { u with ID := id }, none)

/-- `GetUser` of `internal/model/model.go`: by email when `ID` is 0, by id
otherwise; `QueryRow` keeps the first row and `Scan` reports `sql.ErrNoRows`
when there is none. -/
def GetUser (conn : Conn) (db : DB) (email : String) (ID : Int) : User × error :=
  match conn.queryErr with
  | some e => (User.zero, some e)
  | none =>
    let found : Option UserRow :=
      if ID = 0 then db.account_user.find? (fun r => r.email = email)
      else db.account_user.find? (fun r => r.id = ID)
    match found with
    | none => (User.zero, some ErrNoRows)
    | some r => (r.toUser, none)

/-- `CreateUserSession` of `internal/model/model.go`: begin, delete the rows of
the user, insert the new row, scan its id, commit; the deferred rollback undoes
the delete on every early return. -/
def CreateUserSession (conn : Conn) (db : DB) (us : UserSession) : DB × UserSession × error :=
  match conn.beginErr with
  | some e => (db, us, some e)
  | none =>
    match conn.execErr with
    | some e => (db, us, some e)
    | none =>
      let db1 := db.deleteSessionsOfUser us.User.ID
      match conn.queryErr with
      | some e => (db, us, some e)
      | none =>
        match db1.insertSession us.Token us.User.ID with
        | (db2, Except.error e) => (rollback db db2, us, some e)
        | (db2, Except.ok id) =>
          match conn.commitErr with
          | some e => (rollback db db2, { us with ID := id }, some e)
          | none => (db2, { us with ID := id }, none)

/-- `GetUserSession` of `internal/model/model.go`. The `WHERE` clause keeps the
session rows with that token and user id; the outer join pairs such a row with
the user row of that id, or with NULLs when there is none, and `Scan` then
stops at the fourth column with the first three destinations assigned.
`QueryRow` keeps the first row; `Scan` reports `sql.ErrNoRows` when there is
none. -/
def GetUserSession (conn : Conn) (db : DB) (tokenString : String) (userID : Int) :
    UserSession × error :=
  match conn.queryErr with
  | some e => (UserSession.zero, some e)
  | none =>
    match db.account_usersession.find?
        (fun s => s.token = tokenString ∧ s.account_user_id = userID) with
    | none => (UserSession.zero, some ErrNoRows)
    | some s =>
      match db.account_user.find? (fun r => r.id = s.account_user_id) with
      | none =>
        (⟨s.id, s.token, { User.zero with ID := s.account_user_id }⟩,
         some "sql: Scan error on column index 3: converting NULL to int is unsupported")
      | some r => (⟨s.id, s.token, r.toUser⟩, none)

/-- `DeleteUserSession` of `internal/model/model.go`. -/
def DeleteUserSession (conn : Conn) (db : DB) (tokenString : String) : DB × error :=
  match conn.beginErr with
  | some e => (db, some e)
  | none =>
    match conn.execErr with
    | some e => (db, some e)
    | none =>
      match conn.commitErr with
      | some e => (db, some e)
      | none => (db.deleteSessionsWithToken tokenString, none)

/-- `AuthenticateUser` of `internal/model/model.go`; `c1` is the connection
during `GetUser`, `c2` during `CreateUserSession`. Returns the database, the
token, the status, the user read and the error. -/
def AuthenticateUser (E : Env) (now : Int) (c1 c2 : Conn) (db : DB) (u : User) :
    DB × String × Nat × User × error :=
  match GetUser c1 db u.Email 0 with
  | (existedUser, some _) => (db, "", 400, existedUser, none)
  | (existedUser, none) =>
    match ComparePassword E.bcrypt existedUser.Password u.Password with
    | some _ => (db, "", 400, existedUser, none)
    | none =>
      match GenerateJWT E.jwt E.config now existedUser.Email existedUser.Role with
      | (_, some e) => (db, "", 500, existedUser, some e)
      | (tokenString, none) =>
        match CreateUserSession c2 db ⟨0, tokenString, existedUser⟩ with
        | (db1, _, some e) => (db1, "", 500, existedUser, some e)
        | (db1, _, none) => (db1, tokenString, 200, existedUser, none)

/-! ## api: request handlers

A request is the list of its form fields; a response is its status code and
its JSON body before marshalling. -/

/-- The form fields of a request, name and value. -/
abbrev Request := List (String × String)

/-- Go `r.FormValue(key)`: the first value of the field, the empty string when
the field is absent. -/
def FormValue (r : Request) (key : String) : String :=
  (List.lookup key r).getD ""

/-- Go `strings.Contains`. -/
def Contains (s : String) (substr : String) : Bool :=
  s.data.tails.any (fun t => substr.data.isPrefixOf t)

/-- A value of a `map[string]any` response body. -/
inductive Any
  | str (s : String)
  | int (n : Int)
  | err (e : error)
deriving DecidableEq, Repr

/-- A response body: a map of named values, or a user record. -/
inductive Body
  | content (m : List (String × Any))
  | data (u : User)
deriving DecidableEq, Repr

/-- A response: status code and body. -/
structure Response where
  status : Nat
  body : Body
deriving DecidableEq, Repr

/-- A body holding only a message. -/
def messageBody (msg : String) : Body :=
  Body.content [("message", Any.str msg)]

/-- `RegisterHandler` of `api/api.go`. -/
def RegisterHandler (E : Env) (salt : String) (conn : Conn) (db : DB) (r : Request) :
    DB × Response :=
  let u : User :=
    ⟨0, FormValue r "email", FormValue r "password", FormValue r "full_name",
      FormValue r "address", FormValue r "phone_number", FormValue r "role"⟩
  match IsUserFormValid u "register" with
  | (true, _) =>
    match CreateUser E.bcrypt salt conn db u with
    | (db1, created, none) =>
      (db1, ⟨200, Body.content
        [("message", Any.str "User registered!"), ("id", Any.int created.ID)]⟩)
    | (db1, _, some e) =>
      if Contains e "duplicate" && Contains e "email" then
        (db1, ⟨400, messageBody "Email already registered, please use another email"⟩)
      else
        (db1, ⟨500, messageBody ("There's an error when register user => " ++ e)⟩)
  | (false, errString) => (db, ⟨400, messageBody errString⟩)

/-- `LoginHandler` of `api/api.go`. -/
def LoginHandler (E : Env) (now : Int) (c1 c2 : Conn) (db : DB) (r : Request) :
    DB × Response :=
  let u : User := ⟨0, FormValue r "email", FormValue r "password", "", "", "", ""⟩
  match IsUserFormValid u "login" with
  | (true, _) =>
    match AuthenticateUser E now c1 c2 db u with
    | (db1, token, status, authenticated, err) =>
      if status = 200 ∧ err = none then
        (db1, ⟨200, Body.content
          [("message", Any.str "User logged in!"), ("token", Any.str token),
           ("role", Any.str authenticated.Role)]⟩)
      else if status = 400 then
        (db1, ⟨400, messageBody "Email or Password invalid"⟩)
      else
        (db1, ⟨500, Body.content [("message", Any.err err)]⟩)
  | (false, errString) => (db, ⟨400, messageBody errString⟩)

/-- `AuthorizeHandler` of `api/api.go`; `c1` is the connection during `GetUser`,
`c2` during `GetUserSession`. The handler only reads the database. -/
def AuthorizeHandler (E : Env) (now : Int) (c1 c2 : Conn) (db : DB) (r : Request) : Response :=
  let tokenString := FormValue r "token"
  if TrimSpace tokenString ≠ "" then
    match ValidateJWT E.jwt E.config now tokenString with
    | some tokenClaimsMap =>
      match GetUser c1 db (mapGet tokenClaimsMap "email") 0 with
      | (user, none) =>
        match GetUserSession c2 db tokenString user.ID with
        | (userSession, none) =>
          if userSession.ID ≠ 0 then ⟨200, Body.data { user with Password := "" }⟩
          else ⟨400, messageBody "Token not valid"⟩
        | (_, some e) => ⟨500, messageBody e⟩
      | (_, some e) => ⟨500, messageBody e⟩
    | none => ⟨400, messageBody "Token not valid"⟩
  else ⟨400, messageBody "Token empty/not found"⟩

/-- `LogoutHandler` of `api/api.go`. -/
def LogoutHandler (conn : Conn) (db : DB) (r : Request) : DB × Response :=
  let tokenString := FormValue r "token"
  if TrimSpace (FormValue r "token") ≠ "" then
    match DeleteUserSession conn db tokenString with
    | (db1, none) => (db1, ⟨200, messageBody "User logged out"⟩)
    | (db1, some e) => (db1, ⟨500, Body.content [("message", Any.err (some e))]⟩)
  else (db, ⟨400, messageBody "Token empty/not found"⟩)

/-- The value of a non-empty run of ASCII decimal digits read after the
digits already valued `acc`; `none` when a character is not a digit. -/
def digitsValue : List Char → Nat → Option Nat
  | [], acc => some acc
  | c :: cs, acc =>
    if 48 ≤ c.toNat ∧ c.toNat ≤ 57 then digitsValue cs (acc * 10 + (c.toNat - 48)) else none

/-- The text of the error `strconv.Atoi` reports for input `s` (the input is
printed between double quotes; the escapes of `strconv.Quote` are left out). -/
def atoiError (s : String) (reason : String) : String :=
  "strconv.Atoi: parsing " ++ quoted s ++ ": " ++ reason

/-- Go `strconv.Atoi` for the 64-bit `int`: an optional sign followed by at
least one decimal digit; a value outside the `int` range is reported as out of
range next to the nearest bound. -/
def Atoi (s : String) : Int × error :=
  let signed : Bool × List Char :=
    match s.data with
    | [] => (false, [])
    | c :: cs => if c = '-' then (true, cs) else if c = '+' then (false, cs) else (false, c :: cs)
  match signed.2 with
  | [] => (0, some (atoiError s "invalid syntax"))
  | d :: ds =>
    match digitsValue (d :: ds) 0 with
    | none => (0, some (atoiError s "invalid syntax"))
    | some n =>
      let v : Int := if signed.1 then -(n : Int) else (n : Int)
      if v < -(2 : Int) ^ 63 then (-(2 : Int) ^ 63, some (atoiError s "value out of range"))
      else if (2 : Int) ^ 63 - 1 < v then
        ((2 : Int) ^ 63 - 1, some (atoiError s "value out of range"))
      else (v, none)

/-- `GetUserHandler` of `api/api.go`; the `id` and `email` query parameters are
read like form fields. -/
def GetUserHandler (conn : Conn) (db : DB) (r : Request) : Response :=
  let stringID := FormValue r "id"
  if TrimSpace stringID ≠ "" then
    match Atoi stringID with
    | (ID, none) =>
      match GetUser conn db "" ID with
      | (user, none) => ⟨200, Body.data { user with Password := "" }⟩
      | (_, some e) => ⟨500, messageBody e⟩
    | (_, some e) => ⟨400, messageBody e⟩
  else
    let email := FormValue r "email"
    if TrimSpace email ≠ "" then
      match GetUser conn db email 0 with
      | (user, none) => ⟨200, Body.data { user with Password := "" }⟩
      | (_, some e) => ⟨500, messageBody e⟩
    else ⟨400, messageBody "email empty/not found"⟩

/-! ## The service as a state machine over the database -/

/-- One operation on the database, with everything it reads from outside: the
three mutating routes and the model functions below them. -/
inductive Op
  | register (salt : String) (conn : Conn) (r : Request)
  | login (now : Int) (c1 c2 : Conn) (r : Request)
  | logout (conn : Conn) (r : Request)
  | createUser (salt : String) (conn : Conn) (u : User)
  | authenticateUser (now : Int) (c1 c2 : Conn) (u : User)
  | createUserSession (conn : Conn) (us : UserSession)
  | deleteUserSession (conn : Conn) (tokenString : String)

/-- The database after one operation, whether it succeeded or failed. -/
def step (E : Env) (db : DB) : Op → DB
  | Op.register salt conn r => (RegisterHandler E salt conn db r).1
  | Op.login now c1 c2 r => (LoginHandler E now c1 c2 db r).1
  | Op.logout conn r => (LogoutHandler conn db r).1
  | Op.createUser salt conn u => (CreateUser E.bcrypt salt conn db u).1
  | Op.authenticateUser now c1 c2 u => (AuthenticateUser E now c1 c2 db u).1
  | Op.createUserSession conn us => (CreateUserSession conn db us).1
  | Op.deleteUserSession conn tokenString => (DeleteUserSession conn db tokenString).1

/-- The database after a finite sequence of operations. -/
def run (E : Env) (db : DB) (ops : List Op) : DB :=
  ops.foldl (step E) db

/-- The session rows of a user. -/
def sessionsOf (db : DB) (userID : Int) : List SessionRow :=
  db.account_usersession.filter (fun s => s.account_user_id = userID)

/-- Session singleton: every user id occurs in at most one session row. -/
def SessionSingleton (db : DB) : Prop :=
  ∀ userID : Int, (sessionsOf db userID).length ≤ 1

/-! ## A small implementation of the two library interfaces

Used to instantiate the theorems below at concrete inputs. A token is the
method, the claims and a keyed checksum written one after the other in a
self-delimiting text format that holds no space; a digest is the cost, the
salt and the key material of the password. Neither is cryptography: they only
behave like the libraries on the functional side (encode, decode, recompute
and compare). -/

namespace Demo

/-- Binary digits of `n`, least significant first, at most `fuel` of them. -/
def bits : Nat → Nat → List Char
  | 0, _ => []
  | fuel + 1, n =>
    if n = 0 then [] else (if n % 2 = 1 then '1' else '0') :: bits fuel (n / 2)

/-- A natural number in front of `rest`: its binary digits and a full stop. -/
def putNat (n : Nat) (rest : List Char) : List Char :=
  bits n n ++ '.' :: rest

/-- Reads back what `putNat` wrote. -/
def getNat : List Char → Option (Nat × List Char)
  | [] => none
  | c :: cs =>
    if c = '.' then some (0, cs)
    else if c = '1' then (getNat cs).map (fun p => (2 * p.1 + 1, p.2))
    else if c = '0' then (getNat cs).map (fun p => (2 * p.1, p.2))
    else none

/-- The characters of a text with every space written as a tilde and an
underscore, and every tilde written twice. -/
def escape : List Char → List Char
  | [] => []
  | c :: cs =>
    if c = ' ' then '~' :: '_' :: escape cs
    else if c = '~' then '~' :: '~' :: escape cs
    else c :: escape cs

/-- Reads back what `escape` wrote. -/
def unescape : List Char → List Char
  | [] => []
  | c :: cs =>
    if c = '~' then
      match cs with
      | [] => [c]
      | d :: ds => (if d = '_' then ' ' else d) :: unescape ds
    else c :: unescape cs

/-- A string in front of `rest`: the length of its escaped text, then that text. -/
def putStr (s : String) (rest : List Char) : List Char :=
  putNat (escape s.data).length (escape s.data ++ rest)

/-- Reads back what `putStr` wrote. -/
def getStr (l : List Char) : Option (String × List Char) :=
  match getNat l with
  | none => none
  | some (n, r) =>
    if n ≤ r.length then some (String.mk (unescape (r.take n)), r.drop n) else none

/-- An integer in front of `rest`: a sign character and a natural number. -/
def putInt (z : Int) (rest : List Char) : List Char :=
  match z with
  | Int.ofNat n => '+' :: putNat n rest
  | Int.negSucc n => '-' :: putNat n rest

/-- Reads back what `putInt` wrote. -/
def getInt : List Char → Option (Int × List Char)
  | [] => none
  | c :: cs =>
    if c = '+' then (getNat cs).map (fun p => (Int.ofNat p.1, p.2))
    else if c = '-' then (getNat cs).map (fun p => (Int.negSucc p.1, p.2))
    else none

/-- A claim value in front of `rest`. -/
def putValue (v : ClaimValue) (rest : List Char) : List Char :=
  match v with
  | ClaimValue.str s => 's' :: putStr s rest
  | ClaimValue.num n => 'n' :: putInt n rest

/-- Reads back what `putValue` wrote. -/
def getValue : List Char → Option (ClaimValue × List Char)
  | [] => none
  | c :: cs =>
    if c = 's' then (getStr cs).map (fun p => (ClaimValue.str p.1, p.2))
    else if c = 'n' then (getInt cs).map (fun p => (ClaimValue.num p.1, p.2))
    else none

/-- The entries of a claim set in front of `rest`. -/
def putEntries : MapClaims → List Char → List Char
  | [], rest => rest
  | (k, v) :: c, rest => putStr k (putValue v (putEntries c rest))

/-- Reads back `n` entries. -/
def getEntries : Nat → List Char → Option (MapClaims × List Char)
  | 0, l => some ([], l)
  | n + 1, l =>
    match getStr l with
    | none => none
    | some (k, l1) =>
      match getValue l1 with
      | none => none
      | some (v, l2) =>
        match getEntries n l2 with
        | none => none
        | some (c, l3) => some ((k, v) :: c, l3)

/-- A signing method in front of `rest`. -/
def putMethod (m : SigningMethod) (rest : List Char) : List Char :=
  match m with
  | SigningMethod.hmac SigningMethodHMAC.HS256 => 'a' :: rest
  | SigningMethod.hmac SigningMethodHMAC.HS384 => 'b' :: rest
  | SigningMethod.hmac SigningMethodHMAC.HS512 => 'c' :: rest
  | SigningMethod.other alg => 'o' :: putStr alg rest

/-- Reads back what `putMethod` wrote. -/
def getMethod : List Char → Option (SigningMethod × List Char)
  | [] => none
  | c :: cs =>
    if c = 'a' then some (SigningMethod.hmac SigningMethodHMAC.HS256, cs)
    else if c = 'b' then some (SigningMethod.hmac SigningMethodHMAC.HS384, cs)
    else if c = 'c' then some (SigningMethod.hmac SigningMethodHMAC.HS512, cs)
    else if c = 'o' then (getStr cs).map (fun p => (SigningMethod.other p.1, p.2))
    else none

/-- Header and payload of a token in front of `rest`. -/
def signingInput (m : SigningMethod) (c : MapClaims) (rest : List Char) : List Char :=
  putMethod m (putNat c.length (putEntries c rest))

/-- The keyed checksum of a signing input. -/
def checksum (key : String) (input : List Char) : List Char :=
  escape key.data ++ input

/-- Splits a token into method, claims and checksum. -/
def decode (l : List Char) : Option (SigningMethod × MapClaims × List Char) :=
  match getMethod l with
  | none => none
  | some (m, l1) =>
    match getNat l1 with
    | none => none
    | some (n, l2) =>
      match getEntries n l2 with
      | none => none
      | some (c, sig) => some (m, c, sig)

/-- One registered time claim: absent or zero passes, a number is compared
with the clock, anything else fails. -/
def timeClaimOk (v : Option ClaimValue) (ok : Int → Bool) : Bool :=
  match v with
  | none => true
  | some (ClaimValue.num t) => t == 0 || ok t
  | some (ClaimValue.str _) => false

/-- The JWT interface implemented with the text format above. -/
def jwt : JWTLib where
  SignedString m c k :=
    (String.mk (signingInput m c (checksum k (signingInput m c []))), none)
  ParseUnverified s := (decode s.data).map (fun p => (p.1, p.2.1))
  Verify s k :=
    match decode s.data with
    | none => false
    | some (m, c, sig) => sig = checksum k (signingInput m c [])
  ClaimsValid c now :=
    timeClaimOk (c.get "exp") (fun t => decide (now < t)) &&
    timeClaimOk (c.get "iat") (fun t => decide (t ≤ now)) &&
    timeClaimOk (c.get "nbf") (fun t => decide (t ≤ now))

/-- The bcrypt interface implemented as cost, salt and the key material of the
password, one character per key byte; a password of more than 72 bytes is
refused when hashing. -/
def bcrypt : Bcrypt where
  GenerateFromPassword salt p cost :=
    if 72 < (utf8Bytes p).length then ("", some "bcrypt: password length exceeds 72 bytes")
    else (String.mk ('$' :: putNat cost (putStr salt ((bcryptKey p).map Char.ofNat))), none)
  CompareHashAndPassword hp p :=
    match hp.data with
    | [] => some "crypto/bcrypt: hashedSecret too short to be a bcrypted password"
    | c :: l =>
      if c = '$' then
        match getNat l with
        | none => some "crypto/bcrypt: hashedSecret too short to be a bcrypted password"
        | some (_, l1) =>
          match getStr l1 with
          | none => some "crypto/bcrypt: hashedSecret too short to be a bcrypted password"
          | some (_, digest) =>
            if digest = (bcryptKey p).map Char.ofNat then none
            else some "crypto/bcrypt: hashedPassword is not the hash of the given password"
      else some "crypto/bcrypt: hashedSecret too short to be a bcrypted password"

/-- The surroundings built from the two implementations and a secret. -/
def env : Env := ⟨jwt, bcrypt, InitConfig "secret"⟩

/-- A database with both tables empty. -/
def emptyDB : DB := ⟨[], [], 0, 0⟩

/-- The register form of the first concrete scenario of the specification. -/
def registerRequest : Request :=
  [("email", "a@b.c"), ("password", "x"), ("full_name", "A"), ("address", "A"),
   ("phone_number", "0"), ("role", "user")]

/-- The login form of the same user. -/
def loginRequest : Request := [("email", "a@b.c"), ("password", "x")]

/-- The database after that user registered on an empty database. -/
def registeredDB : DB :=
  (RegisterHandler env "salt" Conn.healthy emptyDB registerRequest).1

/-- The token that user obtains by logging in at clock reading `now`. -/
def tokenAt (now : Int) : String :=
  (GenerateJWT jwt env.config now "a@b.c" "user").1

end Demo

/-! ## Theorems -/

theorem TrimSpace_eq_empty_iff (s : String) :
    TrimSpace s = "" ↔ ∀ c ∈ s.data, isSpace c = true := by
  unfold TrimSpace
  constructor
  · intro h
    have h1 : ((s.data.dropWhile isSpace).reverse.dropWhile isSpace).reverse = [] := by
      have := congrArg String.data h
      simpa using this
    have h2 : (s.data.dropWhile isSpace).reverse.dropWhile isSpace = [] := by
      simpa using h1
    have h3 : ∀ c ∈ s.data.dropWhile isSpace, isSpace c = true := by
      intro c hc
      have := List.dropWhile_eq_nil_iff.mp h2 c (by simpa using hc)
      exact this
    by_contra hne
    push_neg at hne
    have h4 : s.data.dropWhile isSpace ≠ [] := by
      intro h5
      obtain ⟨c, hc, hcs⟩ := hne
      exact hcs (List.dropWhile_eq_nil_iff.mp h5 c hc)
    cases hd : s.data.dropWhile isSpace with
    | nil => exact h4 hd
    | cons a l =>
      have ha : isSpace a = true := h3 a (by simp [hd])
      have := List.head_dropWhile_not isSpace s.data (by simp [hd])
      simp [hd] at this
      simp [ha] at this
  · intro h
    have h5 : s.data.dropWhile isSpace = [] := List.dropWhile_eq_nil_iff.mpr h
    simp [h5]

/-! ### Assignment to a `VARCHAR` column -/

theorem varchar_of_length_le (n : Nat) (s : String) (h : s.length ≤ n) :
    varchar n s = Except.ok s := by
  unfold varchar
  rw [if_pos h]

theorem varchar_eq_ok (n : Nat) (s t : String) (h : varchar n s = Except.ok t) :
    t = String.mk (s.data.take n) ∧ t.length ≤ n ∧ (s.length ≤ n → t = s) ∧
    (∀ ch ∈ s.data.drop n, ch = ' ') := by
  unfold varchar at h
  split_ifs at h with h1 h2
  · have ht : s = t := by simpa using h
    subst ht
    have hl : s.data.length ≤ n := h1
    refine ⟨?_, h1, fun _ => rfl, ?_⟩
    · rw [List.take_of_length_le hl]
    · rw [List.drop_of_length_le hl]
      intro ch hch
      simp at hch
  · have ht : String.mk (s.data.take n) = t := by simpa using h
    subst ht
    refine ⟨rfl, ?_, fun hl => absurd hl h1, ?_⟩
    · show (s.data.take n).length ≤ n
      simp
    · intro ch hch
      have := List.all_eq_true.mp h2 ch hch
      simpa using this

theorem varchar_eq_error (n : Nat) (s e : String) (h : varchar n s = Except.error e) :
    e = tooLong n ∧ n < s.length := by
  unfold varchar at h
  split_ifs at h with h1 h2
  have he : tooLong n = e := by simpa using h
  exact ⟨he.symm, by omega⟩

theorem varchar_of_no_space (n : Nat) (s t : String) (hs : ∀ ch ∈ s.data, ch ≠ ' ')
    (h : varchar n s = Except.ok t) : t = s ∧ s.length ≤ n := by
  obtain ⟨-, -, hfit, hdrop⟩ := varchar_eq_ok n s t h
  have hl : s.length ≤ n := by
    by_contra hlt
    have hne : s.data.drop n ≠ [] := by
      intro h0
      have := List.drop_eq_nil_iff.mp h0
      exact hlt this
    obtain ⟨ch, l, hcl⟩ := List.exists_cons_of_ne_nil hne
    have hmem : ch ∈ s.data.drop n := by rw [hcl]; exact List.mem_cons_self ch l
    exact hs ch (List.mem_of_mem_drop hmem) (hdrop ch hmem)
  exact ⟨hfit hl, hl⟩

theorem varchar_stored (n : Nat) (s t : String) (h : varchar n s = Except.ok t) :
    varchar n t = Except.ok t :=
  varchar_of_length_le n t (varchar_eq_ok n s t h).2.1

theorem userRowOf_eq_ok (id : Int) (email password full_name address phone_number role : String)
    (row : UserRow) :
    userRowOf id email password full_name address phone_number role = Except.ok row ↔
      row.id = id ∧ varchar 50 email = Except.ok row.email ∧
      varchar 100 password = Except.ok row.password ∧
      varchar 50 full_name = Except.ok row.full_name ∧
      varchar 100 address = Except.ok row.address ∧
      varchar 20 phone_number = Except.ok row.phone_number ∧
      varchar 20 role = Except.ok row.role := by
  unfold userRowOf
  cases h1 : varchar 50 email <;> cases h2 : varchar 100 password <;>
    cases h3 : varchar 50 full_name <;> cases h4 : varchar 100 address <;>
    cases h5 : varchar 20 phone_number <;> cases h6 : varchar 20 role <;>
    simp
  obtain ⟨i, e, p, f, a, ph, r⟩ := row
  simp
  intro _ _ _ _ _ _
  exact eq_comm

theorem userRowOf_of_fit (id : Int) (email password full_name address phone_number role : String)
    (hfit : email.length ≤ 50 ∧ password.length ≤ 100 ∧ full_name.length ≤ 50 ∧
      address.length ≤ 100 ∧ phone_number.length ≤ 20 ∧ role.length ≤ 20) :
    userRowOf id email password full_name address phone_number role =
      Except.ok ⟨id, email, password, full_name, address, phone_number, role⟩ := by
  rw [userRowOf_eq_ok]
  obtain ⟨h1, h2, h3, h4, h5, h6⟩ := hfit
  exact ⟨rfl, varchar_of_length_le _ _ h1, varchar_of_length_le _ _ h2,
    varchar_of_length_le _ _ h3, varchar_of_length_le _ _ h4, varchar_of_length_le _ _ h5,
    varchar_of_length_le _ _ h6⟩

/-! ### The small implementation meets the library contract -/

namespace Demo

theorem getNat_bits (fuel : Nat) : ∀ (n : Nat) (rest : List Char), n < 2 ^ fuel →
    getNat (bits fuel n ++ '.' :: rest) = some (n, rest) := by
  induction fuel with
  | zero =>
    intro n rest h
    have h0 : n = 0 := by simpa using h
    subst h0
    simp [bits, getNat]
  | succ fuel ih =>
    intro n rest h
    by_cases h0 : n = 0
    · subst h0
      simp [bits, getNat]
    · have hlt : n / 2 < 2 ^ fuel := by
        rw [Nat.div_lt_iff_lt_mul (by decide)]
        rw [Nat.pow_succ] at h
        exact h
      have ih2 := ih (n / 2) rest hlt
      by_cases h1 : n % 2 = 1
      · simp [bits, h0, h1, getNat, ih2]
        omega
      · simp [bits, h0, h1, getNat, ih2]
        omega

theorem getNat_putNat (n : Nat) (rest : List Char) : getNat (putNat n rest) = some (n, rest) :=
  getNat_bits n n rest (Nat.lt_two_pow n)

theorem unescape_escape (l : List Char) : unescape (escape l) = l := by
  induction l with
  | nil => rfl
  | cons c cs ih =>
    by_cases h1 : c = ' '
    · subst h1
      simp [escape, unescape, ih]
    · by_cases h2 : c = '~'
      · subst h2
        simp [escape, unescape, ih]
      · have hu : unescape (c :: escape cs) = c :: unescape (escape cs) := by
          rw [unescape.eq_def]
          simp [h2]
        rw [escape, if_neg h1, if_neg h2, hu, ih]

theorem getStr_putStr (s : String) (rest : List Char) :
    getStr (putStr s rest) = some (s, rest) := by
  simp [getStr, putStr, getNat_putNat, unescape_escape]

theorem getInt_putInt (z : Int) (rest : List Char) : getInt (putInt z rest) = some (z, rest) := by
  cases z <;> simp [getInt, putInt, getNat_putNat]

theorem getValue_putValue (v : ClaimValue) (rest : List Char) :
    getValue (putValue v rest) = some (v, rest) := by
  cases v <;> simp [getValue, putValue, getStr_putStr, getInt_putInt]

theorem getEntries_putEntries (c : MapClaims) : ∀ rest : List Char,
    getEntries c.length (putEntries c rest) = some (c, rest) := by
  induction c with
  | nil => intro rest; simp [getEntries, putEntries]
  | cons kv c ih =>
    intro rest
    obtain ⟨k, v⟩ := kv
    simp [getEntries, putEntries, getStr_putStr, getValue_putValue, ih]

theorem getMethod_putMethod (m : SigningMethod) (rest : List Char) :
    getMethod (putMethod m rest) = some (m, rest) := by
  cases m with
  | hmac h => cases h <;> simp [getMethod, putMethod]
  | other alg => simp [getMethod, putMethod, getStr_putStr]

theorem decode_signingInput (m : SigningMethod) (c : MapClaims) (rest : List Char) :
    decode (signingInput m c rest) = some (m, c, rest) := by
  simp [decode, signingInput, getMethod_putMethod, getNat_putNat, getEntries_putEntries]

theorem putMethod_head_not_space (m : SigningMethod) (rest : List Char) :
    ∃ (a : Char) (l : List Char), putMethod m rest = a :: l ∧ isSpace a = false := by
  cases m with
  | hmac h => cases h <;> exact ⟨_, _, rfl, by decide⟩
  | other alg => exact ⟨_, _, rfl, by decide⟩

theorem bits_no_space (fuel : Nat) : ∀ n : Nat, ∀ ch ∈ bits fuel n, ch ≠ ' ' := by
  induction fuel with
  | zero => intro n ch h; simp [bits] at h
  | succ fuel ih =>
    intro n ch h
    unfold bits at h
    split_ifs at h with h0 h1
    · simp at h
    · rcases List.mem_cons.mp h with h | h
      · rw [h]; decide
      · exact ih _ ch h
    · rcases List.mem_cons.mp h with h | h
      · rw [h]; decide
      · exact ih _ ch h

theorem putNat_no_space (n : Nat) (rest : List Char) (hr : ∀ ch ∈ rest, ch ≠ ' ') :
    ∀ ch ∈ putNat n rest, ch ≠ ' ' := by
  intro ch h
  unfold putNat at h
  rcases List.mem_append.mp h with h | h
  · exact bits_no_space n n ch h
  · rcases List.mem_cons.mp h with h | h
    · rw [h]; decide
    · exact hr ch h

theorem escape_no_space (l : List Char) : ∀ ch ∈ escape l, ch ≠ ' ' := by
  induction l with
  | nil => intro ch h; simp [escape] at h
  | cons c cs ih =>
    intro ch h
    unfold escape at h
    split_ifs at h with h1 h2
    · rcases List.mem_cons.mp h with h | h
      · rw [h]; decide
      · rcases List.mem_cons.mp h with h | h
        · rw [h]; decide
        · exact ih ch h
    · rcases List.mem_cons.mp h with h | h
      · rw [h]; decide
      · rcases List.mem_cons.mp h with h | h
        · rw [h]; decide
        · exact ih ch h
    · rcases List.mem_cons.mp h with h | h
      · rw [h]; exact h1
      · exact ih ch h

theorem putStr_no_space (s : String) (rest : List Char) (hr : ∀ ch ∈ rest, ch ≠ ' ') :
    ∀ ch ∈ putStr s rest, ch ≠ ' ' := by
  unfold putStr
  apply putNat_no_space
  intro ch h
  rcases List.mem_append.mp h with h | h
  · exact escape_no_space _ ch h
  · exact hr ch h

theorem putValue_no_space (v : ClaimValue) (rest : List Char) (hr : ∀ ch ∈ rest, ch ≠ ' ') :
    ∀ ch ∈ putValue v rest, ch ≠ ' ' := by
  intro ch h
  cases v with
  | str s =>
    rcases List.mem_cons.mp h with h | h
    · rw [h]; decide
    · exact putStr_no_space s rest hr ch h
  | num n =>
    rcases List.mem_cons.mp h with h | h
    · rw [h]; decide
    · cases n with
      | ofNat n =>
        rcases List.mem_cons.mp h with h | h
        · rw [h]; decide
        · exact putNat_no_space n rest hr ch h
      | negSucc n =>
        rcases List.mem_cons.mp h with h | h
        · rw [h]; decide
        · exact putNat_no_space n rest hr ch h

theorem putEntries_no_space (c : MapClaims) (rest : List Char) (hr : ∀ ch ∈ rest, ch ≠ ' ') :
    ∀ ch ∈ putEntries c rest, ch ≠ ' ' := by
  induction c with
  | nil => exact hr
  | cons kv c ih =>
    obtain ⟨k, v⟩ := kv
    exact putStr_no_space k _ (putValue_no_space v _ ih)

theorem signingInput_no_space (m : SigningMethod) (c : MapClaims) (rest : List Char)
    (hr : ∀ ch ∈ rest, ch ≠ ' ') : ∀ ch ∈ signingInput m c rest, ch ≠ ' ' := by
  have h1 := putNat_no_space c.length _ (putEntries_no_space c rest hr)
  intro ch h
  unfold signingInput at h
  cases m with
  | hmac hm =>
    cases hm <;>
    · rcases List.mem_cons.mp h with h | h
      · rw [h]; decide
      · exact h1 ch h
  | other alg =>
    rcases List.mem_cons.mp h with h | h
    · rw [h]; decide
    · exact putStr_no_space alg _ h1 ch h

theorem token_no_space (m : SigningMethod) (c : MapClaims) (k : String) :
    ∀ ch ∈ signingInput m c (checksum k (signingInput m c [])), ch ≠ ' ' := by
  apply signingInput_no_space
  intro ch h
  unfold checksum at h
  rcases List.mem_append.mp h with h | h
  · exact escape_no_space _ ch h
  · exact signingInput_no_space m c [] (fun _ hh => by simp at hh) ch h

theorem jwt_lawful : jwt.Lawful where
  parse_signed := by
    intro m c k s h
    have hs : s = String.mk (signingInput m c (checksum k (signingInput m c []))) := by
      simpa [jwt] using (congrArg Prod.fst h).symm
    subst hs
    exact ⟨c, by simp [jwt, decode_signingInput], fun _ => rfl⟩
  verify_signed := by
    intro m c k s h
    have hs : s = String.mk (signingInput m c (checksum k (signingInput m c []))) := by
      simpa [jwt] using (congrArg Prod.fst h).symm
    subst hs
    simp [jwt, decode_signingInput]
  signed_nonblank := by
    intro m c k s h
    have hs : s = String.mk (signingInput m c (checksum k (signingInput m c []))) := by
      simpa [jwt] using (congrArg Prod.fst h).symm
    subst hs
    intro hblank
    obtain ⟨a, l, hal, ha⟩ := putMethod_head_not_space m
      (putNat c.length (putEntries c (checksum k (signingInput m c []))))
    have hmem : a ∈ signingInput m c (checksum k (signingInput m c [])) := by
      show a ∈ putMethod m (putNat c.length (putEntries c (checksum k (signingInput m c []))))
      rw [hal]
      exact List.mem_cons_self a l
    have hall := (TrimSpace_eq_empty_iff _).mp hblank a hmem
    simp [ha] at hall
  signed_no_space := by
    intro m c k s h
    have hs : s = String.mk (signingInput m c (checksum k (signingInput m c []))) := by
      simpa [jwt] using (congrArg Prod.fst h).symm
    subst hs
    exact token_no_space m c k
  valid_before_exp := by
    intro c now e hexp hiat hnbf hlt
    simp [jwt, timeClaimOk, hexp, hiat, hnbf, hlt]

end Demo

/-- C1: the validator accepts exactly when email and password are non-blank
after trimming and, in register mode, so are full name, address, phone number
and role; in any other mode the four extra fields do not influence the result;
a field made of white space only is blank. -/
theorem IsUserFormValid_accepts_iff (u : User) (m : String) :
    ((IsUserFormValid u m).1 = true ↔
      TrimSpace u.Email ≠ "" ∧ TrimSpace u.Password ≠ "" ∧
      (m = "register" →
        TrimSpace u.FullName ≠ "" ∧ TrimSpace u.Address ≠ "" ∧
        TrimSpace u.PhoneNumber ≠ "" ∧ TrimSpace u.Role ≠ "")) ∧
    (m ≠ "register" → ∀ f a p r : String,
      IsUserFormValid { u with FullName := f, Address := a, PhoneNumber := p, Role := r } m
        = IsUserFormValid u m) ∧
    (∀ s : String, (∀ c ∈ s.data, isSpace c = true) → TrimSpace s = "") := by
  refine ⟨?_, ?_, fun s hs => (TrimSpace_eq_empty_iff s).mpr hs⟩
  · unfold IsUserFormValid
    by_cases h1 : TrimSpace u.Email = "" <;> by_cases h2 : TrimSpace u.Password = "" <;>
      by_cases hm : m = "register" <;> by_cases h3 : TrimSpace u.FullName = "" <;>
      by_cases h4 : TrimSpace u.Address = "" <;> by_cases h5 : TrimSpace u.PhoneNumber = "" <;>
      by_cases h6 : TrimSpace u.Role = "" <;> simp [h1, h2, hm, h3, h4, h5, h6]
  · intro hm f a p r
    simp [IsUserFormValid, hm]

/-- Witness for C1: a login form with only email and password filled in is
accepted, the four register-only fields being empty. -/
theorem IsUserFormValid_accepts_iff_witness :
    (IsUserFormValid ⟨0, "a@b.c", "x", "", "", "", ""⟩ "login").1 = true :=
  (IsUserFormValid_accepts_iff ⟨0, "a@b.c", "x", "", "", "", ""⟩ "login").1.mpr
    ⟨by decide, by decide, by decide⟩

/-- C2: when the validator rejects, its reason is the name of the first blank
inspected field (email, password, then in register mode full_name, address,
phone_number, role) followed by " empty/not found"; and the reason is empty
exactly when the form is accepted. -/
theorem IsUserFormValid_reason (u : User) (m : String) :
    ((IsUserFormValid u m).1 = false →
      ∃ field : String, firstBlank (inspectedFields u m) = some field ∧
        (IsUserFormValid u m).2 = field ++ " empty/not found") ∧
    ((IsUserFormValid u m).2 = "" ↔ (IsUserFormValid u m).1 = true) := by
  unfold IsUserFormValid inspectedFields
  by_cases h1 : TrimSpace u.Email = "" <;> by_cases h2 : TrimSpace u.Password = "" <;>
    by_cases hm : m = "register" <;> by_cases h3 : TrimSpace u.FullName = "" <;>
    by_cases h4 : TrimSpace u.Address = "" <;> by_cases h5 : TrimSpace u.PhoneNumber = "" <;>
    by_cases h6 : TrimSpace u.Role = "" <;>
    simp [h1, h2, hm, h3, h4, h5, h6, firstBlank]

/-- Witness for C2: a register form whose first blank field is the address. -/
theorem IsUserFormValid_reason_witness :
    ∃ field : String,
      firstBlank (inspectedFields ⟨0, "a@b.c", "x", "A", " ", "", "user"⟩ "register")
        = some field ∧
      (IsUserFormValid ⟨0, "a@b.c", "x", "A", " ", "", "user"⟩ "register").2
        = field ++ " empty/not found" :=
  (IsUserFormValid_reason ⟨0, "a@b.c", "x", "A", " ", "", "user"⟩ "register").1 (by decide)

end Ecom


namespace Ecom

/-- The claim set `GenerateJWT` signs. -/
theorem GenerateJWT_signed (L : JWTLib) (cfg : Config) (now : Int) (email role s : String)
    (hgen : GenerateJWT L cfg now email role = (s, none)) :
    L.SignedString (SigningMethod.hmac cfg.JWTSigningMethod)
      (((MapClaims.set [] "email" (ClaimValue.str email)).set "role" (ClaimValue.str role)).set
        "exp" (ClaimValue.num (now + 1800))) cfg.JWTSecretKey = (s, none) := by
  unfold GenerateJWT at hgen
  cases hsig : L.SignedString (SigningMethod.hmac cfg.JWTSigningMethod)
      (((MapClaims.set [] "email" (ClaimValue.str email)).set "role" (ClaimValue.str role)).set
        "exp" (ClaimValue.num (now + 1800))) cfg.JWTSecretKey with
  | mk t e =>
    simp only [hsig] at hgen
    cases e with
    | some e => simp at hgen
    | none =>
      simp at hgen
      rw [hgen]

theorem ValidateJWT_GenerateJWT (L : JWTLib) (hL : L.Lawful) (cfg : Config)
    (now later : Int) (email role s : String)
    (he : TrimSpace email ≠ "") (hr : TrimSpace role ≠ "")
    (hgen : GenerateJWT L cfg now email role = (s, none))
    (hexp : later < now + 1800) :
    ValidateJWT L cfg later s = some [("email", email), ("role", role)] := by
  have hsig := GenerateJWT_signed L cfg now email role s hgen
  obtain ⟨c2, hparse, hget⟩ := hL.parse_signed _ _ _ _ hsig
  have hver := hL.verify_signed _ _ _ _ hsig
  have hemail : c2.get "email" = some (ClaimValue.str email) := by
    rw [hget]; simp [MapClaims.set, MapClaims.get, List.lookup]
  have hrole : c2.get "role" = some (ClaimValue.str role) := by
    rw [hget]; simp [MapClaims.set, MapClaims.get, List.lookup]
  have hvalid : L.ClaimsValid c2 later = true := by
    apply hL.valid_before_exp c2 later (now + 1800)
    · rw [hget]; simp [MapClaims.set, MapClaims.get, List.lookup]
    · rw [hget]; simp [MapClaims.set, MapClaims.get, List.lookup]
    · rw [hget]; simp [MapClaims.set, MapClaims.get, List.lookup]
    · exact hexp
  simp [ValidateJWT, JWTLib.Parse, hparse, keyFunc, hvalid, hver, hemail, hrole, Sprint, he, hr]

end Ecom

namespace Ecom

/-- C3: a token minted by `GenerateJWT` for a non-blank email and role, read by
`ValidateJWT` under the same configuration at a clock reading before the
expiry (mint time plus 1800 seconds), yields a non-nil map whose `email` and
`role` entries are the ones minted; the JWT library is any implementation
meeting `JWTLib.Lawful`. -/
theorem GenerateJWT_ValidateJWT_roundtrip (L : JWTLib) (hL : L.Lawful) (cfg : Config)
    (now later : Int) (email role s : String)
    (he : TrimSpace email ≠ "") (hr : TrimSpace role ≠ "")
    (hgen : GenerateJWT L cfg now email role = (s, none))
    (hexp : later < now + 1800) :
    ∃ m : List (String × String), ValidateJWT L cfg later s = some m ∧
      mapGet m "email" = email ∧ mapGet m "role" = role := by
  refine ⟨[("email", email), ("role", role)],
    ValidateJWT_GenerateJWT L hL cfg now later email role s he hr hgen hexp, ?_, ?_⟩
  · simp [mapGet, List.lookup]
  · simp [mapGet, List.lookup]

/-- Witness for C3: the token minted at clock 0 for admin@gmail.com / admin is
read back one second before its expiry. -/
theorem GenerateJWT_ValidateJWT_roundtrip_witness :
    ∃ m : List (String × String),
      ValidateJWT Demo.jwt (InitConfig "secret") 1799
        (GenerateJWT Demo.jwt (InitConfig "secret") 0 "admin@gmail.com" "admin").1 = some m ∧
      mapGet m "email" = "admin@gmail.com" ∧ mapGet m "role" = "admin" :=
  GenerateJWT_ValidateJWT_roundtrip Demo.jwt Demo.jwt_lawful (InitConfig "secret") 0 1799
    "admin@gmail.com" "admin" _ (by decide) (by decide) rfl (by decide)

end Ecom
namespace Ecom

/-- What `CreateUserSession` does to the tables: nothing when it returns an
error; otherwise the rows of the user are replaced by one new row, whose token
is the given one as its column stores it. -/
theorem CreateUserSession_spec (conn : Conn) (db : DB) (us : UserSession) :
    ((CreateUserSession conn db us).2.2 ≠ none ∧
      (CreateUserSession conn db us).1.account_user = db.account_user ∧
      (CreateUserSession conn db us).1.account_usersession = db.account_usersession) ∨
    ((CreateUserSession conn db us).2.2 = none ∧
      (CreateUserSession conn db us).1.account_user = db.account_user ∧
      (∃ t : String, varchar 200 us.Token = Except.ok t ∧
        (CreateUserSession conn db us).1.account_usersession =
          db.account_usersession.filter (fun s => s.account_user_id ≠ us.User.ID) ++
            [⟨((db.account_usersession_id_seq + 1 : Nat) : Int), t, us.User.ID⟩]) ∧
      (CreateUserSession conn db us).2.1 =
        { us with ID := ((db.account_usersession_id_seq + 1 : Nat) : Int) }) := by
  unfold CreateUserSession
  cases hb : conn.beginErr with
  | some e => left; simp
  | none =>
    cases he : conn.execErr with
    | some e => left; simp
    | none =>
      cases hq : conn.queryErr with
      | some e => left; simp
      | none =>
        cases hv : varchar 200 us.Token with
        | error e =>
          left
          simp [DB.insertSession, DB.deleteSessionsOfUser, hv, rollback]
        | ok t =>
          cases hc : conn.commitErr with
          | some e =>
            left
            simp only [DB.insertSession, DB.deleteSessionsOfUser, hv]
            split_ifs <;> simp [rollback]
          | none =>
            simp only [DB.insertSession, DB.deleteSessionsOfUser, hv]
            split_ifs <;> simp [rollback]

end Ecom

namespace Ecom

theorem DeleteUserSession_spec (conn : Conn) (db : DB) (tokenString : String) :
    ((DeleteUserSession conn db tokenString).2 ≠ none ∧
      (DeleteUserSession conn db tokenString).1 = db) ∨
    ((DeleteUserSession conn db tokenString).2 = none ∧
      (DeleteUserSession conn db tokenString).1.account_user = db.account_user ∧
      (DeleteUserSession conn db tokenString).1.account_usersession =
        db.account_usersession.filter (fun s => s.token ≠ tokenString)) := by
  unfold DeleteUserSession
  cases hb : conn.beginErr <;> cases he : conn.execErr <;> cases hc : conn.commitErr <;>
    simp [DB.deleteSessionsWithToken]

theorem CreateUser_sessions (B : Bcrypt) (salt : String) (conn : Conn) (db : DB) (u : User) :
    (CreateUser B salt conn db u).1.account_usersession = db.account_usersession := by
  unfold CreateUser
  cases hh : HashPassword B salt u.Password with
  | mk hashed e =>
    cases e with
    | some e => simp
    | none =>
      cases hr : userRowOf ((db.account_user_id_seq + 1 : Nat) : Int) u.Email hashed u.FullName
          u.Address u.PhoneNumber u.Role <;>
      cases hb : conn.beginErr <;> cases hq : conn.queryErr <;> cases hc : conn.commitErr <;>
        simp only [DB.insertUser, hr] <;> (try split_ifs) <;> simp [rollback]

/-- The database `AuthenticateUser` leaves is the one it found or the one its
call of `CreateUserSession` left. -/
theorem AuthenticateUser_db (E : Env) (now : Int) (c1 c2 : Conn) (db : DB) (u : User) :
    (AuthenticateUser E now c1 c2 db u).1 = db ∨
    ∃ us : UserSession, (AuthenticateUser E now c1 c2 db u).1 = (CreateUserSession c2 db us).1 := by
  unfold AuthenticateUser
  cases hg : GetUser c1 db u.Email 0 with
  | mk existedUser e =>
    cases e with
    | some e => left; simp
    | none =>
      simp only
      cases hcmp : ComparePassword E.bcrypt existedUser.Password u.Password with
      | some e => left; rfl
      | none =>
        simp only
        cases hgen : GenerateJWT E.jwt E.config now existedUser.Email existedUser.Role with
        | mk tokenString e =>
          cases e with
          | some e => left; rfl
          | none =>
            right
            refine ⟨⟨0, tokenString, existedUser⟩, ?_⟩
            simp only
            cases hcs : CreateUserSession c2 db ⟨0, tokenString, existedUser⟩ with
            | mk db1 rest =>
              obtain ⟨us1, e⟩ := rest
              cases e <;> rfl

theorem filter_filter_length_le (l : List SessionRow) (p q : SessionRow → Bool) :
    ((l.filter p).filter q).length ≤ (l.filter q).length := by
  rw [List.filter_comm]
  exact List.length_filter_le _ _

theorem SessionSingleton_of_sessions_eq (db db1 : DB)
    (h : db1.account_usersession = db.account_usersession) (hs : SessionSingleton db) :
    SessionSingleton db1 := by
  intro uid
  have := hs uid
  simpa [sessionsOf, h] using this

theorem SessionSingleton_CreateUserSession (conn : Conn) (db : DB) (us : UserSession)
    (hs : SessionSingleton db) : SessionSingleton (CreateUserSession conn db us).1 := by
  rcases CreateUserSession_spec conn db us with ⟨_, _, h⟩ | ⟨_, _, ⟨t, _, h⟩, _⟩
  · exact SessionSingleton_of_sessions_eq db _ h hs
  · intro uid
    unfold sessionsOf
    rw [h, List.filter_append, List.length_append]
    by_cases hu : us.User.ID = uid
    · subst hu
      have h0 : (db.account_usersession.filter (fun s => s.account_user_id ≠ us.User.ID)).filter
          (fun s => s.account_user_id = us.User.ID) = [] := by
        simp [List.filter_eq_nil_iff]
      rw [h0]
      simp
    · have h1 := filter_filter_length_le db.account_usersession
        (fun s => s.account_user_id ≠ us.User.ID) (fun s => s.account_user_id = uid)
      have h2 := hs uid
      unfold sessionsOf at h2
      have h3 : List.filter (fun s => decide (s.account_user_id = uid))
          [(⟨((db.account_usersession_id_seq + 1 : Nat) : Int), t, us.User.ID⟩ :
            SessionRow)] = [] := by
        simp [hu]
      rw [h3]
      simpa using le_trans h1 h2

theorem SessionSingleton_DeleteUserSession (conn : Conn) (db : DB) (tokenString : String)
    (hs : SessionSingleton db) : SessionSingleton (DeleteUserSession conn db tokenString).1 := by
  rcases DeleteUserSession_spec conn db tokenString with ⟨_, h⟩ | ⟨_, _, h⟩
  · rw [h]; exact hs
  · intro uid
    unfold sessionsOf
    rw [h]
    exact le_trans (filter_filter_length_le _ _ _) (hs uid)

theorem SessionSingleton_AuthenticateUser (E : Env) (now : Int) (c1 c2 : Conn) (db : DB)
    (u : User) (hs : SessionSingleton db) :
    SessionSingleton (AuthenticateUser E now c1 c2 db u).1 := by
  rcases AuthenticateUser_db E now c1 c2 db u with h | ⟨us, h⟩
  · rw [h]; exact hs
  · rw [h]; exact SessionSingleton_CreateUserSession c2 db us hs

theorem RegisterHandler_db (E : Env) (salt : String) (conn : Conn) (db : DB) (r : Request) :
    (RegisterHandler E salt conn db r).1 = db ∨
    ∃ u : User, (RegisterHandler E salt conn db r).1 = (CreateUser E.bcrypt salt conn db u).1 := by
  unfold RegisterHandler
  simp only
  cases hv : IsUserFormValid ⟨0, FormValue r "email", FormValue r "password",
      FormValue r "full_name", FormValue r "address", FormValue r "phone_number",
      FormValue r "role"⟩ "register" with
  | mk ok reason =>
    cases ok with
    | false => left; rfl
    | true =>
      right
      refine ⟨⟨0, FormValue r "email", FormValue r "password",
        FormValue r "full_name", FormValue r "address", FormValue r "phone_number",
        FormValue r "role"⟩, ?_⟩
      simp only
      cases hc : CreateUser E.bcrypt salt conn db ⟨0, FormValue r "email", FormValue r "password",
        FormValue r "full_name", FormValue r "address", FormValue r "phone_number",
        FormValue r "role"⟩ with
      | mk db1 rest =>
        obtain ⟨created, e⟩ := rest
        cases e with
        | none => simp
        | some e => simp only; split_ifs <;> rfl

theorem LoginHandler_db (E : Env) (now : Int) (c1 c2 : Conn) (db : DB) (r : Request) :
    (LoginHandler E now c1 c2 db r).1 = db ∨
    ∃ u : User, (LoginHandler E now c1 c2 db r).1 = (AuthenticateUser E now c1 c2 db u).1 := by
  unfold LoginHandler
  simp only
  cases hv : IsUserFormValid ⟨0, FormValue r "email", FormValue r "password", "", "", "", ""⟩
      "login" with
  | mk ok reason =>
    cases ok with
    | false => left; rfl
    | true =>
      right
      refine ⟨⟨0, FormValue r "email", FormValue r "password", "", "", "", ""⟩, ?_⟩
      simp only
      split_ifs <;> rfl

theorem LogoutHandler_db (conn : Conn) (db : DB) (r : Request) :
    (LogoutHandler conn db r).1 = db ∨
    (LogoutHandler conn db r).1 = (DeleteUserSession conn db (FormValue r "token")).1 := by
  unfold LogoutHandler
  simp only
  split_ifs with h
  · right
    cases hd : DeleteUserSession conn db (FormValue r "token") with
    | mk db1 e => cases e <;> rfl
  · left; rfl

theorem SessionSingleton_step (E : Env) (db : DB) (op : Op) (hs : SessionSingleton db) :
    SessionSingleton (step E db op) := by
  cases op with
  | register salt conn r =>
    rcases RegisterHandler_db E salt conn db r with h | ⟨u, h⟩
    · simp only [step, h]; exact hs
    · simp only [step, h]
      exact SessionSingleton_of_sessions_eq db _ (CreateUser_sessions _ _ _ _ _) hs
  | login now c1 c2 r =>
    rcases LoginHandler_db E now c1 c2 db r with h | ⟨u, h⟩
    · simp only [step, h]; exact hs
    · simp only [step, h]; exact SessionSingleton_AuthenticateUser E now c1 c2 db u hs
  | logout conn r =>
    rcases LogoutHandler_db conn db r with h | h
    · simp only [step, h]; exact hs
    · simp only [step, h]; exact SessionSingleton_DeleteUserSession conn db _ hs
  | createUser salt conn u =>
    exact SessionSingleton_of_sessions_eq db _ (CreateUser_sessions _ _ _ _ _) hs
  | authenticateUser now c1 c2 u => exact SessionSingleton_AuthenticateUser E now c1 c2 db u hs
  | createUserSession conn us => exact SessionSingleton_CreateUserSession conn db us hs
  | deleteUserSession conn tokenString =>
    exact SessionSingleton_DeleteUserSession conn db tokenString hs

end Ecom

namespace Ecom

/-- C4: session singleton is an invariant of the service: from a database in
which every user id occurs in at most one session row, any finite sequence of
register, login and logout requests and of calls of `CreateUser`,
`AuthenticateUser`, `CreateUserSession` and `DeleteUserSession`, each with any
outcome (any connection failure included), leads to a database in which every
user id occurs in at most one session row. -/
theorem SessionSingleton_run (E : Env) (ops : List Op) (db : DB) (hs : SessionSingleton db) :
    SessionSingleton (run E db ops) := by
  induction ops generalizing db with
  | nil => exact hs
  | cons op ops ih =>
    simp only [run, List.foldl_cons]
    exact ih (step E db op) (SessionSingleton_step E db op hs)

theorem IsUserFormValid_true_email (u : User) (m : String)
    (h : (IsUserFormValid u m).1 = true) : TrimSpace u.Email ≠ "" := by
  intro hblank
  simp [IsUserFormValid, hblank] at h

theorem GetUser_by_email_ok (conn : Conn) (db : DB) (email : String) (u : User)
    (h : GetUser conn db email 0 = (u, none)) :
    ∃ row : UserRow, db.account_user.find? (fun r => r.email = email) = some row ∧
      u = row.toUser := by
  unfold GetUser at h
  cases hq : conn.queryErr with
  | some e => simp [hq] at h
  | none =>
    simp only [hq, if_true] at h
    cases hf : db.account_user.find? (fun r => r.email = email) with
    | none => simp [hf] at h
    | some row =>
      simp [hf] at h
      exact ⟨row, rfl, h.symm⟩

theorem GetUser_by_email_of_find (conn : Conn) (db : DB) (email : String) (row : UserRow)
    (hq : conn.queryErr = none)
    (hf : db.account_user.find? (fun r => r.email = email) = some row) :
    GetUser conn db email 0 = (row.toUser, none) := by
  simp [GetUser, hq, hf]

/-- What a status of 200 from `AuthenticateUser` means. -/
theorem AuthenticateUser_ok (E : Env) (now : Int) (c1 c2 : Conn) (db : DB) (u : User)
    (h : (AuthenticateUser E now c1 c2 db u).2.2.1 = 200) :
    ∃ existedUser : User,
      GetUser c1 db u.Email 0 = (existedUser, none) ∧
      ComparePassword E.bcrypt existedUser.Password u.Password = none ∧
      GenerateJWT E.jwt E.config now existedUser.Email existedUser.Role =
        ((AuthenticateUser E now c1 c2 db u).2.1, none) ∧
      (CreateUserSession c2 db ⟨0, (AuthenticateUser E now c1 c2 db u).2.1, existedUser⟩).2.2
        = none ∧
      (AuthenticateUser E now c1 c2 db u).1 =
        (CreateUserSession c2 db ⟨0, (AuthenticateUser E now c1 c2 db u).2.1, existedUser⟩).1 ∧
      (AuthenticateUser E now c1 c2 db u).2.2.2.1 = existedUser ∧
      (AuthenticateUser E now c1 c2 db u).2.2.2.2 = none := by
  unfold AuthenticateUser at h ⊢
  cases hg : GetUser c1 db u.Email 0 with
  | mk existedUser e =>
    simp only [hg] at h ⊢
    cases e with
    | some e => simp at h
    | none =>
      simp only at h ⊢
      cases hcmp : ComparePassword E.bcrypt existedUser.Password u.Password with
      | some e => simp [hcmp] at h
      | none =>
        simp only [hcmp] at h ⊢
        cases hgen : GenerateJWT E.jwt E.config now existedUser.Email existedUser.Role with
        | mk tokenString e =>
          simp only [hgen] at h ⊢
          cases e with
          | some e => simp at h
          | none =>
            simp only at h ⊢
            cases hcs : CreateUserSession c2 db ⟨0, tokenString, existedUser⟩ with
            | mk db1 rest =>
              obtain ⟨us1, e⟩ := rest
              simp only [hcs] at h ⊢
              cases e with
              | some e => simp at h
              | none =>
                refine ⟨existedUser, rfl, hcmp, hgen, ?_, ?_, rfl, rfl⟩
                · simp [hcs]
                · simp [hcs]

end Ecom

set_option maxRecDepth 100000

namespace Ecom

/-- Witness for C4: on an empty database the user registers, logs in twice,
logs out, logs in again and a `CreateUserSession` is refused by a failing
commit; the invariant holds at the end, where one session row is stored. -/
theorem SessionSingleton_run_witness :
    SessionSingleton (run Demo.env Demo.emptyDB
      [Op.register "salt" Conn.healthy Demo.registerRequest,
       Op.login 0 Conn.healthy Conn.healthy Demo.loginRequest,
       Op.login 7 Conn.healthy Conn.healthy Demo.loginRequest,
       Op.logout Conn.healthy [("token", Demo.tokenAt 7)],
       Op.login 9 Conn.healthy Conn.healthy Demo.loginRequest,
       Op.createUserSession ⟨none, none, none, some "driver: bad connection"⟩
         ⟨0, "This is token", { User.zero with ID := 1 }⟩]) ∧
    (run Demo.env Demo.emptyDB
      [Op.register "salt" Conn.healthy Demo.registerRequest,
       Op.login 0 Conn.healthy Conn.healthy Demo.loginRequest,
       Op.login 7 Conn.healthy Conn.healthy Demo.loginRequest,
       Op.logout Conn.healthy [("token", Demo.tokenAt 7)],
       Op.login 9 Conn.healthy Conn.healthy Demo.loginRequest,
       Op.createUserSession ⟨none, none, none, some "driver: bad connection"⟩
         ⟨0, "This is token", { User.zero with ID := 1 }⟩]).account_usersession =
      [⟨3, Demo.tokenAt 9, 1⟩] :=
  ⟨SessionSingleton_run Demo.env _ Demo.emptyDB (fun _ => Nat.zero_le _), by decide⟩

/-- C5 (counterexample): for the registered user of the demo database and a
token of 200 letters followed by one space, `CreateUserSession` returns without
error and the one session row of the user carries the 200 letters, not the
token it was given. -/
theorem CreateUserSession_cut_token :
    (CreateUserSession Conn.healthy Demo.registeredDB
      ⟨0, String.mk (List.replicate 200 't' ++ [' ']), { User.zero with ID := 1 }⟩).2.2 = none ∧
    sessionsOf (CreateUserSession Conn.healthy Demo.registeredDB
      ⟨0, String.mk (List.replicate 200 't' ++ [' ']), { User.zero with ID := 1 }⟩).1 1 =
      [⟨1, String.mk (List.replicate 200 't'), 1⟩] ∧
    String.mk (List.replicate 200 't') ≠ String.mk (List.replicate 200 't' ++ [' ']) := by
  decide

/-- C5 (amended): when `CreateUserSession` returns without error, the database
holds exactly one session row of the user; its id is the returned non-zero id
and its token is the given token as the `VARCHAR(200)` column stores it, which
is the given token when that has at most 200 characters and its first 200
characters, the others being spaces, when it is longer; the rows of the other
users and the user table are as before; when it returns an error, both tables
are as before. -/
theorem CreateUserSession_postcondition (conn : Conn) (db : DB) (us : UserSession) :
    ((CreateUserSession conn db us).2.2 = none →
      sessionsOf (CreateUserSession conn db us).1 us.User.ID =
        [⟨(CreateUserSession conn db us).2.1.ID, String.mk (us.Token.data.take 200),
          us.User.ID⟩] ∧
      (us.Token.length ≤ 200 →
        sessionsOf (CreateUserSession conn db us).1 us.User.ID =
          [⟨(CreateUserSession conn db us).2.1.ID, us.Token, us.User.ID⟩]) ∧
      (∀ ch ∈ us.Token.data.drop 200, ch = ' ') ∧
      (CreateUserSession conn db us).2.1.ID ≠ 0 ∧
      (CreateUserSession conn db us).1.account_usersession.filter
          (fun s => s.account_user_id ≠ us.User.ID) =
        db.account_usersession.filter (fun s => s.account_user_id ≠ us.User.ID) ∧
      (CreateUserSession conn db us).1.account_user = db.account_user) ∧
    ((CreateUserSession conn db us).2.2 ≠ none →
      (CreateUserSession conn db us).1.account_user = db.account_user ∧
      (CreateUserSession conn db us).1.account_usersession = db.account_usersession) := by
  rcases CreateUserSession_spec conn db us with ⟨he, hu, hs⟩ | ⟨he, hu, ⟨t, ht, hs⟩, hr⟩
  · exact ⟨fun h => absurd h he, fun _ => ⟨hu, hs⟩⟩
  · obtain ⟨htake, -, hfit, hdrop⟩ := varchar_eq_ok 200 us.Token t ht
    have hrows : sessionsOf (CreateUserSession conn db us).1 us.User.ID =
        [⟨(CreateUserSession conn db us).2.1.ID, t, us.User.ID⟩] := by
      unfold sessionsOf
      rw [hs, hr, List.filter_append]
      have h0 : (db.account_usersession.filter (fun s => s.account_user_id ≠ us.User.ID)).filter
          (fun s => s.account_user_id = us.User.ID) = [] := by
        simp [List.filter_eq_nil_iff]
      rw [h0]
      simp
    refine ⟨fun _ => ⟨?_, ?_, hdrop, ?_, ?_, hu⟩, fun h => absurd he h⟩
    · rw [hrows, htake]
    · intro hlen
      rw [hrows, hfit hlen]
    · rw [hr]
      simp only
      omega
    · rw [hs, List.filter_append, List.filter_filter]
      simp

/-- Witness for C5 (amended): user 1 holds an old session and user 2 another
one; a new session for user 1 replaces the old row and leaves the row of user
2. -/
theorem CreateUserSession_postcondition_witness :
    sessionsOf (CreateUserSession Conn.healthy
        ⟨[⟨1, "a@b.c", "h", "A", "A", "0", "user"⟩, ⟨2, "d@e.f", "h", "D", "D", "0", "user"⟩],
         [⟨1, "old token", 1⟩, ⟨2, "other token", 2⟩], 2, 2⟩
        ⟨0, "This is token", { User.zero with ID := 1 }⟩).1 1 =
      [⟨3, "This is token", 1⟩] :=
  ((CreateUserSession_postcondition Conn.healthy
      ⟨[⟨1, "a@b.c", "h", "A", "A", "0", "user"⟩, ⟨2, "d@e.f", "h", "D", "D", "0", "user"⟩],
       [⟨1, "old token", 1⟩, ⟨2, "other token", 2⟩], 2, 2⟩
      ⟨0, "This is token", { User.zero with ID := 1 }⟩).1 (by decide)).2.1 (by decide)

end Ecom

namespace Ecom

/-- What a 200 response of `LoginHandler` carrying token `t` means. -/
theorem LoginHandler_ok (E : Env) (now : Int) (c1 c2 : Conn) (db : DB) (r : Request)
    (t role : String)
    (h : (LoginHandler E now c1 c2 db r).2 = ⟨200, Body.content
      [("message", Any.str "User logged in!"), ("token", Any.str t), ("role", Any.str role)]⟩) :
    (IsUserFormValid ⟨0, FormValue r "email", FormValue r "password", "", "", "", ""⟩
        "login").1 = true ∧
    (AuthenticateUser E now c1 c2 db
        ⟨0, FormValue r "email", FormValue r "password", "", "", "", ""⟩).2.2.1 = 200 ∧
    (AuthenticateUser E now c1 c2 db
        ⟨0, FormValue r "email", FormValue r "password", "", "", "", ""⟩).2.1 = t ∧
    (LoginHandler E now c1 c2 db r).1 =
      (AuthenticateUser E now c1 c2 db
        ⟨0, FormValue r "email", FormValue r "password", "", "", "", ""⟩).1 := by
  unfold LoginHandler at h ⊢
  simp only at h ⊢
  cases hv : IsUserFormValid ⟨0, FormValue r "email", FormValue r "password", "", "", "", ""⟩
      "login" with
  | mk ok reason =>
    simp only [hv] at h ⊢
    cases ok with
    | false => simp [messageBody] at h
    | true =>
      simp only at h ⊢
      split_ifs at h ⊢ with h1 h2
      · simp at h
        exact ⟨trivial, h1.1, h.1, rfl⟩
      · simp [messageBody] at h
      · simp at h

theorem find?_filter_append_singleton (l : List SessionRow) (uid : Int) (new : SessionRow)
    (p : SessionRow → Bool) (hp : p new = true)
    (hq : ∀ s : SessionRow, p s = true → s.account_user_id = uid) :
    (l.filter (fun s => s.account_user_id ≠ uid) ++ [new]).find? p = some new := by
  rw [List.find?_append]
  have h0 : (l.filter (fun s => s.account_user_id ≠ uid)).find? p = none := by
    rw [List.find?_eq_none]
    intro s hs hps
    have := (List.mem_filter.mp hs).2
    simp at this
    exact this (hq s hps)
  rw [h0]
  simp [List.find?, hp]

end Ecom

namespace Ecom

theorem insertUser_users (db : DB) (email password full_name address phone_number role : String) :
    (db.insertUser email password full_name address phone_number role).1.account_user =
      db.account_user ∨
    ∃ row : UserRow,
      userRowOf ((db.account_user_id_seq + 1 : Nat) : Int) email password full_name address
        phone_number role = Except.ok row ∧
      (db.insertUser email password full_name address phone_number role).1.account_user =
        db.account_user ++ [row] := by
  unfold DB.insertUser
  dsimp only
  cases hr : userRowOf ((db.account_user_id_seq + 1 : Nat) : Int) email password full_name
      address phone_number role with
  | error e => left; rfl
  | ok row =>
    dsimp only
    split_ifs
    · left; rfl
    · left; rfl
    · right; exact ⟨row, rfl, rfl⟩

theorem varchar_nonblank (n : Nat) (s t : String) (h : varchar n s = Except.ok t)
    (hs : TrimSpace s ≠ "") : TrimSpace t ≠ "" := by
  obtain ⟨htake, -, -, hdrop⟩ := varchar_eq_ok n s t h
  intro ht
  apply hs
  rw [TrimSpace_eq_empty_iff] at ht ⊢
  intro c hc
  rw [← List.take_append_drop n s.data] at hc
  rcases List.mem_append.mp hc with hc | hc
  · apply ht
    rw [htake]
    exact hc
  · rw [hdrop c hc]
    decide

theorem CreateUser_users (B : Bcrypt) (salt : String) (conn : Conn) (db : DB) (u : User) :
    (CreateUser B salt conn db u).1.account_user = db.account_user ∨
    ∃ (row : UserRow) (hashed : String),
      userRowOf ((db.account_user_id_seq + 1 : Nat) : Int) u.Email hashed u.FullName u.Address
        u.PhoneNumber u.Role = Except.ok row ∧
      (CreateUser B salt conn db u).1.account_user = db.account_user ++ [row] := by
  unfold CreateUser
  cases hh : HashPassword B salt u.Password with
  | mk hashed e =>
    cases e with
    | some e => left; rfl
    | none =>
      cases hb : conn.beginErr with
      | some e => left; rfl
      | none =>
        cases hq : conn.queryErr with
        | some e => left; rfl
        | none =>
          have hins := insertUser_users db u.Email hashed u.FullName u.Address u.PhoneNumber u.Role
          dsimp only
          cases hi : db.insertUser u.Email hashed u.FullName u.Address u.PhoneNumber u.Role with
          | mk db1 res =>
            rw [hi] at hins
            cases res with
            | error e => left; rfl
            | ok id =>
              dsimp only
              cases hc : conn.commitErr with
              | some e => left; rfl
              | none =>
                rcases hins with h | ⟨row, hrow, h⟩
                · left; exact h
                · right; exact ⟨row, hashed, hrow, h⟩

theorem IsUserFormValid_register_role (u : User)
    (h : (IsUserFormValid u "register").1 = true) : TrimSpace u.Role ≠ "" := by
  intro hblank
  unfold IsUserFormValid at h
  split_ifs at h
  all_goals simp_all

/-- Every user row the register route stores has a role that is not blank. -/
theorem RegisterHandler_roles (E : Env) (salt : String) (conn : Conn) (db : DB) (r : Request)
    (h : ∀ row ∈ db.account_user, TrimSpace row.role ≠ "") :
    ∀ row ∈ (RegisterHandler E salt conn db r).1.account_user, TrimSpace row.role ≠ "" := by
  unfold RegisterHandler
  simp only
  cases hv : IsUserFormValid ⟨0, FormValue r "email", FormValue r "password",
      FormValue r "full_name", FormValue r "address", FormValue r "phone_number",
      FormValue r "role"⟩ "register" with
  | mk ok reason =>
    cases ok with
    | false => exact h
    | true =>
      have hrole := IsUserFormValid_register_role _ (by rw [hv])
      have hdb : ∀ row ∈ (CreateUser E.bcrypt salt conn db ⟨0, FormValue r "email",
          FormValue r "password", FormValue r "full_name", FormValue r "address",
          FormValue r "phone_number", FormValue r "role"⟩).1.account_user,
          TrimSpace row.role ≠ "" := by
        rcases CreateUser_users E.bcrypt salt conn db ⟨0, FormValue r "email",
          FormValue r "password", FormValue r "full_name", FormValue r "address",
          FormValue r "phone_number", FormValue r "role"⟩ with hu | ⟨new, hashed, hnew, hu⟩
        · rw [hu]; exact h
        · rw [hu]
          intro row hrow
          rcases List.mem_append.mp hrow with h1 | h1
          · exact h row h1
          · simp at h1
            rw [h1]
            exact varchar_nonblank 20 _ _ ((userRowOf_eq_ok _ _ _ _ _ _ _ _).mp hnew).2.2.2.2.2.2
              hrole
      simp only
      cases hc : CreateUser E.bcrypt salt conn db ⟨0, FormValue r "email", FormValue r "password",
        FormValue r "full_name", FormValue r "address", FormValue r "phone_number",
        FormValue r "role"⟩ with
      | mk db1 rest =>
        rw [hc] at hdb
        obtain ⟨created, e⟩ := rest
        cases e with
        | none => exact hdb
        | some e => simp only; split_ifs <;> exact hdb

end Ecom

namespace Ecom

theorem GetUserSession_found (conn : Conn) (db : DB) (tokenString : String) (userID : Int)
    (s : SessionRow) (r1 : UserRow) (hq : conn.queryErr = none)
    (hs : db.account_usersession.find?
      (fun s => s.token = tokenString ∧ s.account_user_id = userID) = some s)
    (hr : db.account_user.find? (fun r => r.id = s.account_user_id) = some r1) :
    GetUserSession conn db tokenString userID = (⟨s.id, s.token, r1.toUser⟩, none) := by
  simp only [GetUserSession, hq, hs, hr]

/-- C6: when a login answers 200 with token `t` for a registered user (the
stored role of the user with that email is not blank, as the register route
guarantees), an authorize request carrying `t` on the database the login left,
before the token expires and with a working connection, answers 200 with a
user record whose email is the login email and whose password is empty; the
JWT library is any implementation meeting `JWTLib.Lawful`. -/
theorem login_then_authorize (E : Env) (hL : E.jwt.Lawful) (now later : Int)
    (c1 c2 c3 c4 : Conn) (db : DB) (r r2 : Request) (t role : String)
    (hreg : ∀ row ∈ db.account_user, row.email = FormValue r "email" →
      TrimSpace row.role ≠ "")
    (hlogin : (LoginHandler E now c1 c2 db r).2 = ⟨200, Body.content
      [("message", Any.str "User logged in!"), ("token", Any.str t), ("role", Any.str role)]⟩)
    (htoken : FormValue r2 "token" = t)
    (hexp : later < now + 1800)
    (h3 : c3.queryErr = none) (h4 : c4.queryErr = none) :
    ∃ user : User,
      AuthorizeHandler E later c3 c4 (LoginHandler E now c1 c2 db r).1 r2 =
        ⟨200, Body.data user⟩ ∧
      user.Email = FormValue r "email" ∧ user.Password = "" := by
  obtain ⟨hvalid, hstatus, htok, hdb⟩ := LoginHandler_ok E now c1 c2 db r t role hlogin
  obtain ⟨existedUser, hget, -, hgen, hcserr, hcsdb, -, -⟩ :=
    AuthenticateUser_ok E now c1 c2 db _ hstatus
  rw [htok] at hgen hcserr hcsdb
  have hemailnb := IsUserFormValid_true_email _ _ hvalid
  simp only at hemailnb hget
  obtain ⟨row, hfind, hrow⟩ := GetUser_by_email_ok c1 db _ existedUser hget
  have hrowmem : row ∈ db.account_user := List.mem_of_find?_eq_some hfind
  have hrowemail : row.email = FormValue r "email" := by
    have := List.find?_some hfind
    simpa using this
  have heu_email : existedUser.Email = FormValue r "email" := by
    rw [hrow]; exact hrowemail
  have heu_role : TrimSpace existedUser.Role ≠ "" := by
    rw [hrow]; exact hreg row hrowmem hrowemail
  have heu_id : existedUser.ID = row.id := by rw [hrow]; rfl
  -- the token
  have hsig := GenerateJWT_signed E.jwt E.config now _ _ t hgen
  have htnb : TrimSpace t ≠ "" := hL.signed_nonblank _ _ _ _ hsig
  have hval := ValidateJWT_GenerateJWT E.jwt hL E.config now later existedUser.Email
    existedUser.Role t (by rw [heu_email]; exact hemailnb) heu_role hgen hexp
  -- the database after login
  rcases CreateUserSession_spec c2 db ⟨0, t, existedUser⟩ with
    ⟨hne, -, -⟩ | ⟨-, hu, ⟨t1, ht1, hs⟩, -⟩
  · exact absurd hcserr hne
  · rw [(varchar_of_no_space 200 t t1 (hL.signed_no_space _ _ _ _ hsig) ht1).1] at hs
    rw [hdb, hcsdb]
    have hfind2 : (CreateUserSession c2 db ⟨0, t, existedUser⟩).1.account_user.find?
        (fun r1 => r1.email = existedUser.Email) = some row := by
      rw [hu, heu_email]; exact hfind
    have hgu := GetUser_by_email_of_find c3 _ existedUser.Email row h3 hfind2
    have hsess : (CreateUserSession c2 db ⟨0, t, existedUser⟩).1.account_usersession.find?
        (fun s => s.token = t ∧ s.account_user_id = existedUser.ID) =
        some ⟨((db.account_usersession_id_seq + 1 : Nat) : Int), t, existedUser.ID⟩ := by
      rw [hs]
      apply find?_filter_append_singleton
      · simp
      · intro s hps
        simp at hps
        exact hps.2
    have huser : ∃ r1 : UserRow, (CreateUserSession c2 db ⟨0, t, existedUser⟩).1.account_user.find?
        (fun r1 => r1.id = existedUser.ID) = some r1 := by
      rw [hu]
      cases hf : db.account_user.find? (fun r1 => r1.id = existedUser.ID) with
      | some r1 => exact ⟨r1, rfl⟩
      | none =>
        rw [List.find?_eq_none] at hf
        have := hf row hrowmem
        simp [heu_id] at this
    obtain ⟨r1, hr1⟩ := huser
    refine ⟨{ existedUser with Password := "" }, ?_, heu_email, rfl⟩
    have hmap : mapGet [("email", existedUser.Email), ("role", existedUser.Role)] "email" =
        existedUser.Email := by
      simp [mapGet, List.lookup]
    have hgus := GetUserSession_found c4 _ t existedUser.ID _ r1 h4 hsess hr1
    have hgus2 : GetUserSession c4 (CreateUserSession c2 db ⟨0, t, existedUser⟩).1 t
        row.toUser.ID =
        (⟨((db.account_usersession_id_seq + 1 : Nat) : Int), t, r1.toUser⟩, none) := by
      rw [← hrow]; exact hgus
    have hid2 : ¬ ((db.account_usersession_id_seq : Int) + 1 = 0) := by omega
    simp only [AuthorizeHandler, htoken, htnb, hval, hmap, hgu, hgus2]
    simp [hid2, hrow, htnb]

/-- Witness for C6: the registered user of the demo database logs in at clock
0 and presents the token at clock 5. -/
theorem login_then_authorize_witness :
    ∃ user : User,
      AuthorizeHandler Demo.env 5 Conn.healthy Conn.healthy
          (LoginHandler Demo.env 0 Conn.healthy Conn.healthy Demo.registeredDB
            Demo.loginRequest).1 [("token", Demo.tokenAt 0)] =
        ⟨200, Body.data user⟩ ∧
      user.Email = "a@b.c" ∧ user.Password = "" :=
  login_then_authorize Demo.env Demo.jwt_lawful 0 5 Conn.healthy Conn.healthy Conn.healthy
    Conn.healthy Demo.registeredDB Demo.loginRequest [("token", Demo.tokenAt 0)]
    (Demo.tokenAt 0) "user" (by decide) (by decide) (by decide) (by decide) rfl rfl

end Ecom


namespace Ecom

/-- C7 (the code at the failing input): the token minted at clock 0 for the
registered user a@b.c is accepted by `ValidateJWT` at clock 5, its email claim
names a stored user, and no session row carries it; `AuthorizeHandler` answers
500 with the text of `sql.ErrNoRows`, not 400 "Token not valid". -/
theorem AuthorizeHandler_missing_session :
    ValidateJWT Demo.jwt Demo.env.config 5 (Demo.tokenAt 0) =
      some [("email", "a@b.c"), ("role", "user")] ∧
    (GetUser Conn.healthy Demo.registeredDB "a@b.c" 0).2 = none ∧
    Demo.registeredDB.account_usersession = [] ∧
    AuthorizeHandler Demo.env 5 Conn.healthy Conn.healthy Demo.registeredDB
        [("token", Demo.tokenAt 0)] =
      ⟨500, messageBody "sql: no rows in result set"⟩ := by
  decide

/-- C10 (counterexample): the demo database holds no session row, and
`GetUserSession` for token "This is token" and user id 1 returns the zero
record together with the non-nil error `sql.ErrNoRows`. -/
theorem GetUserSession_no_match_counterexample :
    Demo.registeredDB.account_usersession.find?
        (fun s => s.token = "This is token" ∧ s.account_user_id = 1) = none ∧
    ¬ ((GetUserSession Conn.healthy Demo.registeredDB "This is token" 1).1.ID = 0 ∧
       (GetUserSession Conn.healthy Demo.registeredDB "This is token" 1).2 = none) := by
  decide

theorem GetUserSession_of_no_match (conn : Conn) (db : DB) (tokenString : String) (userID : Int)
    (h : ∀ s ∈ db.account_usersession, ¬ (s.token = tokenString ∧ s.account_user_id = userID)) :
    (GetUserSession conn db tokenString userID).1 = UserSession.zero ∧
    (GetUserSession conn db tokenString userID).2 ≠ none ∧
    (conn.queryErr = none → (GetUserSession conn db tokenString userID).2 = some ErrNoRows) := by
  have hf : db.account_usersession.find?
      (fun s => s.token = tokenString ∧ s.account_user_id = userID) = none := by
    rw [List.find?_eq_none]
    intro s hs
    simpa using h s hs
  cases hq : conn.queryErr with
  | some e => simp [GetUserSession, hq, UserSession.zero]
  | none =>
    simp only [GetUserSession, hq, hf]
    simp [UserSession.zero]

/-- C10 (amended): when no session row matches both the token and the user id,
`GetUserSession` returns the zero record, whose ID is zero, together with a
non-nil error: the text of `sql.ErrNoRows` on a working connection, the
driver's error otherwise. -/
theorem GetUserSession_no_match (conn : Conn) (db : DB) (tokenString : String) (userID : Int)
    (h : ∀ s ∈ db.account_usersession, ¬ (s.token = tokenString ∧ s.account_user_id = userID)) :
    (GetUserSession conn db tokenString userID).1 = UserSession.zero ∧
    (GetUserSession conn db tokenString userID).1.ID = 0 ∧
    (GetUserSession conn db tokenString userID).2 ≠ none ∧
    (conn.queryErr = none → (GetUserSession conn db tokenString userID).2 = some ErrNoRows) := by
  obtain ⟨h1, h2, h3⟩ := GetUserSession_of_no_match conn db tokenString userID h
  exact ⟨h1, by rw [h1]; rfl, h2, h3⟩

/-- Witness for C10 (amended): user 1 holds a session with another token. -/
theorem GetUserSession_no_match_witness :
    (GetUserSession Conn.healthy
        ⟨[⟨1, "a@b.c", "h", "A", "A", "0", "user"⟩], [⟨1, "old token", 1⟩], 1, 1⟩
        "This is token" 1).2 = some ErrNoRows :=
  (GetUserSession_no_match Conn.healthy
      ⟨[⟨1, "a@b.c", "h", "A", "A", "0", "user"⟩], [⟨1, "old token", 1⟩], 1, 1⟩
      "This is token" 1 (by decide)).2.2.2 rfl

end Ecom

namespace Ecom

theorem AuthorizeHandler_no_session (E : Env) (now : Int) (c1 c2 : Conn) (db : DB) (r : Request)
    (h : ∀ s ∈ db.account_usersession, s.token ≠ FormValue r "token") :
    (AuthorizeHandler E now c1 c2 db r).status ≠ 200 := by
  unfold AuthorizeHandler
  simp only
  split_ifs with hb
  · cases hv : ValidateJWT E.jwt E.config now (FormValue r "token") with
    | none => simp
    | some m =>
      simp only
      cases hg : GetUser c1 db (mapGet m "email") 0 with
      | mk user e =>
        cases e with
        | some e => simp
        | none =>
          simp only
          have hno := GetUserSession_of_no_match c2 db (FormValue r "token") user.ID
            (fun s hs hc => h s hs hc.1)
          cases hs : GetUserSession c2 db (FormValue r "token") user.ID with
          | mk us e =>
            rw [hs] at hno
            cases e with
            | some e => simp
            | none => exact absurd rfl hno.2.1
  · simp

theorem LogoutHandler_ok (conn : Conn) (db : DB) (r : Request)
    (h : (LogoutHandler conn db r).2.status = 200) :
    (LogoutHandler conn db r).1.account_user = db.account_user ∧
    (LogoutHandler conn db r).1.account_usersession =
      db.account_usersession.filter (fun s => s.token ≠ FormValue r "token") := by
  unfold LogoutHandler at h ⊢
  simp only at h ⊢
  split_ifs at h ⊢ with hb
  · rcases DeleteUserSession_spec conn db (FormValue r "token") with ⟨he, -⟩ | ⟨he, hu, hs⟩
    · cases hd : DeleteUserSession conn db (FormValue r "token") with
      | mk db1 e =>
        rw [hd] at he h
        cases e with
        | none => exact absurd rfl he
        | some e => simp at h
    · cases hd : DeleteUserSession conn db (FormValue r "token") with
      | mk db1 e =>
        rw [hd] at hu hs
        cases e <;> exact ⟨hu, hs⟩
  · simp at h

theorem LogoutHandler_users (conn : Conn) (db : DB) (r : Request) :
    (LogoutHandler conn db r).1.account_user = db.account_user := by
  rcases LogoutHandler_db conn db r with h | h
  · rw [h]
  · rw [h]
    rcases DeleteUserSession_spec conn db (FormValue r "token") with ⟨-, h1⟩ | ⟨-, h1, -⟩
    · rw [h1]
    · exact h1

end Ecom

namespace Ecom

/-- C8 (counterexample): on the empty database the token minted at clock 0 for
a@b.c is accepted by `ValidateJWT` at clock 5 and names no stored user; the
logout with it answers 200 and the authorize that follows answers 500. -/
theorem authorize_after_logout_counterexample :
    (LogoutHandler Conn.healthy Demo.emptyDB [("token", Demo.tokenAt 0)]).2.status = 200 ∧
    (AuthorizeHandler Demo.env 5 Conn.healthy Conn.healthy
      (LogoutHandler Conn.healthy Demo.emptyDB [("token", Demo.tokenAt 0)]).1
      [("token", Demo.tokenAt 0)]).status = 500 := by
  decide

/-- C8 (amended): for an authorize with token `t` performed right after a
logout with `t`: the status is 400 when `t` is blank or `ValidateJWT` rejects
it; it is 500 when `ValidateJWT` accepts it and the user lookup fails, in
particular when no stored user has the email of the claims; and when the logout
answered 200 the status is never 200. -/
theorem authorize_after_logout (E : Env) (now : Int) (c0 c1 c2 : Conn) (db : DB)
    (r1 r2 : Request) (t : String)
    (h1 : FormValue r1 "token" = t) (h2 : FormValue r2 "token" = t) :
    ((TrimSpace t = "" ∨ ValidateJWT E.jwt E.config now t = none) →
      (AuthorizeHandler E now c1 c2 (LogoutHandler c0 db r1).1 r2).status = 400) ∧
    (∀ m : List (String × String), TrimSpace t ≠ "" → ValidateJWT E.jwt E.config now t = some m →
      (c1.queryErr ≠ none ∨ ∀ row ∈ db.account_user, row.email ≠ mapGet m "email") →
      (AuthorizeHandler E now c1 c2 (LogoutHandler c0 db r1).1 r2).status = 500) ∧
    ((LogoutHandler c0 db r1).2.status = 200 →
      (AuthorizeHandler E now c1 c2 (LogoutHandler c0 db r1).1 r2).status ≠ 200) := by
  refine ⟨?_, ?_, ?_⟩
  · intro h
    unfold AuthorizeHandler
    simp only [h2]
    rcases h with h | h
    · simp [h]
    · by_cases hb : TrimSpace t = ""
      · simp [hb]
      · simp [hb, h]
  · intro m hb hv hmiss
    have hg : (GetUser c1 (LogoutHandler c0 db r1).1 (mapGet m "email") 0).2 ≠ none := by
      unfold GetUser
      rcases hmiss with hq | hrows
      · cases hq2 : c1.queryErr with
        | none => exact absurd hq2 hq
        | some e => simp
      · cases hq2 : c1.queryErr with
        | some e => simp
        | none =>
          have hf : (LogoutHandler c0 db r1).1.account_user.find?
              (fun r => r.email = mapGet m "email") = none := by
            rw [LogoutHandler_users, List.find?_eq_none]
            intro row hrow
            simpa using hrows row hrow
          simp [hf]
    unfold AuthorizeHandler
    simp only [h2, hv]
    cases hgu : GetUser c1 (LogoutHandler c0 db r1).1 (mapGet m "email") 0 with
    | mk user e =>
      rw [hgu] at hg
      cases e with
      | none => exact absurd rfl hg
      | some e => simp [hb]
  · intro hok
    apply AuthorizeHandler_no_session
    intro s hs
    rw [(LogoutHandler_ok c0 db r1 hok).2] at hs
    have := (List.mem_filter.mp hs).2
    rw [h2, ← h1]
    simpa using this

/-- Witness for C8 (amended): the registered user of the demo database logs in
at clock 0 and logs out; the authorize that follows does not answer 200. -/
theorem authorize_after_logout_witness :
    (AuthorizeHandler Demo.env 5 Conn.healthy Conn.healthy
      (LogoutHandler Conn.healthy
        (LoginHandler Demo.env 0 Conn.healthy Conn.healthy Demo.registeredDB
          Demo.loginRequest).1 [("token", Demo.tokenAt 0)]).1
      [("token", Demo.tokenAt 0)]).status ≠ 200 :=
  (authorize_after_logout Demo.env 5 Conn.healthy Conn.healthy Conn.healthy
    (LoginHandler Demo.env 0 Conn.healthy Conn.healthy Demo.registeredDB Demo.loginRequest).1
    [("token", Demo.tokenAt 0)] [("token", Demo.tokenAt 0)] (Demo.tokenAt 0) rfl rfl).2.2
    (by decide)

end Ecom

namespace Ecom

/-- A login answering 200 with token `t`: the first user row with the email of
the form exists, `t` is what `GenerateJWT` mints for its email and role at the
clock of the login, and the user table is left as it was. -/
theorem LoginHandler_minted (E : Env) (now : Int) (c1 c2 : Conn) (db : DB) (r : Request)
    (t role : String)
    (h : (LoginHandler E now c1 c2 db r).2 = ⟨200, Body.content
      [("message", Any.str "User logged in!"), ("token", Any.str t), ("role", Any.str role)]⟩) :
    ∃ row : UserRow,
      db.account_user.find? (fun r1 => r1.email = FormValue r "email") = some row ∧
      GenerateJWT E.jwt E.config now row.email row.role = (t, none) ∧
      (LoginHandler E now c1 c2 db r).1.account_user = db.account_user := by
  obtain ⟨-, hstatus, htok, hdb⟩ := LoginHandler_ok E now c1 c2 db r t role h
  obtain ⟨existedUser, hget, -, hgen, hcserr, hcsdb, -, -⟩ :=
    AuthenticateUser_ok E now c1 c2 db _ hstatus
  rw [htok] at hgen hcserr hcsdb
  simp only at hget
  obtain ⟨row, hfind, hrow⟩ := GetUser_by_email_ok c1 db _ existedUser hget
  refine ⟨row, hfind, ?_, ?_⟩
  · rw [hrow] at hgen; exact hgen
  · rw [hdb, hcsdb]
    rcases CreateUserSession_spec c2 db ⟨0, t, existedUser⟩ with ⟨_, hu, _⟩ | ⟨_, hu, _, _⟩
    · exact hu
    · exact hu

/-- C9 (counterexample): the registered user of the demo database logs in
twice at the same clock reading; both logins answer 200 and carry the same
token. -/
theorem second_login_same_token :
    (LoginHandler Demo.env 0 Conn.healthy Conn.healthy Demo.registeredDB Demo.loginRequest).2 =
      ⟨200, Body.content [("message", Any.str "User logged in!"),
        ("token", Any.str (Demo.tokenAt 0)), ("role", Any.str "user")]⟩ ∧
    (LoginHandler Demo.env 0 Conn.healthy Conn.healthy
      (LoginHandler Demo.env 0 Conn.healthy Conn.healthy Demo.registeredDB
        Demo.loginRequest).1 Demo.loginRequest).2 =
      ⟨200, Body.content [("message", Any.str "User logged in!"),
        ("token", Any.str (Demo.tokenAt 0)), ("role", Any.str "user")]⟩ := by
  decide

/-- C9 (amended): of two successful logins with the same form, one right after
the other, the second returns a token different from the first exactly when
the two clock readings (Unix seconds) differ; the JWT library is any
implementation meeting `JWTLib.Lawful`. -/
theorem second_login_token (E : Env) (hL : E.jwt.Lawful) (now1 now2 : Int)
    (c1 c2 c3 c4 : Conn) (db : DB) (r : Request) (t1 t2 role1 role2 : String)
    (h1 : (LoginHandler E now1 c1 c2 db r).2 = ⟨200, Body.content
      [("message", Any.str "User logged in!"), ("token", Any.str t1), ("role", Any.str role1)]⟩)
    (h2 : (LoginHandler E now2 c3 c4 (LoginHandler E now1 c1 c2 db r).1 r).2 = ⟨200,
      Body.content
      [("message", Any.str "User logged in!"), ("token", Any.str t2), ("role", Any.str role2)]⟩) :
    t2 ≠ t1 ↔ now2 ≠ now1 := by
  obtain ⟨row1, hf1, hg1, hu1⟩ := LoginHandler_minted E now1 c1 c2 db r t1 role1 h1
  obtain ⟨row2, hf2, hg2, -⟩ := LoginHandler_minted E now2 c3 c4 _ r t2 role2 h2
  rw [hu1, hf1] at hf2
  have hrow : row1 = row2 := Option.some.inj hf2
  subst hrow
  constructor
  · intro hne hnow
    apply hne
    rw [hnow, hg1] at hg2
    exact (congrArg Prod.fst hg2).symm
  · intro hnow ht
    apply hnow
    rw [ht] at hg2
    have hs1 := GenerateJWT_signed E.jwt E.config now1 _ _ t1 hg1
    have hs2 := GenerateJWT_signed E.jwt E.config now2 _ _ t1 hg2
    obtain ⟨ca, hpa, hga⟩ := hL.parse_signed _ _ _ _ hs1
    obtain ⟨cb, hpb, hgb⟩ := hL.parse_signed _ _ _ _ hs2
    rw [hpa] at hpb
    have hc : ca = cb := by
      have := Option.some.inj hpb
      exact (Prod.mk.inj this).2
    have he1 := hga "exp"
    have he2 := hgb "exp"
    rw [hc, he2] at he1
    simp [MapClaims.set, MapClaims.get, List.lookup] at he1
    omega

/-- Witness for C9 (amended): the registered user of the demo database logs in
at clock 0 and again at clock 1. -/
theorem second_login_token_witness : Demo.tokenAt 1 ≠ Demo.tokenAt 0 :=
  (second_login_token Demo.env Demo.jwt_lawful 0 1 Conn.healthy Conn.healthy Conn.healthy
    Conn.healthy Demo.registeredDB Demo.loginRequest (Demo.tokenAt 0) (Demo.tokenAt 1)
    "user" "user" (by decide) (by decide)).mpr (by decide)

end Ecom


namespace Ecom

/-- C11: after `DeleteUserSession` with token `t` returns nil, `GetUserSession`
for `t` and any user id returns a non-nil error, whatever the connection; in
particular for a session `CreateUserSession` had stored with token `t`. -/
theorem GetUserSession_after_delete (c1 c2 : Conn) (db : DB) (t : String) (userID : Int)
    (hdel : (DeleteUserSession c1 db t).2 = none) :
    (GetUserSession c2 (DeleteUserSession c1 db t).1 t userID).2 ≠ none := by
  rcases DeleteUserSession_spec c1 db t with ⟨he, -⟩ | ⟨-, -, hs⟩
  · exact absurd hdel he
  · refine (GetUserSession_of_no_match c2 _ t userID ?_).2.1
    intro s hmem hc
    rw [hs] at hmem
    have := (List.mem_filter.mp hmem).2
    simp at this
    exact this hc.1

/-- Witness for C11: the session of the repository test, created for user 1
with token "This is token", deleted, then looked up. -/
theorem GetUserSession_after_delete_witness :
    (CreateUserSession Conn.healthy Demo.registeredDB
        ⟨0, "This is token", { User.zero with ID := 1 }⟩).2.2 = none ∧
    (GetUserSession Conn.healthy
      (DeleteUserSession Conn.healthy
        (CreateUserSession Conn.healthy Demo.registeredDB
          ⟨0, "This is token", { User.zero with ID := 1 }⟩).1 "This is token").1
      "This is token" 1).2 ≠ none :=
  ⟨by decide, GetUserSession_after_delete Conn.healthy Conn.healthy
    (CreateUserSession Conn.healthy Demo.registeredDB
      ⟨0, "This is token", { User.zero with ID := 1 }⟩).1 "This is token" 1 (by decide)⟩

/-- A successful `CreateUserSession` found a user row with the id of the
session's user (the foreign key of the session table). -/
theorem CreateUserSession_user_exists (conn : Conn) (db : DB) (us : UserSession)
    (h : (CreateUserSession conn db us).2.2 = none) :
    ∃ row : UserRow, db.account_user.find? (fun r => r.id = us.User.ID) = some row := by
  have hany : db.account_user.any (fun r => r.id = us.User.ID) = true := by
    unfold CreateUserSession at h
    cases hb : conn.beginErr with
    | some e => simp [hb] at h
    | none =>
      cases he : conn.execErr with
      | some e => simp [hb, he] at h
      | none =>
        cases hq : conn.queryErr with
        | some e => simp [hb, he, hq] at h
        | none =>
          cases hv : varchar 200 us.Token with
          | error e => simp [hb, he, hq, DB.insertSession, hv] at h
          | ok t =>
            simp only [hb, he, hq, DB.insertSession, DB.deleteSessionsOfUser, hv] at h
            by_contra hno
            simp only [Bool.not_eq_true] at hno
            simp only [hno] at h
            split_ifs at h
            simp_all
  cases hf : db.account_user.find? (fun r => r.id = us.User.ID) with
  | some row => exact ⟨row, rfl⟩
  | none =>
    rw [List.find?_eq_none] at hf
    rw [List.any_eq_true] at hany
    obtain ⟨x, hx, hpx⟩ := hany
    exact absurd hpx (hf x hx)

/-- C12 (counterexample): for the registered user of the demo database and a
token of 200 letters followed by one space, `CreateUserSession` returns without
error, and `GetUserSession` with that token and the user id then returns the
error `sql.ErrNoRows`. -/
theorem GetUserSession_cut_token :
    (CreateUserSession Conn.healthy Demo.registeredDB
      ⟨0, String.mk (List.replicate 200 't' ++ [' ']), { User.zero with ID := 1 }⟩).2.2 = none ∧
    (GetUserSession Conn.healthy
      (CreateUserSession Conn.healthy Demo.registeredDB
        ⟨0, String.mk (List.replicate 200 't' ++ [' ']), { User.zero with ID := 1 }⟩).1
      (String.mk (List.replicate 200 't' ++ [' '])) 1).2 = some ErrNoRows := by
  decide

/-- C12 (amended): when `CreateUserSession` returns a session without error,
that session carries the token and user it was given, and the row is stored
under the token as the `VARCHAR(200)` column keeps it. For a token of at most
200 characters `GetUserSession` with the token and user id of the session, on
a working connection, returns without error a record with the same ID, whose
user is the stored row of that user id (so its user ID is the same as well).
For a longer token the same holds with the first 200 characters of the token,
and the lookup with the token itself returns `sql.ErrNoRows`. -/
theorem CreateUserSession_GetUserSession (c1 c2 : Conn) (db : DB) (us : UserSession)
    (hcreate : (CreateUserSession c1 db us).2.2 = none) (hq : c2.queryErr = none) :
    (CreateUserSession c1 db us).2.1.Token = us.Token ∧
    (CreateUserSession c1 db us).2.1.User = us.User ∧
    ∃ row : UserRow, row ∈ db.account_user ∧ row.toUser.ID = us.User.ID ∧
      (us.Token.length ≤ 200 →
        GetUserSession c2 (CreateUserSession c1 db us).1 us.Token us.User.ID =
          (⟨(CreateUserSession c1 db us).2.1.ID, us.Token, row.toUser⟩, none)) ∧
      GetUserSession c2 (CreateUserSession c1 db us).1 (String.mk (us.Token.data.take 200))
          us.User.ID =
        (⟨(CreateUserSession c1 db us).2.1.ID, String.mk (us.Token.data.take 200),
          row.toUser⟩, none) ∧
      (200 < us.Token.length →
        GetUserSession c2 (CreateUserSession c1 db us).1 us.Token us.User.ID =
          (UserSession.zero, some ErrNoRows)) := by
  obtain ⟨row, hrow⟩ := CreateUserSession_user_exists c1 db us hcreate
  have hid : row.id = us.User.ID := by
    have := List.find?_some hrow
    simpa using this
  rcases CreateUserSession_spec c1 db us with ⟨hne, -, -⟩ | ⟨-, hu, ⟨t, ht, hs⟩, hr⟩
  · exact absurd hcreate hne
  · obtain ⟨htake, htlen, hfit, -⟩ := varchar_eq_ok 200 us.Token t ht
    have hsess : (CreateUserSession c1 db us).1.account_usersession.find?
        (fun s => s.token = t ∧ s.account_user_id = us.User.ID) =
        some ⟨((db.account_usersession_id_seq + 1 : Nat) : Int), t, us.User.ID⟩ := by
      rw [hs]
      apply find?_filter_append_singleton
      · simp
      · intro s hps
        simp at hps
        exact hps.2
    have huser : (CreateUserSession c1 db us).1.account_user.find?
        (fun r => r.id = us.User.ID) = some row := by
      rw [hu]; exact hrow
    have hget := GetUserSession_found c2 _ t us.User.ID _ row hq hsess huser
    have hget2 : GetUserSession c2 (CreateUserSession c1 db us).1 t us.User.ID =
        (⟨(CreateUserSession c1 db us).2.1.ID, t, row.toUser⟩, none) := by
      rw [hr]; exact hget
    refine ⟨by rw [hr], by rw [hr], row, List.mem_of_find?_eq_some hrow, hid, ?_, ?_, ?_⟩
    · intro hlen
      rw [← hfit hlen]
      exact hget2
    · rw [← htake]
      exact hget2
    · intro hlong
      have hnone : (CreateUserSession c1 db us).1.account_usersession.find?
          (fun s => s.token = us.Token ∧ s.account_user_id = us.User.ID) = none := by
        rw [List.find?_eq_none, hs]
        intro s hmem hp
        simp only [decide_eq_true_eq] at hp
        rcases List.mem_append.mp hmem with hm | hm
        · have := (List.mem_filter.mp hm).2
          simp at this
          exact this hp.2
        · rw [List.mem_singleton] at hm
          rw [hm] at hp
          have ht2 : t = us.Token := hp.1
          have hl : t.length = us.Token.length := by rw [ht2]
          omega
      simp only [GetUserSession, hq, hnone]

/-- Witness for C12 (amended): the session of the repository test, created for
user 1 with token "This is token", then looked up. -/
theorem CreateUserSession_GetUserSession_witness :
    (GetUserSession Conn.healthy
      (CreateUserSession Conn.healthy Demo.registeredDB
        ⟨0, "This is token", { User.zero with ID := 1 }⟩).1 "This is token" 1).1.ID =
      (CreateUserSession Conn.healthy Demo.registeredDB
        ⟨0, "This is token", { User.zero with ID := 1 }⟩).2.1.ID ∧
    (GetUserSession Conn.healthy
      (CreateUserSession Conn.healthy Demo.registeredDB
        ⟨0, "This is token", { User.zero with ID := 1 }⟩).1 "This is token" 1).2 = none := by
  obtain ⟨-, -, row, -, -, h, -, -⟩ := CreateUserSession_GetUserSession Conn.healthy Conn.healthy
    Demo.registeredDB ⟨0, "This is token", { User.zero with ID := 1 }⟩ (by decide) rfl
  have h2 : GetUserSession Conn.healthy
      (CreateUserSession Conn.healthy Demo.registeredDB
        ⟨0, "This is token", { User.zero with ID := 1 }⟩).1 "This is token" 1 = _ :=
    h (by decide)
  rw [h2]
  exact ⟨rfl, rfl⟩

end Ecom

namespace Ecom

/-- What `ValidateJWT` returns, in terms of the outcome of `jwt.Parse`. -/
theorem ValidateJWT_some (L : JWTLib) (cfg : Config) (now : Int) (s : String)
    (m : List (String × String)) (h : ValidateJWT L cfg now s = some m) :
    ∃ (method : SigningMethod) (claims : MapClaims),
      L.ParseUnverified s = some (method, claims) ∧
      m = [("email", Sprint (claims.get "email")), ("role", Sprint (claims.get "role"))] ∧
      TrimSpace (Sprint (claims.get "email")) ≠ "" ∧
      TrimSpace (Sprint (claims.get "role")) ≠ "" := by
  unfold ValidateJWT JWTLib.Parse at h
  cases hp : L.ParseUnverified s with
  | none => simp [hp] at h
  | some mc =>
    obtain ⟨method, claims⟩ := mc
    simp only [hp] at h
    cases hk : keyFunc cfg ⟨method, claims, false⟩ with
    | mk key e =>
      simp only [hk] at h
      cases e with
      | some e => simp at h
      | none =>
        simp only at h
        split_ifs at h with hv
        · simp at h
          obtain ⟨⟨h1, h2⟩, h3⟩ := h
          exact ⟨method, claims, rfl, h3.symm, h1, h2⟩

/-- C15: every non-nil map `ValidateJWT` returns has exactly the entries email
and role, both non-blank after trimming; and a token whose decoded email claim
or role claim is a blank string is answered with the nil map, whatever its
signature and expiry. -/
theorem ValidateJWT_claims_nonblank (L : JWTLib) (cfg : Config) (now : Int) (s : String) :
    (∀ m : List (String × String), ValidateJWT L cfg now s = some m →
      ∃ e r : String, m = [("email", e), ("role", r)] ∧
        TrimSpace e ≠ "" ∧ TrimSpace r ≠ "") ∧
    (∀ (method : SigningMethod) (claims : MapClaims) (v : String),
      L.ParseUnverified s = some (method, claims) →
      (claims.get "email" = some (ClaimValue.str v) ∨
        claims.get "role" = some (ClaimValue.str v)) →
      TrimSpace v = "" → ValidateJWT L cfg now s = none) := by
  constructor
  · intro m hm
    obtain ⟨method, claims, -, hmeq, he, hr⟩ := ValidateJWT_some L cfg now s m hm
    exact ⟨_, _, hmeq, he, hr⟩
  · intro method claims v hp hv hblank
    cases hres : ValidateJWT L cfg now s with
    | none => rfl
    | some m =>
      obtain ⟨method2, claims2, hp2, -, he, hr⟩ := ValidateJWT_some L cfg now s m hres
      rw [hp] at hp2
      have hc : claims = claims2 := (Prod.mk.inj (Option.some.inj hp2)).2
      subst hc
      rcases hv with hv | hv
      · rw [hv] at he; exact absurd hblank he
      · rw [hv] at hr; exact absurd hblank hr

/-- Witness for C15: a token signed under the secret, unexpired, whose email
claim is a single space. -/
theorem ValidateJWT_claims_nonblank_witness :
    ValidateJWT Demo.jwt Demo.env.config 5
      (Demo.jwt.SignedString (SigningMethod.hmac SigningMethodHMAC.HS256)
        [("email", ClaimValue.str " "), ("role", ClaimValue.str "user"),
         ("exp", ClaimValue.num 1800)] "secret").1 = none :=
  (ValidateJWT_claims_nonblank Demo.jwt Demo.env.config 5 _).2
    (SigningMethod.hmac SigningMethodHMAC.HS256)
    [("email", ClaimValue.str " "), ("role", ClaimValue.str "user"),
     ("exp", ClaimValue.num 1800)] " " (by decide) (Or.inl (by decide)) (by decide)

/-- C16: the claim set `GenerateJWT` signs holds exactly `exp` equal to the
mint clock plus 1800 seconds, the email and the role as given; the token it
returns is what the library signs for that claim set, and with a library
meeting `JWTLib.Lawful` the returned token decodes to these three values. -/
theorem GenerateJWT_claims (L : JWTLib) (cfg : Config) (now : Int) (email role : String) :
    ∃ claims : MapClaims,
      claims.get "exp" = some (ClaimValue.num (now + 1800)) ∧
      claims.get "email" = some (ClaimValue.str email) ∧
      claims.get "role" = some (ClaimValue.str role) ∧
      (∀ key : String, key ≠ "exp" → key ≠ "email" → key ≠ "role" → claims.get key = none) ∧
      (∀ s : String, GenerateJWT L cfg now email role = (s, none) →
        L.SignedString (SigningMethod.hmac cfg.JWTSigningMethod) claims cfg.JWTSecretKey =
          (s, none)) ∧
      (L.Lawful → ∀ s : String, GenerateJWT L cfg now email role = (s, none) →
        ∃ c2 : MapClaims,
          L.ParseUnverified s = some (SigningMethod.hmac cfg.JWTSigningMethod, c2) ∧
          c2.get "exp" = some (ClaimValue.num (now + 1800)) ∧
          c2.get "email" = some (ClaimValue.str email) ∧
          c2.get "role" = some (ClaimValue.str role)) := by
  have hexp : MapClaims.get (((MapClaims.set [] "email" (ClaimValue.str email)).set "role"
      (ClaimValue.str role)).set "exp" (ClaimValue.num (now + 1800))) "exp" =
      some (ClaimValue.num (now + 1800)) := by
    simp [MapClaims.set, MapClaims.get, List.lookup]
  have hemail : MapClaims.get (((MapClaims.set [] "email" (ClaimValue.str email)).set "role"
      (ClaimValue.str role)).set "exp" (ClaimValue.num (now + 1800))) "email" =
      some (ClaimValue.str email) := by
    simp [MapClaims.set, MapClaims.get, List.lookup]
  have hrole : MapClaims.get (((MapClaims.set [] "email" (ClaimValue.str email)).set "role"
      (ClaimValue.str role)).set "exp" (ClaimValue.num (now + 1800))) "role" =
      some (ClaimValue.str role) := by
    simp [MapClaims.set, MapClaims.get, List.lookup]
  refine ⟨_, hexp, hemail, hrole, ?_, fun s hs => GenerateJWT_signed L cfg now email role s hs, ?_⟩
  · intro key h1 h2 h3
    have e1 : (key == "exp") = false := by simpa using h1
    have e2 : (key == "email") = false := by simpa using h2
    have e3 : (key == "role") = false := by simpa using h3
    simp [MapClaims.set, MapClaims.get, List.lookup, e1, e2, e3]
  · intro hL s hs
    obtain ⟨c2, hp, hg⟩ := hL.parse_signed _ _ _ _ (GenerateJWT_signed L cfg now email role s hs)
    exact ⟨c2, hp, by rw [hg, hexp], by rw [hg, hemail], by rw [hg, hrole]⟩

/-- Witness for C16: the claims decoded from the token minted at clock 1000
for admin@gmail.com / admin. -/
theorem GenerateJWT_claims_witness :
    ∃ c2 : MapClaims,
      Demo.jwt.ParseUnverified
          (GenerateJWT Demo.jwt Demo.env.config 1000 "admin@gmail.com" "admin").1 =
        some (SigningMethod.hmac Demo.env.config.JWTSigningMethod, c2) ∧
      c2.get "exp" = some (ClaimValue.num (1000 + 1800)) ∧
      c2.get "email" = some (ClaimValue.str "admin@gmail.com") ∧
      c2.get "role" = some (ClaimValue.str "admin") := by
  obtain ⟨claims, -, -, -, -, -, h⟩ :=
    GenerateJWT_claims Demo.jwt Demo.env.config 1000 "admin@gmail.com" "admin"
  exact h Demo.jwt_lawful _ rfl

/-- C17: a request whose token is blank after trimming is answered 400 "Token
empty/not found", and a non-blank token on which `ValidateJWT` returns nil is
answered 400 "Token not valid"; both answers are the same for every database
and every state of the connection, so the store plays no part in them. -/
theorem AuthorizeHandler_first_gate (E : Env) (now : Int) (r : Request) :
    (TrimSpace (FormValue r "token") = "" → ∀ (c1 c2 : Conn) (db : DB),
      AuthorizeHandler E now c1 c2 db r = ⟨400, messageBody "Token empty/not found"⟩) ∧
    (TrimSpace (FormValue r "token") ≠ "" →
      ValidateJWT E.jwt E.config now (FormValue r "token") = none → ∀ (c1 c2 : Conn) (db : DB),
      AuthorizeHandler E now c1 c2 db r = ⟨400, messageBody "Token not valid"⟩) := by
  constructor
  · intro hb c1 c2 db
    simp [AuthorizeHandler, hb]
  · intro hb hv c1 c2 db
    simp [AuthorizeHandler, hb, hv]

/-- Witness for C17: the two rejected tokens of the repository test, the
empty one and "Invalid Token", on a failing connection. -/
theorem AuthorizeHandler_first_gate_witness :
    AuthorizeHandler Demo.env 5 ⟨none, none, some "driver: bad connection", none⟩
        ⟨none, none, some "driver: bad connection", none⟩ Demo.registeredDB [("token", "")] =
      ⟨400, messageBody "Token empty/not found"⟩ ∧
    AuthorizeHandler Demo.env 5 ⟨none, none, some "driver: bad connection", none⟩
        ⟨none, none, some "driver: bad connection", none⟩ Demo.registeredDB
        [("token", "Invalid Token")] =
      ⟨400, messageBody "Token not valid"⟩ :=
  ⟨(AuthorizeHandler_first_gate Demo.env 5 [("token", "")]).1 (by decide) _ _ _,
   (AuthorizeHandler_first_gate Demo.env 5 [("token", "Invalid Token")]).2 (by decide)
     (by decide) _ _ _⟩

end Ecom

namespace Ecom

/-- `AuthenticateUser` when the user lookup or the password comparison fails. -/
theorem AuthenticateUser_rejected (E : Env) (now : Int) (c1 c2 : Conn) (db : DB) (u : User)
    (h : (GetUser c1 db u.Email 0).2 ≠ none ∨
      ComparePassword E.bcrypt (GetUser c1 db u.Email 0).1.Password u.Password ≠ none) :
    AuthenticateUser E now c1 c2 db u = (db, "", 400, (GetUser c1 db u.Email 0).1, none) := by
  unfold AuthenticateUser
  cases hg : GetUser c1 db u.Email 0 with
  | mk existedUser e =>
    rw [hg] at h
    cases e with
    | some e => rfl
    | none =>
      dsimp only
      cases hc : ComparePassword E.bcrypt existedUser.Password u.Password with
      | some e => rfl
      | none =>
        rcases h with h | h
        · exact absurd rfl h
        · exact absurd hc h

theorem GetUser_no_row (conn : Conn) (db : DB) (email : String)
    (h : ∀ row ∈ db.account_user, row.email ≠ email) : (GetUser conn db email 0).2 ≠ none := by
  unfold GetUser
  cases hq : conn.queryErr with
  | some e => simp
  | none =>
    have hf : db.account_user.find? (fun r => r.email = email) = none := by
      rw [List.find?_eq_none]
      intro row hrow
      simpa using h row hrow
    simp [hf]

/-- C18: for a login form that passes validation, the answer when no stored
user has the email and the answer when the stored user's password does not
verify are the same: status 400 with message "Email or Password invalid" and
no token, and the database is left exactly as it was. -/
theorem LoginHandler_rejections_identical (E : Env) (now : Int) (c1 c2 : Conn) (db : DB)
    (r : Request)
    (hvalid : (IsUserFormValid ⟨0, FormValue r "email", FormValue r "password", "", "", "", ""⟩
      "login").1 = true) :
    ((∀ row ∈ db.account_user, row.email ≠ FormValue r "email") →
      LoginHandler E now c1 c2 db r = (db, ⟨400, messageBody "Email or Password invalid"⟩)) ∧
    (ComparePassword E.bcrypt (GetUser c1 db (FormValue r "email") 0).1.Password
        (FormValue r "password") ≠ none →
      LoginHandler E now c1 c2 db r = (db, ⟨400, messageBody "Email or Password invalid"⟩)) := by
  have key : ∀ h : (GetUser c1 db (FormValue r "email") 0).2 ≠ none ∨
      ComparePassword E.bcrypt (GetUser c1 db (FormValue r "email") 0).1.Password
        (FormValue r "password") ≠ none,
      LoginHandler E now c1 c2 db r = (db, ⟨400, messageBody "Email or Password invalid"⟩) := by
    intro h
    have ha := AuthenticateUser_rejected E now c1 c2 db
      ⟨0, FormValue r "email", FormValue r "password", "", "", "", ""⟩ h
    unfold LoginHandler
    dsimp only
    cases hv : IsUserFormValid ⟨0, FormValue r "email", FormValue r "password", "", "", "", ""⟩
        "login" with
    | mk ok reason =>
      rw [hv] at hvalid
      dsimp only at hvalid
      subst hvalid
      dsimp only
      rw [ha]
      simp
  exact ⟨fun h => key (Or.inl (GetUser_no_row c1 db _ h)), fun h => key (Or.inr h)⟩

/-- Witness for C18: on the demo database, the login of an unknown email and
the login of the registered user with a wrong password get the same answer. -/
theorem LoginHandler_rejections_identical_witness :
    LoginHandler Demo.env 0 Conn.healthy Conn.healthy Demo.registeredDB
        [("email", "nobody@b.c"), ("password", "x")] =
      (Demo.registeredDB, ⟨400, messageBody "Email or Password invalid"⟩) ∧
    LoginHandler Demo.env 0 Conn.healthy Conn.healthy Demo.registeredDB
        [("email", "a@b.c"), ("password", "wrong")] =
      (Demo.registeredDB, ⟨400, messageBody "Email or Password invalid"⟩) :=
  ⟨(LoginHandler_rejections_identical Demo.env 0 Conn.healthy Conn.healthy Demo.registeredDB
      [("email", "nobody@b.c"), ("password", "x")] (by decide)).1 (by decide),
   (LoginHandler_rejections_identical Demo.env 0 Conn.healthy Conn.healthy Demo.registeredDB
      [("email", "a@b.c"), ("password", "wrong")] (by decide)).2 (by decide)⟩

/-- C20: a register form that fails validation in register mode, and a login
form that fails it in login mode, is answered 400 with the validator's reason
as message; the answer and the database returned are the same for every
library, salt, clock and connection, so nothing is hashed, minted or stored. -/
theorem invalid_form_rejected (r : Request) :
    ((IsUserFormValid ⟨0, FormValue r "email", FormValue r "password", FormValue r "full_name",
        FormValue r "address", FormValue r "phone_number", FormValue r "role"⟩ "register").1
        = false →
      ∀ (E : Env) (salt : String) (conn : Conn) (db : DB),
        RegisterHandler E salt conn db r =
          (db, ⟨400, messageBody (IsUserFormValid ⟨0, FormValue r "email",
            FormValue r "password", FormValue r "full_name", FormValue r "address",
            FormValue r "phone_number", FormValue r "role"⟩ "register").2⟩)) ∧
    ((IsUserFormValid ⟨0, FormValue r "email", FormValue r "password", "", "", "", ""⟩
        "login").1 = false →
      ∀ (E : Env) (now : Int) (c1 c2 : Conn) (db : DB),
        LoginHandler E now c1 c2 db r =
          (db, ⟨400, messageBody (IsUserFormValid ⟨0, FormValue r "email",
            FormValue r "password", "", "", "", ""⟩ "login").2⟩)) := by
  constructor
  · intro h E salt conn db
    unfold RegisterHandler
    dsimp only
    cases hv : IsUserFormValid ⟨0, FormValue r "email", FormValue r "password",
        FormValue r "full_name", FormValue r "address", FormValue r "phone_number",
        FormValue r "role"⟩ "register" with
    | mk ok reason =>
      rw [hv] at h
      dsimp only at h
      subst h
      rfl
  · intro h E now c1 c2 db
    unfold LoginHandler
    dsimp only
    cases hv : IsUserFormValid ⟨0, FormValue r "email", FormValue r "password", "", "", "", ""⟩
        "login" with
    | mk ok reason =>
      rw [hv] at h
      dsimp only at h
      subst h
      rfl

/-- Witness for C20: a register form without phone number and a login form
without password. -/
theorem invalid_form_rejected_witness :
    RegisterHandler Demo.env "salt" Conn.healthy Demo.emptyDB
        [("email", "a@b.c"), ("password", "x"), ("full_name", "A"), ("address", "A"),
         ("role", "user")] =
      (Demo.emptyDB, ⟨400, messageBody "phone_number empty/not found"⟩) ∧
    LoginHandler Demo.env 0 Conn.healthy Conn.healthy Demo.registeredDB [("email", "a@b.c")] =
      (Demo.registeredDB, ⟨400, messageBody "password empty/not found"⟩) :=
  ⟨(invalid_form_rejected [("email", "a@b.c"), ("password", "x"), ("full_name", "A"),
      ("address", "A"), ("role", "user")]).1 (by decide) _ _ _ _,
   (invalid_form_rejected [("email", "a@b.c")]).2 (by decide) _ _ _ _ _⟩

end Ecom

namespace Ecom

theorem utf8EncodeNat_lt (n : Nat) (h : n < 0x110000) : ∀ b ∈ utf8EncodeNat n, b < 256 := by
  intro b hb
  unfold utf8EncodeNat at hb
  split_ifs at hb <;> simp at hb <;> omega

theorem Char_toNat_lt (c : Char) : c.toNat < 0x110000 := by
  have := c.valid
  unfold Char.toNat
  rcases this with h | h
  · have : c.val.toNat < 0xd800 := h
    omega
  · exact h.2

theorem utf8Bytes_lt (s : String) : ∀ b ∈ utf8Bytes s, b < 256 := by
  intro b hb
  unfold utf8Bytes at hb
  rw [List.mem_flatMap] at hb
  obtain ⟨c, -, hc⟩ := hb
  exact utf8EncodeNat_lt c.toNat (Char_toNat_lt c) b hc

theorem bcryptKey_lt (p : String) : ∀ b ∈ bcryptKey p, b < 256 := by
  intro b hb
  unfold bcryptKey at hb
  rw [List.mem_map] at hb
  obtain ⟨i, -, hi⟩ := hb
  rw [← hi]
  have hlen : i % (utf8Bytes p ++ [0]).length < (utf8Bytes p ++ [0]).length :=
    Nat.mod_lt _ (by simp)
  rw [List.getD_eq_getElem _ _ hlen]
  have key : ∀ x ∈ utf8Bytes p ++ [0], x < 256 := by
    intro x hx
    rcases List.mem_append.mp hx with h | h
    · exact utf8Bytes_lt p x h
    · simp at h
      omega
  exact key _ (List.getElem_mem _)

theorem Char_ofNat_toNat (a : Nat) (h : a < 256) : (Char.ofNat a).toNat = a := by
  have hv : a.isValidChar := Or.inl (by omega)
  simp [Char.ofNat, hv, Char.ofNatAux, Char.toNat]
  rfl

namespace Demo

theorem bcrypt_generated (salt p : String) (cost : Nat) (h : String)
    (hh : bcrypt.GenerateFromPassword salt p cost = (h, none)) :
    h = String.mk ('$' :: putNat cost (putStr salt ((bcryptKey p).map Char.ofNat))) := by
  simp only [bcrypt] at hh
  split_ifs at hh
  · simp at hh
  · exact (congrArg Prod.fst hh).symm

theorem bcrypt_compare (salt p : String) (cost : Nat) (q : String) :
    bcrypt.CompareHashAndPassword
        (String.mk ('$' :: putNat cost (putStr salt ((bcryptKey p).map Char.ofNat)))) q =
      if (bcryptKey p).map Char.ofNat = (bcryptKey q).map Char.ofNat then none
      else some "crypto/bcrypt: hashedPassword is not the hash of the given password" := by
  simp [bcrypt, getNat_putNat, getStr_putStr]

theorem keyChars_injective (p q : String)
    (h : (bcryptKey p).map Char.ofNat = (bcryptKey q).map Char.ofNat) :
    bcryptKey p = bcryptKey q := by
  have h2 := congrArg (List.map Char.toNat) h
  simp only [List.map_map] at h2
  have hid : ∀ s : String, (bcryptKey s).map (Char.toNat ∘ Char.ofNat) = bcryptKey s := by
    intro s
    conv_rhs => rw [← List.map_id (bcryptKey s)]
    apply List.map_congr_left
    intro b hb
    exact Char_ofNat_toNat b (bcryptKey_lt s b hb)
  rw [hid p, hid q] at h2
  exact h2

theorem bcrypt_lawful : bcrypt.Lawful where
  compare_generated := by
    intro salt p cost h hh
    rw [bcrypt_generated salt p cost h hh, bcrypt_compare]
    simp
  compare_key := by
    intro h p q hk
    simp only [bcrypt, hk]

theorem bcrypt_collisionFree : bcrypt.CollisionFree := by
  intro salt p cost h q hh hc
  rw [bcrypt_generated salt p cost h hh, bcrypt_compare] at hc
  split_ifs at hc with heq
  exact (keyChars_injective p q heq).symm

end Demo

/-- C13: a digest `HashPassword` returned without error for a password
verifies against that password with `ComparePassword`; the bcrypt library is
any implementation meeting `Bcrypt.Lawful`. -/
theorem HashPassword_ComparePassword (B : Bcrypt) (hB : B.Lawful) (salt p h : String)
    (hh : HashPassword B salt p = (h, none)) : ComparePassword B h p = none :=
  hB.compare_generated salt p 10 h hh

/-- Witness for C13: the password of the repository test. -/
theorem HashPassword_ComparePassword_witness :
    ComparePassword Demo.bcrypt (HashPassword Demo.bcrypt "salt" "password").1 "password"
      = none :=
  HashPassword_ComparePassword Demo.bcrypt Demo.bcrypt_lawful "salt" "password" _ rfl

/-- C14 (counterexample): a password of 72 letters is hashed without error, and
the different password made of the same letters followed by one more verifies
against its digest. -/
theorem ComparePassword_longer_password :
    (HashPassword Demo.bcrypt "salt" (String.mk (List.replicate 72 'a'))).2 = none ∧
    String.mk (List.replicate 73 'a') ≠ String.mk (List.replicate 72 'a') ∧
    ComparePassword Demo.bcrypt
      (HashPassword Demo.bcrypt "salt" (String.mk (List.replicate 72 'a'))).1
      (String.mk (List.replicate 73 'a')) = none := by
  decide

/-- C14 (amended): against a digest `HashPassword` returned for `p`, a string
with the same bcrypt key material as `p` (the bytes followed by a zero byte,
taken cyclically, first 72) verifies, equal to `p` or not; and a string whose
key material differs is refused when the digest is collision-free; the bcrypt
library is any implementation meeting `Bcrypt.Lawful`. -/
theorem ComparePassword_key_material (B : Bcrypt) (hB : B.Lawful) (salt p h q : String)
    (hh : HashPassword B salt p = (h, none)) :
    (bcryptKey q = bcryptKey p → ComparePassword B h q = none) ∧
    (B.CollisionFree → bcryptKey q ≠ bcryptKey p → ComparePassword B h q ≠ none) := by
  constructor
  · intro hk
    unfold ComparePassword
    rw [hB.compare_key h q p hk]
    exact hB.compare_generated salt p 10 h hh
  · intro hcf hk hc
    exact hk (hcf salt p 10 h q hh hc)

/-- Witness for C14 (amended): the wrong password of the repository test is
refused. -/
theorem ComparePassword_key_material_witness :
    ComparePassword Demo.bcrypt (HashPassword Demo.bcrypt "salt" "password").1 "passwprd"
      ≠ none :=
  (ComparePassword_key_material Demo.bcrypt Demo.bcrypt_lawful "salt" "password" _ "passwprd"
    rfl).2 Demo.bcrypt_collisionFree (by decide)

end Ecom

namespace Ecom

/-- What an id returned by the insert into `account_user` means: the values
were accepted by their columns, the row made of them was appended under the
next value of the sequence, and neither that id nor the stored email was in
the table. -/
theorem insertUser_ok (db : DB) (email password full_name address phone_number role : String)
    (id : Int)
    (h : (db.insertUser email password full_name address phone_number role).2 = Except.ok id) :
    id = ((db.account_user_id_seq + 1 : Nat) : Int) ∧
    ∃ row : UserRow,
      userRowOf id email password full_name address phone_number role = Except.ok row ∧
      (db.insertUser email password full_name address phone_number role).1.account_user =
        db.account_user ++ [row] ∧
      (db.insertUser email password full_name address phone_number role).1.account_user_id_seq =
        db.account_user_id_seq + 1 ∧
      (∀ r ∈ db.account_user, r.id ≠ id) ∧ (∀ r ∈ db.account_user, r.email ≠ row.email) := by
  unfold DB.insertUser at h ⊢
  dsimp only at h ⊢
  cases hr : userRowOf ((db.account_user_id_seq + 1 : Nat) : Int) email password full_name
      address phone_number role with
  | error e => rw [hr] at h; simp at h
  | ok row =>
    rw [hr] at h
    dsimp only at h ⊢
    split_ifs at h ⊢ with h7 h8
    have hid : ((db.account_user_id_seq + 1 : Nat) : Int) = id := by simpa using h
    subst hid
    refine ⟨rfl, row, hr, rfl, rfl, ?_, ?_⟩
    · intro r hrm hid
      apply h7
      rw [List.any_eq_true]
      exact ⟨r, hrm, by simp [hid]⟩
    · intro r hrm hem
      apply h8
      rw [List.any_eq_true]
      exact ⟨r, hrm, by simp [hem]⟩

theorem insertUser_duplicate_email (db : DB)
    (email password full_name address phone_number role : String) (row : UserRow)
    (hrow : userRowOf ((db.account_user_id_seq + 1 : Nat) : Int) email password full_name
      address phone_number role = Except.ok row)
    (hfresh : ∀ r ∈ db.account_user, r.id ≠ ((db.account_user_id_seq + 1 : Nat) : Int))
    (hdup : ∃ r ∈ db.account_user, r.email = row.email) :
    (db.insertUser email password full_name address phone_number role).2 =
      Except.error (uniqueViolation "account_user_email_key") := by
  have hid : db.account_user.any (fun r => r.id = ((db.account_user_id_seq + 1 : Nat) : Int))
      = false := by
    rw [List.any_eq_false]
    intro r hr
    simpa using hfresh r hr
  have hem : db.account_user.any (fun r => r.email = row.email) = true := by
    rw [List.any_eq_true]
    obtain ⟨r, hr, he⟩ := hdup
    exact ⟨r, hr, by simpa using he⟩
  unfold DB.insertUser
  dsimp only
  rw [hrow]
  dsimp only
  rw [hid, hem]
  simp

/-- What a nil error from `CreateUser` means for the user table. -/
theorem CreateUser_ok (B : Bcrypt) (salt : String) (conn : Conn) (db : DB) (u : User)
    (h : (CreateUser B salt conn db u).2.2 = none) :
    ∃ (hashed : String) (row : UserRow),
      HashPassword B salt u.Password = (hashed, none) ∧
      userRowOf ((db.account_user_id_seq + 1 : Nat) : Int) u.Email hashed u.FullName u.Address
        u.PhoneNumber u.Role = Except.ok row ∧
      (CreateUser B salt conn db u).1.account_user = db.account_user ++ [row] ∧
      (CreateUser B salt conn db u).1.account_user_id_seq = db.account_user_id_seq + 1 := by
  unfold CreateUser at h ⊢
  cases hh : HashPassword B salt u.Password with
  | mk hashed e =>
    rw [hh] at h
    cases e with
    | some e => simp at h
    | none =>
      dsimp only at h ⊢
      cases hb : conn.beginErr with
      | some e => rw [hb] at h; simp at h
      | none =>
        rw [hb] at h
        dsimp only at h ⊢
        cases hq : conn.queryErr with
        | some e => rw [hq] at h; simp at h
        | none =>
          rw [hq] at h
          dsimp only at h ⊢
          cases hi : db.insertUser u.Email hashed u.FullName u.Address u.PhoneNumber u.Role with
          | mk db1 res =>
            rw [hi] at h
            cases res with
            | error e => simp at h
            | ok id =>
              dsimp only at h ⊢
              obtain ⟨hid, row, hrow, husers, hseq, -, -⟩ := insertUser_ok db u.Email hashed
                u.FullName u.Address u.PhoneNumber u.Role id (by rw [hi])
              rw [hi] at husers hseq
              rw [hid] at hrow
              cases hc : conn.commitErr with
              | some e => rw [hc] at h; simp at h
              | none => exact ⟨hashed, row, rfl, hrow, husers, hseq⟩

/-- What a 200 response of `RegisterHandler` means. -/
theorem RegisterHandler_ok (E : Env) (salt : String) (conn : Conn) (db : DB) (r : Request)
    (h : (RegisterHandler E salt conn db r).2.status = 200) :
    (IsUserFormValid ⟨0, FormValue r "email", FormValue r "password", FormValue r "full_name",
      FormValue r "address", FormValue r "phone_number", FormValue r "role"⟩ "register").1
      = true ∧
    (CreateUser E.bcrypt salt conn db ⟨0, FormValue r "email", FormValue r "password",
      FormValue r "full_name", FormValue r "address", FormValue r "phone_number",
      FormValue r "role"⟩).2.2 = none ∧
    (RegisterHandler E salt conn db r).1 =
      (CreateUser E.bcrypt salt conn db ⟨0, FormValue r "email", FormValue r "password",
        FormValue r "full_name", FormValue r "address", FormValue r "phone_number",
        FormValue r "role"⟩).1 := by
  unfold RegisterHandler at h ⊢
  dsimp only at h ⊢
  cases hv : IsUserFormValid ⟨0, FormValue r "email", FormValue r "password",
      FormValue r "full_name", FormValue r "address", FormValue r "phone_number",
      FormValue r "role"⟩ "register" with
  | mk ok reason =>
    rw [hv] at h
    cases ok with
    | false => simp at h
    | true =>
      dsimp only at h ⊢
      cases hc : CreateUser E.bcrypt salt conn db ⟨0, FormValue r "email", FormValue r "password",
        FormValue r "full_name", FormValue r "address", FormValue r "phone_number",
        FormValue r "role"⟩ with
      | mk db1 rest =>
        obtain ⟨created, e⟩ := rest
        rw [hc] at h
        cases e with
        | none => exact ⟨rfl, rfl, rfl⟩
        | some e =>
          dsimp only at h
          split_ifs at h <;> simp at h

theorem Contains_duplicate_email :
    (Contains (uniqueViolation "account_user_email_key") "duplicate" &&
      Contains (uniqueViolation "account_user_email_key") "email") = true := by
  decide

/-- `RegisterHandler` on a valid form whose values their columns accept and
whose stored email is in the table already, when nothing else goes wrong
first. -/
theorem RegisterHandler_duplicate (E : Env) (salt : String) (conn : Conn) (db : DB)
    (r : Request) (hashed : String) (row : UserRow)
    (hvalid : (IsUserFormValid ⟨0, FormValue r "email", FormValue r "password",
      FormValue r "full_name", FormValue r "address", FormValue r "phone_number",
      FormValue r "role"⟩ "register").1 = true)
    (hhash : HashPassword E.bcrypt salt (FormValue r "password") = (hashed, none))
    (hbegin : conn.beginErr = none) (hquery : conn.queryErr = none)
    (hrow : userRowOf ((db.account_user_id_seq + 1 : Nat) : Int) (FormValue r "email") hashed
      (FormValue r "full_name") (FormValue r "address") (FormValue r "phone_number")
      (FormValue r "role") = Except.ok row)
    (hdup : ∃ r1 ∈ db.account_user, r1.email = row.email)
    (hfresh : ∀ r1 ∈ db.account_user, r1.id ≠ ((db.account_user_id_seq + 1 : Nat) : Int)) :
    (RegisterHandler E salt conn db r).2 =
      ⟨400, messageBody "Email already registered, please use another email"⟩ ∧
    (RegisterHandler E salt conn db r).1.account_user = db.account_user ∧
    (RegisterHandler E salt conn db r).1.account_usersession = db.account_usersession := by
  have hins := insertUser_duplicate_email db (FormValue r "email") hashed
    (FormValue r "full_name") (FormValue r "address") (FormValue r "phone_number")
    (FormValue r "role") row hrow hfresh hdup
  have hcu : CreateUser E.bcrypt salt conn db ⟨0, FormValue r "email", FormValue r "password",
      FormValue r "full_name", FormValue r "address", FormValue r "phone_number",
      FormValue r "role"⟩ =
      (rollback db (db.insertUser (FormValue r "email") hashed (FormValue r "full_name")
        (FormValue r "address") (FormValue r "phone_number") (FormValue r "role")).1,
       ⟨0, FormValue r "email", FormValue r "password", FormValue r "full_name",
         FormValue r "address", FormValue r "phone_number", FormValue r "role"⟩,
       some (uniqueViolation "account_user_email_key")) := by
    unfold CreateUser
    dsimp only
    rw [hhash]
    dsimp only
    rw [hbegin]
    dsimp only
    rw [hquery]
    dsimp only
    cases hi : db.insertUser (FormValue r "email") hashed (FormValue r "full_name")
        (FormValue r "address") (FormValue r "phone_number") (FormValue r "role") with
    | mk db1 res =>
      rw [hi] at hins
      dsimp only at hins
      subst hins
      rfl
  unfold RegisterHandler
  dsimp only
  cases hv : IsUserFormValid ⟨0, FormValue r "email", FormValue r "password",
      FormValue r "full_name", FormValue r "address", FormValue r "phone_number",
      FormValue r "role"⟩ "register" with
  | mk ok reason =>
    rw [hv] at hvalid
    dsimp only at hvalid
    subst hvalid
    dsimp only
    rw [hcu]
    dsimp only
    rw [if_pos Contains_duplicate_email]
    exact ⟨rfl, rfl, rfl⟩

end Ecom

namespace Ecom

/-- C19 (counterexample): the registered user of the demo database registers
again with a full name of 51 letters; the form is valid and its email is
stored, but the insert is refused for the length of the name before the email
is compared, and the answer is 500. -/
theorem RegisterHandler_duplicate_email_counterexample :
    (IsUserFormValid ⟨0, "a@b.c", "x", String.mk (List.replicate 51 'A'), "A", "0", "user"⟩
      "register").1 = true ∧
    (Demo.registeredDB.account_user.any (fun row => row.email = "a@b.c")) = true ∧
    (RegisterHandler Demo.env "salt" Conn.healthy Demo.registeredDB
      [("email", "a@b.c"), ("password", "x"),
       ("full_name", String.mk (List.replicate 51 'A')), ("address", "A"),
       ("phone_number", "0"), ("role", "user")]).2.status = 500 := by
  decide

/-- C19 (amended): for a valid register form whose email is stored already,
when hashing the password succeeds with a digest of at most 100 characters and
the connection begins the transaction and runs the statement, `RegisterHandler`
answers 400 "Email already registered, please use another email" and leaves
both tables as they were, provided the other values fit their columns and the
id drawn from the sequence is not in use; this is the case for a form whose
registration just succeeded on a database whose ids do not exceed the last
value of the sequence. -/
theorem RegisterHandler_duplicate_email (E : Env) (salt : String) (conn : Conn) (db : DB)
    (r : Request) (hashed : String)
    (hhash : HashPassword E.bcrypt salt (FormValue r "password") = (hashed, none))
    (hlen : hashed.length ≤ 100)
    (hbegin : conn.beginErr = none) (hquery : conn.queryErr = none) :
    ((IsUserFormValid ⟨0, FormValue r "email", FormValue r "password",
        FormValue r "full_name", FormValue r "address", FormValue r "phone_number",
        FormValue r "role"⟩ "register").1 = true →
      (∃ row ∈ db.account_user, row.email = FormValue r "email") →
      ((FormValue r "email").length ≤ 50 ∧ (FormValue r "full_name").length ≤ 50 ∧
        (FormValue r "address").length ≤ 100 ∧ (FormValue r "phone_number").length ≤ 20 ∧
        (FormValue r "role").length ≤ 20) →
      (∀ row ∈ db.account_user, row.id ≠ ((db.account_user_id_seq + 1 : Nat) : Int)) →
      (RegisterHandler E salt conn db r).2 =
        ⟨400, messageBody "Email already registered, please use another email"⟩ ∧
      (RegisterHandler E salt conn db r).1.account_user = db.account_user ∧
      (RegisterHandler E salt conn db r).1.account_usersession = db.account_usersession) ∧
    (∀ (salt0 : String) (conn0 : Conn) (db0 : DB),
      (∀ row ∈ db0.account_user, row.id ≤ (db0.account_user_id_seq : Int)) →
      (RegisterHandler E salt0 conn0 db0 r).2.status = 200 →
      db = (RegisterHandler E salt0 conn0 db0 r).1 →
      (RegisterHandler E salt conn db r).2 =
        ⟨400, messageBody "Email already registered, please use another email"⟩ ∧
      (RegisterHandler E salt conn db r).1.account_user = db.account_user ∧
      (RegisterHandler E salt conn db r).1.account_usersession = db.account_usersession) := by
  constructor
  · intro hvalid hdup hfit hfresh
    exact RegisterHandler_duplicate E salt conn db r hashed _ hvalid hhash hbegin hquery
      (userRowOf_of_fit _ _ _ _ _ _ _ ⟨hfit.1, hlen, hfit.2⟩) hdup hfresh
  · intro salt0 conn0 db0 hids hok hdb
    obtain ⟨hvalid, hcreated, hdb1⟩ := RegisterHandler_ok E salt0 conn0 db0 r hok
    obtain ⟨hashed0, row0, -, hrow0, husers, hseq⟩ :=
      CreateUser_ok E.bcrypt salt0 conn0 db0 _ hcreated
    rw [← hdb1, ← hdb] at husers hseq
    dsimp only at hrow0 husers
    obtain ⟨-, h1, -, h3, h4, h5, h6⟩ := (userRowOf_eq_ok _ _ _ _ _ _ _ _).mp hrow0
    have hrow : userRowOf ((db.account_user_id_seq + 1 : Nat) : Int) (FormValue r "email") hashed
        (FormValue r "full_name") (FormValue r "address") (FormValue r "phone_number")
        (FormValue r "role") =
        Except.ok ⟨((db.account_user_id_seq + 1 : Nat) : Int), row0.email, hashed,
          row0.full_name, row0.address, row0.phone_number, row0.role⟩ :=
      (userRowOf_eq_ok _ _ _ _ _ _ _ _).mpr
        ⟨rfl, h1, varchar_of_length_le _ _ hlen, h3, h4, h5, h6⟩
    refine RegisterHandler_duplicate E salt conn db r hashed _ hvalid hhash hbegin hquery
      hrow ?_ ?_
    · rw [husers]
      exact ⟨_, List.mem_append_right _ (List.mem_singleton_self _), rfl⟩
    · intro row hrowm
      rw [husers] at hrowm
      rw [hseq]
      rcases List.mem_append.mp hrowm with hmem | hmem
      · have := hids row hmem
        push_cast
        omega
      · rw [List.mem_singleton] at hmem
        rw [hmem, ((userRowOf_eq_ok _ _ _ _ _ _ _ _).mp hrow0).1]
        push_cast
        omega

/-- Witness for C19 (amended): the register form of the demo database,
accepted on the empty database, repeated verbatim. -/
theorem RegisterHandler_duplicate_email_witness :
    (RegisterHandler Demo.env "salt" Conn.healthy Demo.registeredDB Demo.registerRequest).2 =
      ⟨400, messageBody "Email already registered, please use another email"⟩ ∧
    (RegisterHandler Demo.env "salt" Conn.healthy Demo.registeredDB
      Demo.registerRequest).1.account_user = Demo.registeredDB.account_user ∧
    (RegisterHandler Demo.env "salt" Conn.healthy Demo.registeredDB
      Demo.registerRequest).1.account_usersession = Demo.registeredDB.account_usersession :=
  (RegisterHandler_duplicate_email Demo.env "salt" Conn.healthy Demo.registeredDB
    Demo.registerRequest (HashPassword Demo.bcrypt "salt" "x").1 rfl (by decide) rfl rfl).2
    "salt" Conn.healthy Demo.emptyDB (by decide) (by decide) rfl

end Ecom

namespace Ecom

/-- C21: for a token that is not blank after trimming, `LogoutHandler` runs
`DeleteUserSession` on the token as given, with no reading of the token by the
JWT library: when the connection works the session table becomes the rows
whose token differs from it, in their order, the user table is untouched and
the answer is 200; when the storage operation fails the database is as before;
a blank token is answered 400 "Token empty/not found" with the database as
before. -/
theorem LogoutHandler_deletes_by_token (conn : Conn) (db : DB) (r : Request) :
    (TrimSpace (FormValue r "token") ≠ "" →
      conn.beginErr = none → conn.execErr = none → conn.commitErr = none →
      LogoutHandler conn db r =
        ({ db with account_usersession :=
            db.account_usersession.filter (fun s => s.token ≠ FormValue r "token") },
         ⟨200, messageBody "User logged out"⟩)) ∧
    (TrimSpace (FormValue r "token") ≠ "" →
      (DeleteUserSession conn db (FormValue r "token")).2 ≠ none →
      (LogoutHandler conn db r).1 = db ∧ (LogoutHandler conn db r).2.status = 500) ∧
    (TrimSpace (FormValue r "token") = "" →
      LogoutHandler conn db r = (db, ⟨400, messageBody "Token empty/not found"⟩)) := by
  refine ⟨?_, ?_, ?_⟩
  · intro hb h1 h2 h3
    simp [LogoutHandler, hb, DeleteUserSession, h1, h2, h3, DB.deleteSessionsWithToken]
  · intro hb he
    rcases DeleteUserSession_spec conn db (FormValue r "token") with ⟨-, hdb⟩ | ⟨hnone, -, -⟩
    · unfold LogoutHandler
      dsimp only
      rw [if_pos hb]
      cases hd : DeleteUserSession conn db (FormValue r "token") with
      | mk db1 e =>
        rw [hd] at he hdb
        cases e with
        | none => exact absurd rfl he
        | some e => exact ⟨hdb, rfl⟩
    · exact absurd hnone he
  · intro hb
    simp [LogoutHandler, hb]

/-- Witness for C21: user 1 and user 2 hold sessions; a logout with the token
of user 1, which is no JWT at all, removes that row only. -/
theorem LogoutHandler_deletes_by_token_witness :
    LogoutHandler Conn.healthy
        ⟨[⟨1, "a@b.c", "h", "A", "A", "0", "user"⟩, ⟨2, "d@e.f", "h", "D", "D", "0", "user"⟩],
         [⟨1, "This is token", 1⟩, ⟨2, "other token", 2⟩], 2, 2⟩
        [("token", "This is token")] =
      (⟨[⟨1, "a@b.c", "h", "A", "A", "0", "user"⟩, ⟨2, "d@e.f", "h", "D", "D", "0", "user"⟩],
         [⟨2, "other token", 2⟩], 2, 2⟩,
       ⟨200, messageBody "User logged out"⟩) :=
  (LogoutHandler_deletes_by_token Conn.healthy
    ⟨[⟨1, "a@b.c", "h", "A", "A", "0", "user"⟩, ⟨2, "d@e.f", "h", "D", "D", "0", "user"⟩],
     [⟨1, "This is token", 1⟩, ⟨2, "other token", 2⟩], 2, 2⟩
    [("token", "This is token")]).1 (by decide) rfl rfl rfl

/-- C22: in `GetUserHandler`, when the id parameter is not blank after
trimming the answer depends on the request through the id only (the email
parameter plays no part) and is 400 when `strconv.Atoi` refuses the id; when
the id is blank and the email is not, the answer is that of the lookup by
email; when both are blank it is 400 "email empty/not found". -/
theorem GetUserHandler_dispatch (conn : Conn) (db : DB) (r : Request) :
    (TrimSpace (FormValue r "id") ≠ "" →
      (∀ r2 : Request, FormValue r2 "id" = FormValue r "id" →
        GetUserHandler conn db r2 = GetUserHandler conn db r) ∧
      ((Atoi (FormValue r "id")).2 ≠ none → (GetUserHandler conn db r).status = 400) ∧
      ((Atoi (FormValue r "id")).2 = none →
        GetUserHandler conn db r =
          match GetUser conn db "" (Atoi (FormValue r "id")).1 with
          | (user, none) => ⟨200, Body.data { user with Password := "" }⟩
          | (_, some e) => ⟨500, messageBody e⟩)) ∧
    (TrimSpace (FormValue r "id") = "" → TrimSpace (FormValue r "email") ≠ "" →
      GetUserHandler conn db r =
        match GetUser conn db (FormValue r "email") 0 with
        | (user, none) => ⟨200, Body.data { user with Password := "" }⟩
        | (_, some e) => ⟨500, messageBody e⟩) ∧
    (TrimSpace (FormValue r "id") = "" → TrimSpace (FormValue r "email") = "" →
      GetUserHandler conn db r = ⟨400, messageBody "email empty/not found"⟩) := by
  refine ⟨?_, ?_, ?_⟩
  · intro hb
    refine ⟨?_, ?_, ?_⟩
    · intro r2 h2
      unfold GetUserHandler
      dsimp only
      rw [h2, if_pos hb, if_pos hb]
    · intro he
      unfold GetUserHandler
      dsimp only
      rw [if_pos hb]
      cases ha : Atoi (FormValue r "id") with
      | mk ID e =>
        rw [ha] at he
        cases e with
        | none => exact absurd rfl he
        | some e => rfl
    · intro he
      unfold GetUserHandler
      dsimp only
      rw [if_pos hb]
      cases ha : Atoi (FormValue r "id") with
      | mk ID e =>
        rw [ha] at he
        dsimp only at he
        subst he
        rfl
  · intro hb he
    unfold GetUserHandler
    dsimp only
    rw [if_neg (by simpa using hb), if_pos he]
  · intro hb he
    simp [GetUserHandler, hb, he]

/-- Witness for C22: an id that is no integer is answered 400 whatever the
email, and a request with only an email is looked up by email. -/
theorem GetUserHandler_dispatch_witness :
    (GetUserHandler Conn.healthy Demo.registeredDB [("id", "abc"), ("email", "a@b.c")]).status
      = 400 ∧
    GetUserHandler Conn.healthy Demo.registeredDB [("email", "a@b.c")] =
      ⟨200, Body.data ⟨1, "a@b.c", "", "A", "A", "0", "user"⟩⟩ :=
  ⟨((GetUserHandler_dispatch Conn.healthy Demo.registeredDB
      [("id", "abc"), ("email", "a@b.c")]).1 (by decide)).2.1 (by decide),
   ((GetUserHandler_dispatch Conn.healthy Demo.registeredDB [("email", "a@b.c")]).2.1
      (by decide) (by decide)).trans (by decide)⟩

end Ecom

namespace Ecom

theorem GetUser_ok_row (conn : Conn) (db : DB) (email : String) (ID : Int) (u : User)
    (h : GetUser conn db email ID = (u, none)) :
    ∃ row : UserRow, row ∈ db.account_user ∧ u = row.toUser ∧
      (if ID = 0 then db.account_user.find? (fun r => r.email = email)
        else db.account_user.find? (fun r => r.id = ID)) = some row := by
  unfold GetUser at h
  cases hq : conn.queryErr with
  | some e => rw [hq] at h; simp at h
  | none =>
    rw [hq] at h
    dsimp only at h
    cases hf : (if ID = 0 then db.account_user.find? (fun r => r.email = email)
        else db.account_user.find? (fun r => r.id = ID)) with
    | none => rw [hf] at h; simp at h
    | some row =>
      rw [hf] at h
      simp at h
      refine ⟨row, ?_, h.symm, rfl⟩
      split_ifs at hf
      · exact List.mem_of_find?_eq_some hf
      · exact List.mem_of_find?_eq_some hf

/-- What a 200 response of `AuthorizeHandler` is. -/
theorem AuthorizeHandler_ok (E : Env) (now : Int) (c1 c2 : Conn) (db : DB) (r : Request)
    (h : (AuthorizeHandler E now c1 c2 db r).status = 200) :
    ∃ (m : List (String × String)) (user : User),
      ValidateJWT E.jwt E.config now (FormValue r "token") = some m ∧
      GetUser c1 db (mapGet m "email") 0 = (user, none) ∧
      AuthorizeHandler E now c1 c2 db r = ⟨200, Body.data { user with Password := "" }⟩ := by
  unfold AuthorizeHandler at h ⊢
  dsimp only at h ⊢
  split_ifs at h ⊢ with hb
  · cases hv : ValidateJWT E.jwt E.config now (FormValue r "token") with
    | none => rw [hv] at h; simp at h
    | some m =>
      rw [hv] at h
      dsimp only at h ⊢
      cases hg : GetUser c1 db (mapGet m "email") 0 with
      | mk user e =>
        rw [hg] at h
        cases e with
        | some e => simp at h
        | none =>
          dsimp only at h ⊢
          cases hs : GetUserSession c2 db (FormValue r "token") user.ID with
          | mk us e =>
            rw [hs] at h
            cases e with
            | some e => simp at h
            | none =>
              dsimp only at h ⊢
              split_ifs at h ⊢
              · exact ⟨m, user, rfl, hg, rfl⟩
              · simp at h
  · simp at h

/-- What a 200 response of `GetUserHandler` is. -/
theorem GetUserHandler_ok (conn : Conn) (db : DB) (r : Request)
    (h : (GetUserHandler conn db r).status = 200) :
    ∃ (email : String) (ID : Int) (user : User),
      GetUser conn db email ID = (user, none) ∧
      GetUserHandler conn db r = ⟨200, Body.data { user with Password := "" }⟩ := by
  unfold GetUserHandler at h ⊢
  dsimp only at h ⊢
  split_ifs at h ⊢ with hb he
  · cases ha : Atoi (FormValue r "id") with
    | mk ID e =>
      rw [ha] at h
      cases e with
      | some e => simp at h
      | none =>
        dsimp only at h ⊢
        cases hg : GetUser conn db "" ID with
        | mk user e =>
          rw [hg] at h
          cases e with
          | some e => simp at h
          | none => exact ⟨"", ID, user, hg, rfl⟩
  · cases hg : GetUser conn db (FormValue r "email") 0 with
    | mk user e =>
      rw [hg] at h
      cases e with
      | some e => simp at h
      | none => exact ⟨_, 0, user, hg, rfl⟩
  · simp at h

/-- C23: a 200 answer of `AuthorizeHandler` or of `GetUserHandler` carries a
user record equal to a stored user row in id, email, full_name, address,
phone_number and role, with the empty string as password. -/
theorem ok_response_is_stored_user (E : Env) (now : Int) (c1 c2 conn : Conn) (db : DB)
    (r : Request) :
    ((AuthorizeHandler E now c1 c2 db r).status = 200 →
      ∃ row : UserRow, row ∈ db.account_user ∧
        AuthorizeHandler E now c1 c2 db r = ⟨200, Body.data
          ⟨row.id, row.email, "", row.full_name, row.address, row.phone_number, row.role⟩⟩) ∧
    ((GetUserHandler conn db r).status = 200 →
      ∃ row : UserRow, row ∈ db.account_user ∧
        GetUserHandler conn db r = ⟨200, Body.data
          ⟨row.id, row.email, "", row.full_name, row.address, row.phone_number, row.role⟩⟩) := by
  constructor
  · intro h
    obtain ⟨m, user, -, hg, hr⟩ := AuthorizeHandler_ok E now c1 c2 db r h
    obtain ⟨row, hmem, hu, -⟩ := GetUser_ok_row c1 db _ 0 user hg
    refine ⟨row, hmem, ?_⟩
    rw [hr, hu]
    rfl
  · intro h
    obtain ⟨email, ID, user, hg, hr⟩ := GetUserHandler_ok conn db r h
    obtain ⟨row, hmem, hu, -⟩ := GetUser_ok_row conn db email ID user hg
    refine ⟨row, hmem, ?_⟩
    rw [hr, hu]
    rfl

/-- Witness for C23: the lookup by id 1 on the demo database. -/
theorem ok_response_is_stored_user_witness :
    ∃ row : UserRow, row ∈ Demo.registeredDB.account_user ∧
      GetUserHandler Conn.healthy Demo.registeredDB [("id", "1")] = ⟨200, Body.data
        ⟨row.id, row.email, "", row.full_name, row.address, row.phone_number, row.role⟩⟩ :=
  (ok_response_is_stored_user Demo.env 0 Conn.healthy Conn.healthy Conn.healthy
    Demo.registeredDB [("id", "1")]).2 (by decide)

end Ecom

namespace Ecom

/-- Every way `CreateUser` can end. -/
theorem CreateUser_cases (B : Bcrypt) (salt : String) (conn : Conn) (db : DB) (u : User) :
    (∃ e : String, (HashPassword B salt u.Password).2 = some e ∧
      CreateUser B salt conn db u = (db, u, some e)) ∨
    ∃ h : String, HashPassword B salt u.Password = (h, none) ∧
      ((∃ e : String, (conn.beginErr = some e ∨ (conn.beginErr = none ∧ conn.queryErr = some e)) ∧
          CreateUser B salt conn db u = (db, u, some e)) ∨
       (∃ e : String, conn.beginErr = none ∧ conn.queryErr = none ∧
          (db.insertUser u.Email h u.FullName u.Address u.PhoneNumber u.Role).2 =
            Except.error e ∧
          CreateUser B salt conn db u =
            (rollback db (db.insertUser u.Email h u.FullName u.Address u.PhoneNumber u.Role).1,
              u, some e)) ∨
       (∃ id : Int, conn.beginErr = none ∧ conn.queryErr = none ∧
          (db.insertUser u.Email h u.FullName u.Address u.PhoneNumber u.Role).2 =
            Except.ok id ∧
          ((∃ e : String, conn.commitErr = some e ∧
              CreateUser B salt conn db u =
                (rollback db
                  (db.insertUser u.Email h u.FullName u.Address u.PhoneNumber u.Role).1,
                 { u with ID := id }, some e)) ∨
           (conn.commitErr = none ∧
              CreateUser B salt conn db u =
                ((db.insertUser u.Email h u.FullName u.Address u.PhoneNumber u.Role).1,
                 { u with ID := id }, none))))) := by
  unfold CreateUser
  cases hh : HashPassword B salt u.Password with
  | mk hashed e =>
    cases e with
    | some e => left; exact ⟨e, rfl, rfl⟩
    | none =>
      right
      refine ⟨hashed, rfl, ?_⟩
      dsimp only
      cases hb : conn.beginErr with
      | some e => left; exact ⟨e, Or.inl rfl, rfl⟩
      | none =>
        dsimp only
        cases hq : conn.queryErr with
        | some e => left; exact ⟨e, Or.inr ⟨rfl, rfl⟩, rfl⟩
        | none =>
          dsimp only
          cases hi : db.insertUser u.Email hashed u.FullName u.Address u.PhoneNumber u.Role with
          | mk db1 res =>
            cases res with
            | error e => right; left; exact ⟨e, rfl, rfl, rfl, rfl⟩
            | ok id =>
              right; right
              refine ⟨id, rfl, rfl, rfl, ?_⟩
              dsimp only
              cases hc : conn.commitErr with
              | some e => left; exact ⟨e, rfl, rfl⟩
              | none => right; exact ⟨rfl, rfl⟩

/-- C24: the password `CreateUser` writes to the user table is the digest
`HashPassword` returned for `u.Password`: when it returns without error the
database is the one the insert statement with that digest left, the table is
the old one followed by one row, made of the returned id, the digest and the
other values of `u` as their columns store them; the password of that row is
the digest as the `VARCHAR(100)` column stores it, which is the digest itself
when it has at most 100 characters (a bcrypt digest has 60); when all values
fit their columns the row is the id and the values of `u` with the digest for
password. In every other outcome the table is as before; when `HashPassword`
fails, `CreateUser` returns that error and the database as it was. -/
theorem CreateUser_stores_digest (B : Bcrypt) (salt : String) (conn : Conn) (db : DB)
    (u : User) :
    (∀ h : String, HashPassword B salt u.Password = (h, none) →
      ((CreateUser B salt conn db u).2.2 = none →
        (CreateUser B salt conn db u).1 =
          (db.insertUser u.Email h u.FullName u.Address u.PhoneNumber u.Role).1 ∧
        ∃ row : UserRow,
          (CreateUser B salt conn db u).1.account_user = db.account_user ++ [row] ∧
          row.id = (CreateUser B salt conn db u).2.1.ID ∧
          userRowOf (CreateUser B salt conn db u).2.1.ID u.Email h u.FullName u.Address
            u.PhoneNumber u.Role = Except.ok row ∧
          varchar 100 h = Except.ok row.password ∧
          (h.length ≤ 100 → row.password = h) ∧
          (u.Email.length ≤ 50 ∧ h.length ≤ 100 ∧ u.FullName.length ≤ 50 ∧
            u.Address.length ≤ 100 ∧ u.PhoneNumber.length ≤ 20 ∧ u.Role.length ≤ 20 →
            row = ⟨(CreateUser B salt conn db u).2.1.ID, u.Email, h, u.FullName, u.Address,
              u.PhoneNumber, u.Role⟩)) ∧
      ((CreateUser B salt conn db u).2.2 ≠ none →
        (CreateUser B salt conn db u).1.account_user = db.account_user)) ∧
    (∀ e : String, (HashPassword B salt u.Password).2 = some e →
      CreateUser B salt conn db u = (db, u, some e)) := by
  constructor
  · intro h hh
    rcases CreateUser_cases B salt conn db u with ⟨e, he, -⟩ | ⟨h2, hh2, hc⟩
    · rw [hh] at he; simp at he
    · rw [hh] at hh2
      have heq : h = h2 := (Prod.mk.inj hh2).1
      subst heq
      rcases hc with ⟨e, -, hc⟩ | ⟨e, -, -, -, hc⟩ | ⟨id, -, -, hi, ⟨e, -, hc⟩ | ⟨-, hc⟩⟩
      · rw [hc]; exact ⟨fun hn => by simp at hn, fun _ => rfl⟩
      · rw [hc]; exact ⟨fun hn => by simp at hn, fun _ => rfl⟩
      · rw [hc]; exact ⟨fun hn => by simp at hn, fun _ => rfl⟩
      · rw [hc]
        refine ⟨fun _ => ⟨rfl, ?_⟩, fun hn => absurd rfl hn⟩
        obtain ⟨-, row, hrow, husers, -, -, -⟩ := insertUser_ok db u.Email h u.FullName
          u.Address u.PhoneNumber u.Role id hi
        have hv := (userRowOf_eq_ok _ _ _ _ _ _ _ _).mp hrow
        refine ⟨row, husers, hv.1, hrow, hv.2.2.1, ?_, ?_⟩
        · intro hlen
          exact (varchar_eq_ok 100 h row.password hv.2.2.1).2.2.1 hlen
        · intro hfit
          have := userRowOf_of_fit id u.Email h u.FullName u.Address u.PhoneNumber u.Role hfit
          rw [hrow] at this
          exact Except.ok.inj this
  · intro e he
    rcases CreateUser_cases B salt conn db u with ⟨e2, he2, hc⟩ | ⟨h2, hh2, -⟩
    · rw [he] at he2
      have : e = e2 := Option.some.inj he2
      subst this
      exact hc
    · rw [hh2] at he; simp at he

/-- Witness for C24: the row stored for the demo registration carries the
digest of "x", which is not "x". -/
theorem CreateUser_stores_digest_witness :
    (∃ row : UserRow,
      (CreateUser Demo.bcrypt "salt" Conn.healthy Demo.emptyDB
        ⟨0, "a@b.c", "x", "A", "A", "0", "user"⟩).1.account_user = [] ++ [row] ∧
      row.password = (HashPassword Demo.bcrypt "salt" "x").1) ∧
    (HashPassword Demo.bcrypt "salt" "x").1 ≠ "x" := by
  obtain ⟨-, row, h1, -, -, -, h2, -⟩ :=
    ((CreateUser_stores_digest Demo.bcrypt "salt" Conn.healthy Demo.emptyDB
      ⟨0, "a@b.c", "x", "A", "A", "0", "user"⟩).1 (HashPassword Demo.bcrypt "salt" "x").1
      rfl).1 (by decide)
  exact ⟨⟨row, h1, h2 (by decide)⟩, by decide⟩

end Ecom

namespace Ecom

/-- C30 (counterexample): on the empty database a `CreateUser` whose commit
fails returns an error, leaves the user table empty, and returns the record
with ID 1, not the 0 it was given. -/
theorem CreateUser_commit_failure_sets_id :
    (CreateUser Demo.bcrypt "salt" ⟨none, none, none, some "driver: bad connection"⟩
      Demo.emptyDB ⟨0, "a@b.c", "x", "A", "A", "0", "user"⟩).2.2 =
        some "driver: bad connection" ∧
    (CreateUser Demo.bcrypt "salt" ⟨none, none, none, some "driver: bad connection"⟩
      Demo.emptyDB ⟨0, "a@b.c", "x", "A", "A", "0", "user"⟩).1.account_user = [] ∧
    (CreateUser Demo.bcrypt "salt" ⟨none, none, none, some "driver: bad connection"⟩
      Demo.emptyDB ⟨0, "a@b.c", "x", "A", "A", "0", "user"⟩).2.1.ID = 1 := by
  decide

/-- C30 (amended): the record `CreateUser` returns equals `u` in every field
except ID, so its Password is the plaintext it was given. Whenever hashing
succeeded, the transaction began, the statement ran and the insert returned an
id, the returned ID is that id, the next value of the sequence and not zero,
whether the commit then succeeds or fails, and the error returned is the one
of the commit. In every other outcome (hashing, begin, query or insert failed)
the record is returned as given, with an error. On success the stored row
carries the returned ID and the digest as its column stores it. -/
theorem CreateUser_returned_record (B : Bcrypt) (salt : String) (conn : Conn) (db : DB)
    (u : User) :
    (CreateUser B salt conn db u).2.1 = { u with ID := (CreateUser B salt conn db u).2.1.ID } ∧
    (CreateUser B salt conn db u).2.1.Password = u.Password ∧
    (∀ (h : String) (id : Int), HashPassword B salt u.Password = (h, none) →
      conn.beginErr = none → conn.queryErr = none →
      (db.insertUser u.Email h u.FullName u.Address u.PhoneNumber u.Role).2 = Except.ok id →
      (CreateUser B salt conn db u).2.1.ID = id ∧
      id = ((db.account_user_id_seq + 1 : Nat) : Int) ∧ id ≠ 0 ∧
      (CreateUser B salt conn db u).2.2 = conn.commitErr) ∧
    (((HashPassword B salt u.Password).2 ≠ none ∨ conn.beginErr ≠ none ∨ conn.queryErr ≠ none ∨
        ∃ e : String, (db.insertUser u.Email (HashPassword B salt u.Password).1 u.FullName
          u.Address u.PhoneNumber u.Role).2 = Except.error e) →
      (CreateUser B salt conn db u).2.1 = u ∧ (CreateUser B salt conn db u).2.2 ≠ none) ∧
    ((CreateUser B salt conn db u).2.2 = none →
      ∃ row : UserRow,
        (CreateUser B salt conn db u).1.account_user = db.account_user ++ [row] ∧
        row.id = (CreateUser B salt conn db u).2.1.ID ∧
        varchar 100 (HashPassword B salt u.Password).1 = Except.ok row.password) := by
  rcases CreateUser_cases B salt conn db u with ⟨e, he, hc⟩ | ⟨h, hh, hc⟩
  · rw [hc]
    refine ⟨rfl, rfl, ?_, fun _ => ⟨rfl, by simp⟩, fun hn => by simp at hn⟩
    intro h id hh
    rw [hh] at he
    simp at he
  · rcases hc with ⟨e, hce, hc⟩ | ⟨e, hb, hq, hie, hc⟩ |
      ⟨id, hb, hq, hi, ⟨e, hce, hc⟩ | ⟨hce, hc⟩⟩
    · rw [hc]
      refine ⟨rfl, rfl, ?_, fun _ => ⟨rfl, by simp⟩, fun hn => by simp at hn⟩
      intro h2 id2 _ hb2 hq2
      rcases hce with hce | ⟨-, hce⟩
      · rw [hb2] at hce; simp at hce
      · rw [hq2] at hce; simp at hce
    · rw [hc]
      refine ⟨rfl, rfl, ?_, fun _ => ⟨rfl, by simp⟩, fun hn => by simp at hn⟩
      intro h2 id2 hh2 _ _ hi2
      rw [hh] at hh2
      have heq : h = h2 := (Prod.mk.inj hh2).1
      subst heq
      rw [hie] at hi2
      simp at hi2
    · have hid := (insertUser_ok db u.Email h u.FullName u.Address u.PhoneNumber
        u.Role id hi).1
      rw [hc]
      refine ⟨rfl, rfl, ?_, ?_, fun hn => by simp at hn⟩
      · intro h2 id2 hh2 _ _ hi2
        rw [hh] at hh2
        have heq : h = h2 := (Prod.mk.inj hh2).1
        subst heq
        rw [hi] at hi2
        have hid2 : id = id2 := Except.ok.inj hi2
        subst hid2
        refine ⟨rfl, hid, ?_, hce.symm⟩
        rw [hid]; omega
      · intro hfail
        exfalso
        rw [hh] at hfail
        rcases hfail with hf | hf | hf | ⟨e2, hf⟩
        · exact hf rfl
        · exact hf hb
        · exact hf hq
        · dsimp only at hf
          rw [hi] at hf
          simp at hf
    · obtain ⟨hid, row, hrow, husers, -, -, -⟩ := insertUser_ok db u.Email h u.FullName
        u.Address u.PhoneNumber u.Role id hi
      have hv := (userRowOf_eq_ok _ _ _ _ _ _ _ _).mp hrow
      rw [hc, hh]
      refine ⟨rfl, rfl, ?_, ?_, fun _ => ⟨row, husers, hv.1, hv.2.2.1⟩⟩
      · intro h2 id2 hh2 _ _ hi2
        have heq : h = h2 := (Prod.mk.inj hh2).1
        subst heq
        rw [hi] at hi2
        have hid2 : id = id2 := Except.ok.inj hi2
        subst hid2
        refine ⟨rfl, hid, ?_, hce.symm⟩
        rw [hid]; omega
      · intro hfail
        exfalso
        rcases hfail with hf | hf | hf | ⟨e2, hf⟩
        · exact hf rfl
        · exact hf hb
        · exact hf hq
        · dsimp only at hf
          rw [hi] at hf
          simp at hf

/-- Witness for C30 (amended): on the demo database, where user 1 is stored, a
`CreateUser` for another email whose commit fails returns the record with ID 2
and the error of the commit. -/
theorem CreateUser_returned_record_witness :
    (CreateUser Demo.bcrypt "salt" ⟨none, none, none, some "driver: bad connection"⟩
      Demo.registeredDB ⟨0, "d@e.f", "y", "D", "D", "1", "admin"⟩).2.1.ID = 2 ∧
    (CreateUser Demo.bcrypt "salt" ⟨none, none, none, some "driver: bad connection"⟩
      Demo.registeredDB ⟨0, "d@e.f", "y", "D", "D", "1", "admin"⟩).2.2 =
        some "driver: bad connection" :=
  have h := (CreateUser_returned_record Demo.bcrypt "salt"
    ⟨none, none, none, some "driver: bad connection"⟩ Demo.registeredDB
    ⟨0, "d@e.f", "y", "D", "D", "1", "admin"⟩).2.2.1 (HashPassword Demo.bcrypt "salt" "y").1 2
    rfl rfl rfl rfl
  ⟨h.1, h.2.2.2⟩

end Ecom

namespace Ecom

theorem find?_append_new (l : List UserRow) (new : UserRow) (p : UserRow → Bool)
    (hp : p new = true) (hl : ∀ row ∈ l, p row = false) :
    (l ++ [new]).find? p = some new := by
  rw [List.find?_append]
  have h0 : l.find? p = none := by
    rw [List.find?_eq_none]
    intro row hrow
    simp [hl row hrow]
  rw [h0]
  simp [List.find?, hp]

theorem insertUser_succeeds (db : DB)
    (email password full_name address phone_number role : String) (row : UserRow)
    (hrow : userRowOf ((db.account_user_id_seq + 1 : Nat) : Int) email password full_name
      address phone_number role = Except.ok row)
    (hfresh : ∀ r ∈ db.account_user, r.id ≠ ((db.account_user_id_seq + 1 : Nat) : Int))
    (hnew : ∀ r ∈ db.account_user, r.email ≠ row.email) :
    (db.insertUser email password full_name address phone_number role).2 =
      Except.ok ((db.account_user_id_seq + 1 : Nat) : Int) := by
  have hid : db.account_user.any (fun r => r.id = ((db.account_user_id_seq + 1 : Nat) : Int))
      = false := by
    rw [List.any_eq_false]
    intro r hr
    simpa using hfresh r hr
  have hem : db.account_user.any (fun r => r.email = row.email) = false := by
    rw [List.any_eq_false]
    intro r hr
    simpa using hnew r hr
  unfold DB.insertUser
  dsimp only
  rw [hrow]
  dsimp only
  rw [hid, hem]
  simp

/-- C26 (counterexample): on the empty database, where no email is stored,
`CreateUser` for a record whose email has 51 letters returns an error; and for
a record whose email is "a@b.c" followed by 46 spaces it returns without
error, after which `GetUser` with that email and ID 0 returns the error
`sql.ErrNoRows`. -/
theorem CreateUser_long_email_fails :
    (∀ row ∈ Demo.emptyDB.account_user, row.email ≠ String.mk (List.replicate 51 'a')) ∧
    (CreateUser Demo.bcrypt "salt" Conn.healthy Demo.emptyDB
      ⟨0, String.mk (List.replicate 51 'a'), "x", "A", "A", "0", "user"⟩).2.2 ≠ none ∧
    (CreateUser Demo.bcrypt "salt" Conn.healthy Demo.emptyDB
      ⟨0, String.mk ("a@b.c".data ++ List.replicate 46 ' '), "x", "A", "A", "0",
        "user"⟩).2.2 = none ∧
    (GetUser Conn.healthy
      (CreateUser Demo.bcrypt "salt" Conn.healthy Demo.emptyDB
        ⟨0, String.mk ("a@b.c".data ++ List.replicate 46 ' '), "x", "A", "A", "0",
          "user"⟩).1
      (String.mk ("a@b.c".data ++ List.replicate 46 ' ')) 0).2 = some ErrNoRows := by
  decide

/-- C26 (amended): when `CreateUser` returns without error, the returned ID
`i` is not zero and afterwards, on a working connection, `GetUser("", i)`
returns without error a record whose ID is `i`, and so does `GetUser(e, 0)`
for the email `e` as the `VARCHAR(50)` column stores it: `u.Email` itself when
it has at most 50 characters, its first 50 characters when it is longer; in
the latter case, in a table whose emails have at most 50 characters,
`GetUser(u.Email, 0)` returns `sql.ErrNoRows`. `CreateUser` returns without
error for a record whose email is not stored when hashing succeeds with a
digest of at most 100 characters, the values fit their columns, the connection
works and the id drawn is unused. `GetUser` with ID 0 returns a row of the
given email, and with another ID a row of that id whatever the email argument
is. -/
theorem CreateUser_GetUser (B : Bcrypt) (salt : String) (conn c2 c3 : Conn) (db : DB)
    (u : User) :
    ((CreateUser B salt conn db u).2.2 = none → c2.queryErr = none → c3.queryErr = none →
      (CreateUser B salt conn db u).2.1.ID ≠ 0 ∧
      (GetUser c3 (CreateUser B salt conn db u).1 "" (CreateUser B salt conn db u).2.1.ID).2
        = none ∧
      (GetUser c3 (CreateUser B salt conn db u).1 "" (CreateUser B salt conn db u).2.1.ID).1.ID
        = (CreateUser B salt conn db u).2.1.ID ∧
      (GetUser c2 (CreateUser B salt conn db u).1 (String.mk (u.Email.data.take 50)) 0).2
        = none ∧
      (GetUser c2 (CreateUser B salt conn db u).1 (String.mk (u.Email.data.take 50)) 0).1.ID =
        (CreateUser B salt conn db u).2.1.ID ∧
      (u.Email.length ≤ 50 →
        (GetUser c2 (CreateUser B salt conn db u).1 u.Email 0).2 = none ∧
        (GetUser c2 (CreateUser B salt conn db u).1 u.Email 0).1.ID =
          (CreateUser B salt conn db u).2.1.ID) ∧
      (50 < u.Email.length → (∀ row ∈ db.account_user, row.email.length ≤ 50) →
        GetUser c2 (CreateUser B salt conn db u).1 u.Email 0 = (User.zero, some ErrNoRows))) ∧
    (∀ h : String, HashPassword B salt u.Password = (h, none) → h.length ≤ 100 →
      (u.Email.length ≤ 50 ∧ u.FullName.length ≤ 50 ∧ u.Address.length ≤ 100 ∧
        u.PhoneNumber.length ≤ 20 ∧ u.Role.length ≤ 20) →
      (conn.beginErr = none ∧ conn.queryErr = none ∧ conn.commitErr = none) →
      (∀ row ∈ db.account_user, row.id ≠ ((db.account_user_id_seq + 1 : Nat) : Int)) →
      (∀ row ∈ db.account_user, row.email ≠ u.Email) →
      (CreateUser B salt conn db u).2.2 = none) ∧
    (∀ (email : String) (found : User), GetUser c2 db email 0 = (found, none) →
      found.Email = email) ∧
    (∀ (e1 e2 : String) (ID : Int), ID ≠ 0 →
      GetUser c2 db e1 ID = GetUser c2 db e2 ID ∧
      ∀ found : User, GetUser c2 db e1 ID = (found, none) → found.ID = ID) := by
  refine ⟨?_, ?_, ?_, ?_⟩
  · intro hok h2 h3
    rcases CreateUser_cases B salt conn db u with ⟨e, -, hc⟩ | ⟨h, hh, hc⟩
    · rw [hc] at hok; simp at hok
    · rcases hc with ⟨e, -, hc⟩ | ⟨e, -, -, -, hc⟩ | ⟨id, -, -, hi, ⟨e, -, hc⟩ | ⟨-, hc⟩⟩
      · rw [hc] at hok; simp at hok
      · rw [hc] at hok; simp at hok
      · rw [hc] at hok; simp at hok
      · obtain ⟨hid, row, hrow, husers, -, hfresh, hnew⟩ := insertUser_ok db u.Email h
          u.FullName u.Address u.PhoneNumber u.Role id hi
        have hv := (userRowOf_eq_ok _ _ _ _ _ _ _ _).mp hrow
        obtain ⟨htake, hlen, hfit, -⟩ := varchar_eq_ok 50 u.Email row.email hv.2.1
        have hne : id ≠ 0 := by rw [hid]; omega
        have hfe : (db.insertUser u.Email h u.FullName u.Address u.PhoneNumber
            u.Role).1.account_user.find? (fun r => r.email = row.email) = some row := by
          rw [husers]
          apply find?_append_new
          · simp
          · intro r hr
            simpa using hnew r hr
        have hfi : (db.insertUser u.Email h u.FullName u.Address u.PhoneNumber
            u.Role).1.account_user.find? (fun r => r.id = id) = some row := by
          rw [husers]
          apply find?_append_new
          · simp [hv.1]
          · intro r hr
            simpa using hfresh r hr
        have hge : GetUser c2 (db.insertUser u.Email h u.FullName u.Address u.PhoneNumber
            u.Role).1 row.email 0 = (row.toUser, none) := by
          simp [GetUser, h2, hfe]
        have hrid : row.toUser.ID = id := hv.1
        rw [hc]
        dsimp only
        refine ⟨hne, ?_, ?_, ?_, ?_, ?_, ?_⟩
        · simp [GetUser, h3, hne, hfi]
        · simp [GetUser, h3, hne, hfi, hrid]
        · rw [← htake, hge]
        · rw [← htake, hge]; exact hrid
        · intro hl
          have hge2 := hge
          rw [hfit hl] at hge2
          rw [hge2]
          exact ⟨rfl, hrid⟩
        · intro hlong hrows
          have hnone : (db.insertUser u.Email h u.FullName u.Address u.PhoneNumber
              u.Role).1.account_user.find? (fun r => r.email = u.Email) = none := by
            rw [List.find?_eq_none, husers]
            intro r hr hp
            simp only [decide_eq_true_eq] at hp
            have hl : r.email.length ≤ 50 := by
              rcases List.mem_append.mp hr with hm | hm
              · exact hrows r hm
              · rw [List.mem_singleton] at hm
                rw [hm]; exact hlen
            rw [hp] at hl
            omega
          simp [GetUser, h2, hnone]
  · intro h hh hlen hfit hconn hfresh hnew
    have hins := insertUser_succeeds db u.Email h u.FullName u.Address u.PhoneNumber u.Role _
      (userRowOf_of_fit _ _ _ _ _ _ _ ⟨hfit.1, hlen, hfit.2⟩) hfresh hnew
    rcases CreateUser_cases B salt conn db u with ⟨e, he, -⟩ | ⟨h2, hh2, hc⟩
    · rw [hh] at he; simp at he
    · rw [hh] at hh2
      have heq : h = h2 := (Prod.mk.inj hh2).1
      subst heq
      rcases hc with ⟨e, hce, -⟩ | ⟨e, -, -, hie, -⟩ | ⟨id, -, -, -, ⟨e, hce, -⟩ | ⟨-, hc⟩⟩
      · rcases hce with hce | ⟨-, hce⟩
        · rw [hconn.1] at hce; simp at hce
        · rw [hconn.2.1] at hce; simp at hce
      · rw [hins] at hie; simp at hie
      · rw [hconn.2.2] at hce; simp at hce
      · rw [hc]
  · intro email found hg
    obtain ⟨row, -, hu, hf⟩ := GetUser_ok_row c2 db email 0 found hg
    simp only [if_true] at hf
    have := List.find?_some hf
    rw [hu]
    simpa [UserRow.toUser] using this
  · intro e1 e2 ID hID
    refine ⟨by simp [GetUser, hID], ?_⟩
    intro found hg
    obtain ⟨row, -, hu, hf⟩ := GetUser_ok_row c2 db e1 ID found hg
    rw [if_neg hID] at hf
    have := List.find?_some hf
    rw [hu]
    simpa [UserRow.toUser] using this

/-- Witness for C26 (amended): the demo registration, then both lookups. -/
theorem CreateUser_GetUser_witness :
    (GetUser Conn.healthy (CreateUser Demo.bcrypt "salt" Conn.healthy Demo.emptyDB
        ⟨0, "a@b.c", "x", "A", "A", "0", "user"⟩).1 "a@b.c" 0).1.ID =
      (CreateUser Demo.bcrypt "salt" Conn.healthy Demo.emptyDB
        ⟨0, "a@b.c", "x", "A", "A", "0", "user"⟩).2.1.ID ∧
    (GetUser Conn.healthy (CreateUser Demo.bcrypt "salt" Conn.healthy Demo.emptyDB
        ⟨0, "a@b.c", "x", "A", "A", "0", "user"⟩).1 ""
      (CreateUser Demo.bcrypt "salt" Conn.healthy Demo.emptyDB
        ⟨0, "a@b.c", "x", "A", "A", "0", "user"⟩).2.1.ID).1.ID =
      (CreateUser Demo.bcrypt "salt" Conn.healthy Demo.emptyDB
        ⟨0, "a@b.c", "x", "A", "A", "0", "user"⟩).2.1.ID :=
  have h := (CreateUser_GetUser Demo.bcrypt "salt" Conn.healthy Conn.healthy Conn.healthy
    Demo.emptyDB ⟨0, "a@b.c", "x", "A", "A", "0", "user"⟩).1 (by decide) rfl rfl
  ⟨(h.2.2.2.2.2.1 (by decide)).2, h.2.2.1⟩

end Ecom

namespace Ecom

/-- C27: a token that decodes under an HMAC method, verifies under the secret
and has valid time claims, but carries no email claim (or no role claim), is
not rejected: the absent claim is printed as `<nil>`, which is not blank, and
`ValidateJWT` returns the map holding `<nil>` for it, as long as the other
claim is not blank. -/
theorem ValidateJWT_absent_claim (L : JWTLib) (cfg : Config) (now : Int) (s : String)
    (h : SigningMethodHMAC) (claims : MapClaims)
    (hp : L.ParseUnverified s = some (SigningMethod.hmac h, claims))
    (hvalid : L.ClaimsValid claims now = true) (hver : L.Verify s cfg.JWTSecretKey = true) :
    (claims.get "email" = none → TrimSpace (Sprint (claims.get "role")) ≠ "" →
      ValidateJWT L cfg now s =
        some [("email", "<nil>"), ("role", Sprint (claims.get "role"))]) ∧
    (claims.get "role" = none → TrimSpace (Sprint (claims.get "email")) ≠ "" →
      ValidateJWT L cfg now s =
        some [("email", Sprint (claims.get "email")), ("role", "<nil>")]) ∧
    TrimSpace (Sprint none) ≠ "" := by
  have hnil : TrimSpace "<nil>" ≠ "" := by decide
  have hs : Sprint none = "<nil>" := rfl
  refine ⟨?_, ?_, hnil⟩
  · intro he hr
    simp [ValidateJWT, JWTLib.Parse, hp, keyFunc, hvalid, hver, he, hs, hnil, hr]
  · intro hr he
    simp [ValidateJWT, JWTLib.Parse, hp, keyFunc, hvalid, hver, hr, hs, hnil, he]

/-- Witness for C27: a token signed under the secret with a role and an expiry
and no email claim. -/
theorem ValidateJWT_absent_claim_witness :
    ValidateJWT Demo.jwt Demo.env.config 5
      (Demo.jwt.SignedString (SigningMethod.hmac SigningMethodHMAC.HS256)
        [("role", ClaimValue.str "user"), ("exp", ClaimValue.num 1800)] "secret").1 =
      some [("email", "<nil>"), ("role", "user")] :=
  (ValidateJWT_absent_claim Demo.jwt Demo.env.config 5 _ SigningMethodHMAC.HS256
    [("role", ClaimValue.str "user"), ("exp", ClaimValue.num 1800)]
    (by decide) (by decide) (by decide)).1 (by decide) (by decide)

/-- The three ways `AuthenticateUser` can end. -/
theorem AuthenticateUser_outcomes (E : Env) (now : Int) (c1 c2 : Conn) (db : DB) (u : User) :
    ((AuthenticateUser E now c1 c2 db u).2.2.1 = 400 ∧
      (AuthenticateUser E now c1 c2 db u).2.2.2.2 = none) ∨
    ((AuthenticateUser E now c1 c2 db u).2.2.1 = 500 ∧
      (AuthenticateUser E now c1 c2 db u).2.1 = "" ∧
      ∃ e : String, (AuthenticateUser E now c1 c2 db u).2.2.2.2 = some e) ∨
    ((AuthenticateUser E now c1 c2 db u).2.2.1 = 200 ∧
      (AuthenticateUser E now c1 c2 db u).2.2.2.2 = none) := by
  unfold AuthenticateUser
  cases hg : GetUser c1 db u.Email 0 with
  | mk existedUser e =>
    cases e with
    | some e => left; exact ⟨rfl, rfl⟩
    | none =>
      dsimp only
      cases hc : ComparePassword E.bcrypt existedUser.Password u.Password with
      | some e => left; exact ⟨rfl, rfl⟩
      | none =>
        dsimp only
        cases hgen : GenerateJWT E.jwt E.config now existedUser.Email existedUser.Role with
        | mk tokenString e =>
          cases e with
          | some e => right; left; exact ⟨rfl, rfl, e, rfl⟩
          | none =>
            dsimp only
            cases hcs : CreateUserSession c2 db ⟨0, tokenString, existedUser⟩ with
            | mk db1 rest =>
              obtain ⟨us1, e⟩ := rest
              cases e with
              | some e => right; left; exact ⟨rfl, rfl, e, rfl⟩
              | none => right; right; exact ⟨rfl, rfl⟩

theorem LoginHandler_rejected (E : Env) (now : Int) (c1 c2 : Conn) (db : DB) (r : Request)
    (hvalid : (IsUserFormValid ⟨0, FormValue r "email", FormValue r "password", "", "", "", ""⟩
      "login").1 = true)
    (h : (GetUser c1 db (FormValue r "email") 0).2 ≠ none ∨
      ComparePassword E.bcrypt (GetUser c1 db (FormValue r "email") 0).1.Password
        (FormValue r "password") ≠ none) :
    LoginHandler E now c1 c2 db r = (db, ⟨400, messageBody "Email or Password invalid"⟩) := by
  have ha := AuthenticateUser_rejected E now c1 c2 db
    ⟨0, FormValue r "email", FormValue r "password", "", "", "", ""⟩ h
  unfold LoginHandler
  dsimp only
  cases hv : IsUserFormValid ⟨0, FormValue r "email", FormValue r "password", "", "", "", ""⟩
      "login" with
  | mk ok reason =>
    rw [hv] at hvalid
    dsimp only at hvalid
    subst hvalid
    dsimp only
    rw [ha]
    simp

/-- C29: whenever `GetUser` returns an error or `ComparePassword` returns an
error, `AuthenticateUser` returns the empty token, status 400 and a nil error,
with the database as it was, and a login whose form is valid is answered 400
"Email or Password invalid"; a non-nil error comes only with status 500. -/
theorem AuthenticateUser_errors (E : Env) (now : Int) (c1 c2 : Conn) (db : DB) (u : User) :
    (((GetUser c1 db u.Email 0).2 ≠ none ∨
        ComparePassword E.bcrypt (GetUser c1 db u.Email 0).1.Password u.Password ≠ none) →
      AuthenticateUser E now c1 c2 db u = (db, "", 400, (GetUser c1 db u.Email 0).1, none)) ∧
    ((AuthenticateUser E now c1 c2 db u).2.2.2.2 ≠ none →
      (AuthenticateUser E now c1 c2 db u).2.2.1 = 500) ∧
    (∀ r : Request,
      (IsUserFormValid ⟨0, FormValue r "email", FormValue r "password", "", "", "", ""⟩
        "login").1 = true →
      ((GetUser c1 db (FormValue r "email") 0).2 ≠ none ∨
        ComparePassword E.bcrypt (GetUser c1 db (FormValue r "email") 0).1.Password
          (FormValue r "password") ≠ none) →
      LoginHandler E now c1 c2 db r =
        (db, ⟨400, messageBody "Email or Password invalid"⟩)) := by
  refine ⟨AuthenticateUser_rejected E now c1 c2 db u, ?_,
    fun r hv h => LoginHandler_rejected E now c1 c2 db r hv h⟩
  intro hne
  rcases AuthenticateUser_outcomes E now c1 c2 db u with ⟨-, he⟩ | ⟨hs, -, -⟩ | ⟨-, he⟩
  · exact absurd he hne
  · exact hs
  · exact absurd he hne

/-- Witness for C29: the user lookup of a login fails on a broken connection;
the answer is 400, not 500. -/
theorem AuthenticateUser_errors_witness :
    LoginHandler Demo.env 0 ⟨none, none, some "driver: bad connection", none⟩ Conn.healthy
        Demo.registeredDB Demo.loginRequest =
      (Demo.registeredDB, ⟨400, messageBody "Email or Password invalid"⟩) :=
  (AuthenticateUser_errors Demo.env 0 ⟨none, none, some "driver: bad connection", none⟩
    Conn.healthy Demo.registeredDB ⟨0, "a@b.c", "x", "", "", "", ""⟩).2.2 Demo.loginRequest
    (by decide) (Or.inl (by decide))

end Ecom

namespace Ecom

theorem isSpace_not_digit_or_sign (c : Char) (h : isSpace c = true) :
    c ≠ '-' ∧ c ≠ '+' ∧ ¬ (48 ≤ c.toNat ∧ c.toNat ≤ 57) := by
  refine ⟨?_, ?_, ?_⟩
  · intro hc; subst hc; revert h; decide
  · intro hc; subst hc; revert h; decide
  · intro hd
    unfold isSpace at h
    simp only [Bool.or_eq_true, Bool.and_eq_true, Nat.ble_eq, beq_iff_eq] at h
    omega

theorem Atoi_ok_nonblank (s : String) (h : (Atoi s).2 = none) : TrimSpace s ≠ "" := by
  intro hblank
  have hall := (TrimSpace_eq_empty_iff s).mp hblank
  unfold Atoi at h
  cases hs : s.data with
  | nil => simp [hs] at h
  | cons c cs =>
    have hc := hall c (by simp [hs])
    obtain ⟨h1, h2, h3⟩ := isSpace_not_digit_or_sign c hc
    simp [hs, h1, h2, digitsValue, h3] at h

/-- C28: when the id parameter parses to 0, `GetUserHandler` answers as the
lookup by email of the empty string does, whatever the email parameter of the
request: 500 when no stored user has the empty email (also when a row has id
0), and 200 with the first such row, password emptied, when one exists and
the connection works. -/
theorem GetUserHandler_id_zero (conn : Conn) (db : DB) (r : Request)
    (h : Atoi (FormValue r "id") = (0, none)) :
    (∀ r2 : Request, FormValue r2 "id" = FormValue r "id" →
      GetUserHandler conn db r2 = GetUserHandler conn db r) ∧
    ((∀ row ∈ db.account_user, row.email ≠ "") →
      (GetUserHandler conn db r).status = 500 ∧
      (conn.queryErr = none → GetUserHandler conn db r = ⟨500, messageBody ErrNoRows⟩)) ∧
    (∀ row : UserRow, conn.queryErr = none →
      db.account_user.find? (fun r1 => r1.email = "") = some row →
      GetUserHandler conn db r = ⟨200, Body.data { row.toUser with Password := "" }⟩) := by
  have hb : TrimSpace (FormValue r "id") ≠ "" := Atoi_ok_nonblank _ (by rw [h])
  have hgh1 : ∀ user : User, GetUser conn db "" 0 = (user, none) →
      GetUserHandler conn db r = ⟨200, Body.data { user with Password := "" }⟩ := by
    intro user hg
    unfold GetUserHandler
    dsimp only
    rw [if_pos hb, h]
    dsimp only
    rw [hg]
  have hgh2 : ∀ (user : User) (e : String), GetUser conn db "" 0 = (user, some e) →
      GetUserHandler conn db r = ⟨500, messageBody e⟩ := by
    intro user e hg
    unfold GetUserHandler
    dsimp only
    rw [if_pos hb, h]
    dsimp only
    rw [hg]
  refine ⟨?_, ?_, ?_⟩
  · intro r2 h2
    unfold GetUserHandler
    dsimp only
    rw [h2, if_pos hb, if_pos hb]
  · intro hno
    have hf : db.account_user.find? (fun r1 => r1.email = "") = none := by
      rw [List.find?_eq_none]
      intro row hrow
      simpa using hno row hrow
    constructor
    · cases hq : conn.queryErr with
      | some e =>
        rw [hgh2 User.zero e (by simp [GetUser, hq])]
      | none =>
        rw [hgh2 User.zero ErrNoRows (by simp [GetUser, hq, hf])]
    · intro hq
      exact hgh2 User.zero ErrNoRows (by simp [GetUser, hq, hf])
  · intro row hq hf
    exact hgh1 row.toUser (by simp [GetUser, hq, hf])

/-- Witness for C28: on the demo database the lookup with id "0" and the email
of the registered user is answered 500. -/
theorem GetUserHandler_id_zero_witness :
    GetUserHandler Conn.healthy Demo.registeredDB [("id", "0"), ("email", "a@b.c")] =
      ⟨500, messageBody ErrNoRows⟩ :=
  ((GetUserHandler_id_zero Conn.healthy Demo.registeredDB [("id", "0"), ("email", "a@b.c")]
    (by decide)).2.1 (by decide)).2 rfl

end Ecom

namespace Ecom

/-- C25 (counterexample): the lookup of an email no user has is answered 500
with the text of the storage error itself as message. -/
theorem server_error_message_is_raw :
    (GetUser Conn.healthy Demo.registeredDB "nobody@b.c" 0).2 =
      some "sql: no rows in result set" ∧
    GetUserHandler Conn.healthy Demo.registeredDB [("email", "nobody@b.c")] =
      ⟨500, messageBody "sql: no rows in result set"⟩ ∧
    (CreateUser Demo.bcrypt "salt" ⟨some "driver: bad connection", none, none, none⟩
      Demo.emptyDB ⟨0, "a@b.c", "x", "A", "A", "0", "user"⟩).2.2 =
      some "driver: bad connection" ∧
    (RegisterHandler Demo.env "salt" ⟨some "driver: bad connection", none, none, none⟩
      Demo.emptyDB Demo.registerRequest).2 =
      ⟨500, messageBody "There's an error when register user => driver: bad connection"⟩ := by
  decide

/-- C25 (amended): a 500 answer carries the error of the failed operation
itself: `RegisterHandler` sends the error text of `CreateUser` after the prefix
"There's an error when register user => ", `AuthorizeHandler` and
`GetUserHandler` send the error text of the failed lookup as the message, and
`LoginHandler` and `LogoutHandler` put the error value of `AuthenticateUser`
and of `DeleteUserSession` in the message field. -/
theorem server_error_message (E : Env) (salt : String) (now : Int) (c1 c2 : Conn) (db : DB)
    (r : Request) :
    ((RegisterHandler E salt c1 db r).2.status = 500 →
      ∃ e : String,
        (CreateUser E.bcrypt salt c1 db ⟨0, FormValue r "email", FormValue r "password",
          FormValue r "full_name", FormValue r "address", FormValue r "phone_number",
          FormValue r "role"⟩).2.2 = some e ∧
        (RegisterHandler E salt c1 db r).2 =
          ⟨500, messageBody ("There's an error when register user => " ++ e)⟩) ∧
    ((LoginHandler E now c1 c2 db r).2.status = 500 →
      ∃ e : String,
        (AuthenticateUser E now c1 c2 db
          ⟨0, FormValue r "email", FormValue r "password", "", "", "", ""⟩).2.2.2.2 = some e ∧
        (LoginHandler E now c1 c2 db r).2 =
          ⟨500, Body.content [("message", Any.err (some e))]⟩) ∧
    ((AuthorizeHandler E now c1 c2 db r).status = 500 →
      ∃ (e : String) (m : List (String × String)),
        ValidateJWT E.jwt E.config now (FormValue r "token") = some m ∧
        ((GetUser c1 db (mapGet m "email") 0).2 = some e ∨
          (GetUserSession c2 db (FormValue r "token")
            (GetUser c1 db (mapGet m "email") 0).1.ID).2 = some e) ∧
        AuthorizeHandler E now c1 c2 db r = ⟨500, messageBody e⟩) ∧
    ((LogoutHandler c1 db r).2.status = 500 →
      ∃ e : String, (DeleteUserSession c1 db (FormValue r "token")).2 = some e ∧
        (LogoutHandler c1 db r).2 = ⟨500, Body.content [("message", Any.err (some e))]⟩) ∧
    ((GetUserHandler c1 db r).status = 500 →
      ∃ (e email : String) (ID : Int), (GetUser c1 db email ID).2 = some e ∧
        GetUserHandler c1 db r = ⟨500, messageBody e⟩) := by
  refine ⟨?_, ?_, ?_, ?_, ?_⟩
  · intro h
    unfold RegisterHandler at h ⊢
    dsimp only at h ⊢
    cases hv : IsUserFormValid ⟨0, FormValue r "email", FormValue r "password",
        FormValue r "full_name", FormValue r "address", FormValue r "phone_number",
        FormValue r "role"⟩ "register" with
    | mk ok reason =>
      rw [hv] at h
      cases ok with
      | false => simp at h
      | true =>
        dsimp only at h ⊢
        cases hc : CreateUser E.bcrypt salt c1 db ⟨0, FormValue r "email",
          FormValue r "password", FormValue r "full_name", FormValue r "address",
          FormValue r "phone_number", FormValue r "role"⟩ with
        | mk db1 rest =>
          obtain ⟨created, e⟩ := rest
          rw [hc] at h
          cases e with
          | none => simp at h
          | some e =>
            dsimp only at h ⊢
            split_ifs at h ⊢
            · simp at h
            · exact ⟨e, rfl, rfl⟩
  · intro h
    have hout := AuthenticateUser_outcomes E now c1 c2 db
      ⟨0, FormValue r "email", FormValue r "password", "", "", "", ""⟩
    unfold LoginHandler at h ⊢
    dsimp only at h ⊢
    cases hv : IsUserFormValid ⟨0, FormValue r "email", FormValue r "password", "", "", "", ""⟩
        "login" with
    | mk ok reason =>
      rw [hv] at h
      cases ok with
      | false => simp at h
      | true =>
        dsimp only at h ⊢
        split_ifs at h ⊢ with h1 h2
        · simp at h
        · simp at h
        · rcases hout with ⟨hs, -⟩ | ⟨-, -, e, he⟩ | ⟨hs, he⟩
          · exact absurd hs h2
          · exact ⟨e, he, by rw [he]⟩
          · exact absurd ⟨hs, he⟩ h1
  · intro h
    unfold AuthorizeHandler at h ⊢
    dsimp only at h ⊢
    split_ifs at h ⊢ with hb
    · cases hv : ValidateJWT E.jwt E.config now (FormValue r "token") with
      | none => rw [hv] at h; simp at h
      | some m =>
        rw [hv] at h
        dsimp only at h ⊢
        cases hg : GetUser c1 db (mapGet m "email") 0 with
        | mk user e =>
          rw [hg] at h
          cases e with
          | some e => exact ⟨e, m, rfl, Or.inl (by rw [hg]), rfl⟩
          | none =>
            dsimp only at h ⊢
            cases hs : GetUserSession c2 db (FormValue r "token") user.ID with
            | mk us e =>
              rw [hs] at h
              cases e with
              | some e => exact ⟨e, m, rfl, Or.inr (by rw [hg]; exact congrArg Prod.snd hs), rfl⟩
              | none =>
                dsimp only at h
                split_ifs at h <;> simp at h
    · simp at h
  · intro h
    unfold LogoutHandler at h ⊢
    dsimp only at h ⊢
    split_ifs at h ⊢ with hb
    · cases hd : DeleteUserSession c1 db (FormValue r "token") with
      | mk db1 e =>
        rw [hd] at h
        cases e with
        | none => simp at h
        | some e => exact ⟨e, rfl, rfl⟩
    · simp at h
  · intro h
    unfold GetUserHandler at h ⊢
    dsimp only at h ⊢
    split_ifs at h ⊢ with hb he
    · cases ha : Atoi (FormValue r "id") with
      | mk ID e =>
        rw [ha] at h
        cases e with
        | some e => simp at h
        | none =>
          dsimp only at h ⊢
          cases hg : GetUser c1 db "" ID with
          | mk user e =>
            rw [hg] at h
            cases e with
            | none => simp at h
            | some e => exact ⟨e, "", ID, by rw [hg], rfl⟩
    · cases hg : GetUser c1 db (FormValue r "email") 0 with
      | mk user e =>
        rw [hg] at h
        cases e with
        | none => simp at h
        | some e => exact ⟨e, _, 0, by rw [hg], rfl⟩
    · simp at h

/-- Witness for C25 (amended): the authorize of a valid token whose user is
not stored sends the text of `sql.ErrNoRows`. -/
theorem server_error_message_witness :
    ∃ (e : String) (m : List (String × String)),
      ValidateJWT Demo.env.jwt Demo.env.config 5 (FormValue [("token", Demo.tokenAt 0)] "token")
        = some m ∧
      ((GetUser Conn.healthy Demo.emptyDB (mapGet m "email") 0).2 = some e ∨
        (GetUserSession Conn.healthy Demo.emptyDB (FormValue [("token", Demo.tokenAt 0)] "token")
          (GetUser Conn.healthy Demo.emptyDB (mapGet m "email") 0).1.ID).2 = some e) ∧
      AuthorizeHandler Demo.env 5 Conn.healthy Conn.healthy Demo.emptyDB
        [("token", Demo.tokenAt 0)] = ⟨500, messageBody e⟩ :=
  (server_error_message Demo.env "salt" 5 Conn.healthy Conn.healthy Demo.emptyDB
    [("token", Demo.tokenAt 0)]).2.2.1 (by decide)

end Ecom
